import Mathlib

/-!
# ahoyMiddlewareAPI: response cache, token cache and retrying fetch

A shallow embedding of the caching and retry layer of the API routes under
`src/pages/api/`.  Time is the millisecond counter that `Date.now()` reads,
a natural number.  A JavaScript `Map` is an association list in insertion
order; `null` and `undefined` results are `none`.  Parsed JSON payloads are
values of a type `J` that the routes read through the property reads of
`JsonOps`.
-/

set_option autoImplicit false

/-! ## JavaScript `Map` -/

namespace JsMap

/-- `Map.prototype.get`: the value stored under `k`, if any. -/
def get {β : Type} : List (String × β) → String → Option β
  | [], _ => none
  | (k', v) :: rest, k => if k' = k then some v else get rest k

/-- `Map.prototype.set`: replaces the value of an existing key in place,
appends a new key at the end. -/
def set {β : Type} : List (String × β) → String → β → List (String × β)
  | [], k, v => [(k, v)]
  | (k', v') :: rest, k, v =>
    if k' = k then (k, v) :: rest else (k', v') :: set rest k v

/-- `Map.prototype.delete`: removes the entry of `k`. -/
def delete {β : Type} : List (String × β) → String → List (String × β)
  | [], _ => []
  | (k', v) :: rest, k =>
    if k' = k then delete rest k else (k', v) :: delete rest k

end JsMap

/-! ## The response cache (`cache` in yacht.js, ship-details.js,
yacht-details.js and filtered-ships.js: the four copies are identical) -/

/-- The object `{ value, expiry }` that `cache.set` stores. -/
structure CacheItem (V : Type) where
  value : V
  expiry : Nat
deriving DecidableEq, Repr

/-- The field `cache.data`. -/
abbrev CacheData (V : Type) := List (String × CacheItem V)

namespace cache

/-- The field `ttl: 5 * 60 * 1000`. -/
def ttl : Nat := 5 * 60 * 1000

/-- The method `cache.get(key)` run when `Date.now()` reads `now`: the
returned value (`none` is `null`) and `cache.data` afterwards. -/
def get {V : Type} (data : CacheData V) (now : Nat) (key : String) :
    Option V × CacheData V :=
  match JsMap.get data key with
  | none => (none, data)
  | some item =>
    if now > item.expiry then (none, JsMap.delete data key)
    else (some item.value, data)

/-- The method `cache.set(key, value)` run when `Date.now()` reads `now`. -/
def set {V : Type} (data : CacheData V) (now : Nat) (key : String) (value : V) :
    CacheData V :=
  let expiry := now + ttl
  JsMap.set data key { value := value, expiry := expiry }

end cache

/-! ## Query objects and `JSON.stringify`

`req.query` is an object whose values are strings or arrays of strings.  It
is represented by the list of its properties in the order in which the object
enumerates them; strings are sequences of Unicode scalar values. -/

/-- A value of `req.query`: a string, or an array of strings for a parameter
that occurs more than once. -/
inductive QueryValue where
  | str (s : String)
  | arr (xs : List String)
deriving DecidableEq, Repr

/-- The object `req.query`, as the list of its properties in enumeration
order. -/
abbrev Query := List (String × QueryValue)

/-- Truthiness of a query value: a string is truthy unless empty, an array is
an object and always truthy. -/
def QueryValue.truthy : QueryValue → Bool
  | .str s => s ≠ ""
  | .arr _ => true

/-- The string a query value turns into inside a template literal or as a URL
parameter: an array is joined with commas. -/
def QueryValue.toStr : QueryValue → String
  | .str s => s
  | .arr xs => ",".intercalate xs

namespace JSON

/-- The character U+0022, the double quote. -/
def quoteMark : Char := Char.ofNat 34

/-- The character U+005C, the reverse solidus. -/
def backslash : Char := Char.ofNat 92

/-- A lowercase hexadecimal digit. -/
def hexDigit (n : Nat) : Char :=
  if n < 10 then Char.ofNat (48 + n) else Char.ofNat (87 + n)

/-- The escape `UnicodeEscape(C)`: a reverse solidus, `u` and four
hexadecimal digits. -/
def unicodeEscape (c : Char) : List Char :=
  [backslash, 'u', hexDigit (c.toNat / 4096 % 16), hexDigit (c.toNat / 256 % 16),
    hexDigit (c.toNat / 16 % 16), hexDigit (c.toNat % 16)]

/-- What `QuoteJSONString` appends for one code point: the two-character
escapes of backspace, tab, line feed, form feed, carriage return, double
quote and reverse solidus, a `u` escape for the other code points below
U+0020, and the code point itself otherwise. -/
def quoteChar (c : Char) : List Char :=
  if c = Char.ofNat 8 then [backslash, 'b']
  else if c = Char.ofNat 9 then [backslash, 't']
  else if c = Char.ofNat 10 then [backslash, 'n']
  else if c = Char.ofNat 12 then [backslash, 'f']
  else if c = Char.ofNat 13 then [backslash, 'r']
  else if c = quoteMark then [backslash, quoteMark]
  else if c = backslash then [backslash, backslash]
  else if c.toNat < 32 then unicodeEscape c
  else [c]

/-- The escaped code points of a string, without the enclosing quotes. -/
def quoteBody : List Char → List Char
  | [] => []
  | c :: cs => quoteChar c ++ quoteBody cs

/-- The operation `QuoteJSONString`. -/
def quoteJSONString (s : String) : List Char :=
  quoteMark :: (quoteBody s.data ++ [quoteMark])

/-- The elements after the first one, each preceded by a comma, then the
closing bracket. -/
def sepBy {α : Type} (close : Char) (render : α → List Char) : List α → List Char
  | [] => [close]
  | x :: xs => ',' :: (render x ++ sepBy close render xs)

/-- The elements separated by commas, then the closing bracket. -/
def listBody {α : Type} (close : Char) (render : α → List Char) : List α → List Char
  | [] => [close]
  | x :: xs => render x ++ sepBy close render xs

/-- The serialisation of a property value: a quoted string, or the quoted
elements of an array between square brackets. -/
def serializeValue : QueryValue → List Char
  | .str s => quoteJSONString s
  | .arr xs => '[' :: listBody ']' quoteJSONString xs

/-- One member of an object: the quoted name, a colon, the value. -/
def serializeMember (m : String × QueryValue) : List Char :=
  quoteJSONString m.1 ++ ':' :: serializeValue m.2

/-- The members in enumeration order between curly brackets (U+007B and
U+007D). -/
def serializeObject (q : Query) : List Char :=
  Char.ofNat 123 :: listBody (Char.ofNat 125) serializeMember q

/-- The call `JSON.stringify(req.query)`. -/
def stringify (q : Query) : String := String.mk (serializeObject q)

/-- The value of a hexadecimal digit (used to read an escape back). -/
def hexValue (c : Char) : Nat :=
  if c.toNat < 58 then c.toNat - 48 else c.toNat - 87

/-- Reads one escaped code point back from the front of a text: the inverse
of `quoteChar`, used to show that the serialisation loses nothing. -/
def unquoteChar : List Char → Option (Char × List Char)
  | [] => none
  | c :: rest =>
    if c = backslash then
      match rest with
      | 'b' :: r => some (Char.ofNat 8, r)
      | 't' :: r => some (Char.ofNat 9, r)
      | 'n' :: r => some (Char.ofNat 10, r)
      | 'f' :: r => some (Char.ofNat 12, r)
      | 'r' :: r => some (Char.ofNat 13, r)
      | 'u' :: _ :: _ :: h1 :: h0 :: r => some (Char.ofNat (16 * hexValue h1 + hexValue h0), r)
      | x :: r =>
        if x = quoteMark then some (quoteMark, r)
        else if x = backslash then some (backslash, r) else none
      | [] => none
    else some (c, rest)

end JSON

/-- The cache key of yacht.js: `JSON.stringify(req.query)`. -/
def Yacht.cacheKey (query : Query) : String := JSON.stringify query

/-- The cache key of filtered-ships.js:
`"filtered-ships-" + JSON.stringify(req.query)`. -/
def FilteredShips.cacheKey (query : Query) : String :=
  "filtered-ships-" ++ JSON.stringify query

/-! ## Errors and the outcome of a retrying fetch -/

/-- A thrown JavaScript error, as far as the routes inspect it: `error.name`,
`error.message` and, on an axios error that carries a response,
`error.response.status` with `error.response.data`. -/
structure JsError (J : Type) where
  name : String
  message : String
  response : Option (Nat × J)
deriving DecidableEq, Repr

/-- The value `new Error(message)`. -/
def newError {J : Type} (message : String) : JsError J :=
  { name := "Error", message := message, response := none }

/-- How one call of a `fetchWithRetry` ends: it returns a payload, returns
without a value (`undefined`), throws an error, or throws `undefined`. -/
inductive Completion (E P : Type) where
  | returned (payload : P)
  | returnedUndefined
  | threw (error : E)
  | threwUndefined
deriving DecidableEq, Repr

/-- A finished call of a `fetchWithRetry`: how it ended, how many requests it
issued, and the delays passed to `setTimeout` between them, in order. -/
structure Run (E P : Type) where
  outcome : Completion E P
  attempts : Nat
  waits : List Nat
deriving DecidableEq, Repr

/-- The default `maxRetries = 3` (yacht.js: `retries = 3`). -/
def defaultRetries : Nat := 3

/-- The default `delay = 1000`. -/
def defaultDelay : Nat := 1000

/-! ## `fetchWithRetry` of ship-details.js and yacht-details.js

The target is what `axios(url, options)` settles to at each attempt, counted
from 0: `.ok data` is a resolved response with `response.data = data`,
`.error e` a rejection with `e`. -/

namespace ShipDetails

/-- The `for (let attempt = 0; attempt < maxRetries; attempt++)` loop, with
`n = maxRetries - attempt` iterations left; at `n = 0` the loop condition is
false and the function ends without a `return`. -/
def fetchWithRetry.loop {E P : Type} (target : Nat → Except E P) (maxRetries delay : Nat) :
    Nat → Nat → List Nat → Run E P
  | 0, attempt, waits => { outcome := .returnedUndefined, attempts := attempt, waits := waits }
  | n + 1, attempt, waits =>
    match target attempt with
    | .ok data => { outcome := .returned data, attempts := attempt + 1, waits := waits }
    | .error error =>
      -- lastError = error
      if attempt = maxRetries - 1 then
        { outcome := .threw error, attempts := attempt + 1, waits := waits }
      else
        fetchWithRetry.loop target maxRetries delay n (attempt + 1)
          (waits ++ [delay * (attempt + 1)])

/-- The function `fetchWithRetry(url, options, maxRetries, delay)`. -/
def fetchWithRetry {E P : Type} (target : Nat → Except E P) (maxRetries delay : Nat) :
    Run E P :=
  fetchWithRetry.loop target maxRetries delay maxRetries 0 []

end ShipDetails

namespace YachtDetails

/-- The function `fetchWithRetry` of yacht-details.js: the same text as in
ship-details.js. -/
def fetchWithRetry {E P : Type} (target : Nat → Except E P) (maxRetries delay : Nat) :
    Run E P :=
  ShipDetails.fetchWithRetry target maxRetries delay

end YachtDetails

/-! ## `fetchWithRetry` of filtered-ships.js -/

namespace FilteredShips

/-- The retry loop, carrying `lastError` (`none` is `undefined`); after the
loop the function runs `throw lastError`. -/
def fetchWithRetry.loop {E P : Type} (target : Nat → Except E P) (maxRetries delay : Nat) :
    Nat → Nat → Option E → List Nat → Run E P
  | 0, attempt, lastError, waits =>
    match lastError with
    | some e => { outcome := .threw e, attempts := attempt, waits := waits }
    | none => { outcome := .threwUndefined, attempts := attempt, waits := waits }
  | n + 1, attempt, _, waits =>
    match target attempt with
    | .ok data => { outcome := .returned data, attempts := attempt + 1, waits := waits }
    | .error error =>
      if attempt = maxRetries - 1 then
        { outcome := .threw error, attempts := attempt + 1, waits := waits }
      else
        fetchWithRetry.loop target maxRetries delay n (attempt + 1) (some error)
          (waits ++ [delay * (attempt + 1)])

/-- The function `fetchWithRetry(url, options, maxRetries, delay)`. -/
def fetchWithRetry {E P : Type} (target : Nat → Except E P) (maxRetries delay : Nat) :
    Run E P :=
  fetchWithRetry.loop target maxRetries delay maxRetries 0 none []

end FilteredShips

/-! ## `fetchWithRetry` of yacht.js

Here the target is what `fetch(url, fetchOptions)` settles to at each attempt:
a rejection (a network failure, or the `AbortError` raised when the 10 second
timer aborts the request), or a response. -/

/-- A `Response` of `fetch`: `response.ok`, `response.status` and what
`response.json()` and `response.text()` settle to. -/
structure FetchResponse (J : Type) where
  ok : Bool
  status : Nat
  json : Except (JsError J) J
  text : Except (JsError J) String
deriving Repr

/-- What the promise of `fetch` settles to. -/
inductive FetchResult (J : Type) where
  | rejected (error : JsError J)
  | resolved (response : FetchResponse J)
deriving Repr

namespace Yacht

/-- The error `new Error("HTTP error! Status: " + response.status)`. -/
def httpError {J : Type} (status : Nat) : JsError J :=
  newError ("HTTP error! Status: " ++ toString status)

/-- The error `new Error("Request timed out for " + url)`. -/
def timeoutError {J : Type} (url : String) : JsError J :=
  newError ("Request timed out for " ++ url)

/-- The error `new Error("Max retries exceeded for " + url)`. -/
def maxRetriesError {J : Type} (url : String) : JsError J :=
  newError ("Max retries exceeded for " ++ url)

/-- The `try` block of one iteration: `.ok` is the value it returns, `.error`
the error that reaches the `catch`. -/
def attempt {J : Type} (r : FetchResult J) : Except (JsError J) J :=
  match r with
  | .rejected error => .error error
  | .resolved response =>
    if !response.ok then .error (httpError response.status)
    else response.json

/-- The `for (let i = 0; i < retries; i++)` loop, with `n = retries - i`
iterations left; after the loop comes `throw new Error("Max retries ...")`. -/
def fetchWithRetry.loop {J : Type} (url : String) (target : Nat → FetchResult J)
    (retries delay : Nat) : Nat → Nat → List Nat → Run (JsError J) J
  | 0, i, waits => { outcome := .threw (maxRetriesError url), attempts := i, waits := waits }
  | n + 1, i, waits =>
    match attempt (target i) with
    | .ok data => { outcome := .returned data, attempts := i + 1, waits := waits }
    | .error error =>
      if error.name = "AbortError" then
        { outcome := .threw (timeoutError url), attempts := i + 1, waits := waits }
      else if i = retries - 1 then
        { outcome := .threw error, attempts := i + 1, waits := waits }
      else
        fetchWithRetry.loop url target retries delay n (i + 1) (waits ++ [delay * 2 ^ i])

/-- An attempt fails with an ordinary error: the `try` block ends in the
`catch` with an error whose name is not `AbortError`. -/
def FailsOrdinarily {J : Type} (r : FetchResult J) : Prop :=
  match attempt r with
  | .error e => e.name ≠ "AbortError"
  | .ok _ => False

instance {J : Type} (r : FetchResult J) : Decidable (FailsOrdinarily r) := by
  unfold FailsOrdinarily
  split <;> infer_instance

/-- The function `fetchWithRetry(url, options, retries, delay)`. -/
def fetchWithRetry {J : Type} (url : String) (target : Nat → FetchResult J)
    (retries delay : Nat) : Run (JsError J) J :=
  fetchWithRetry.loop url target retries delay retries 0 []

end Yacht

/-! ## Requests, responses and the outside world -/

/-- The inbound request, as far as the routes read it: `req.method`,
`req.headers.origin` and `req.query`. -/
structure Request where
  method : String
  origin : Option String
  query : Query
deriving DecidableEq, Repr

/-- The `error` field of an error body: a string, or a JSON value taken from
the payload of a failed downstream response. -/
inductive ErrorValue (J : Type) where
  | text (s : String)
  | json (j : J)
deriving DecidableEq, Repr

/-- The body sent by `res.end()`, `res.json({ error })` or `res.json(data)`. -/
inductive Body (J D : Type) where
  | empty
  | error (error : ErrorValue J)
  | json (data : D)
deriving DecidableEq, Repr

/-- The response written through `res`: the headers given to `res.setHeader`,
the status given to `res.status` and the body. -/
structure Response (J D : Type) where
  headers : List (String × String)
  status : Nat
  body : Body J D
deriving DecidableEq, Repr

/-- An outbound HTTP request: method, URL without its query string, the
query parameters appended to the URL (or the form fields posted), and the
bearer token of the `Authorization` header when one is set. -/
structure HttpRequest where
  method : String
  url : String
  params : List (String × String)
  bearer : Option String
deriving DecidableEq, Repr

/-- An answer of the network together with the time it took to arrive. -/
structure Timed (α : Type) where
  elapsed : Nat
  value : α

/-- The services behind the routes: what `axios` and `fetch` settle to for
the `n`-th outbound request of the process (counted from 0) and how long
that takes. -/
structure Network (J : Type) where
  axios : Nat → HttpRequest → Timed (Except (JsError J) J)
  fetch : Nat → HttpRequest → Timed (FetchResult J)

/-- The part of the world that every route shares: the clock read by
`Date.now()`, the outbound requests issued so far (oldest first) and the
messages given to `console.warn`. -/
structure World where
  now : Nat
  calls : List HttpRequest
  warnings : List String
deriving DecidableEq, Repr

/-- The variables of `process.env` that the routes read. -/
structure ProcessEnv where
  BASE_URL : String
  NEXT_PUBLIC_BASE_ANKOR_API_URL : String
  NEXT_PUBLIC_COMPANY_URI : String
  PRIVATE_KEY : Option String
  KEY_ID : Option String
deriving DecidableEq, Repr

/-- Property reads on a parsed JSON payload `J`; `none` is a missing or falsy
property. -/
structure JsonOps (J : Type) where
  accessToken : J → Option String
  access_token : J → Option String
  error : J → Option J
  message : J → Option String
  estHits : J → Option J
  hits : J → Option (List J)
  name : J → Option J
  pricing : J → Option J

/-- The time taken by the requests number `start, ..., start + n - 1`. -/
def elapsedSum (elapsed : Nat → Nat) (start n : Nat) : Nat :=
  ((List.range' start n).map elapsed).sum

/-- The value `error.response?.status || 500`. -/
def JsError.statusOr500 {J : Type} (e : JsError J) : Nat :=
  match e.response with
  | some (status, _) => if status = 0 then 500 else status
  | none => 500

/-! ## The token cache (`tokenCache` in yacht.js, search.js, filtered-ships.js) -/

/-- The fields `token` and `expiry` of `tokenCache`; `none` is `null`. -/
structure TokenCache where
  token : Option String
  expiry : Nat
deriving DecidableEq, Repr

namespace tokenCache

/-- The field `ttl: 50 * 60 * 1000`. -/
def ttl : Nat := 50 * 60 * 1000

/-- The object as the module creates it: `token: null, expiry: 0`. -/
def initial : TokenCache := { token := none, expiry := 0 }

/-- The method `isValid()`, as a truth value: `this.token && Date.now() < this.expiry`. -/
def isValid (tc : TokenCache) (now : Nat) : Bool :=
  (match tc.token with
   | some t => t ≠ ""
   | none => false) && now < tc.expiry

/-- The method `set(token)`. -/
def set (_tc : TokenCache) (now : Nat) (token : String) : TokenCache :=
  { token := some token, expiry := now + ttl }

/-- The method `get()`. -/
def get (tc : TokenCache) (now : Nat) : Option String :=
  if isValid tc now then tc.token else none

end tokenCache

/-- The test `s.includes(sub)` on strings. -/
def strIncludes (s sub : String) : Bool :=
  s.data.tails.any (fun t => sub.data.isPrefixOf t)

/-- One `fetch` call run against the network. -/
def fetchIn {J : Type} (net : Network J) (r : HttpRequest) (w : World) :
    FetchResult J × World :=
  let t := net.fetch w.calls.length r
  (t.value, { w with now := w.now + t.elapsed, calls := w.calls ++ [r] })

/-- One `console.warn` call. -/
def World.warn (w : World) (message : String) : World :=
  { w with warnings := w.warnings ++ [message] }

/-! ## The route `/api/ship-details` (ship-details.js) -/

namespace ShipDetails

/-- The list `allowedOrigins`. -/
def allowedOrigins : List String :=
  ["https://yourfrontend.com", "https://staging.yourfrontend.com"]

/-- The `res.setHeader` calls at the top of the handler. -/
def corsHeaders (origin : Option String) : List (String × String) :=
  let allowOrigin :=
    match origin with
    | some o => if o ∈ allowedOrigins then o else "*"
    | none => "*"
  let h := JsMap.set [] "Access-Control-Allow-Origin" allowOrigin
  let h := JsMap.set h "Access-Control-Allow-Methods" "GET, OPTIONS"
  JsMap.set h "Access-Control-Allow-Headers" "Content-Type, Authorization"

/-- The call `await fetchWithRetry(url, options)` with the default limits,
run against the network: each attempt is one outbound request. -/
def fetchWithRetryIn {J : Type} (net : Network J) (r : HttpRequest) (w : World) :
    Completion (JsError J) J × World :=
  let first := w.calls.length
  let run := fetchWithRetry (fun i => (net.axios (first + i) r).value) defaultRetries defaultDelay
  (run.outcome,
   { w with
     now := w.now + elapsedSum (fun n => (net.axios n r).elapsed) first run.attempts
              + run.waits.sum
     calls := w.calls ++ List.replicate run.attempts r })

/-- The request `fetchWithRetry(BASE_URL + "/api/token", { method: "POST" })`. -/
def tokenRequest (env : ProcessEnv) : HttpRequest :=
  { method := "POST", url := env.BASE_URL ++ "/api/token", params := [], bearer := none }

/-- The request for `.../website/entity/<uri>` with the bearer token. -/
def entityRequest (env : ProcessEnv) (uri accessToken : String) : HttpRequest :=
  { method := "GET", url := env.NEXT_PUBLIC_BASE_ANKOR_API_URL ++ "/website/entity/" ++ uri,
    params := [], bearer := some accessToken }

/-- The `TypeError` of reading a property of `undefined`: what follows when
`fetchWithRetry` ends without a payload, which the default limit of 3
excludes. -/
def undefinedTypeError {J : Type} : JsError J :=
  { name := "TypeError", message := "Cannot read properties of undefined", response := none }

/-- The body of the `try` block of the handler: `.ok` is the response it
sends, `.error` the error that reaches the `catch`.  Cached values are
objects, so `if (cachedResponse)` holds exactly when `cache.get` returned a
value. -/
def handler.tryBlock {J D : Type} (env : ProcessEnv) (net : Network J) (ops : JsonOps J)
    (processShipDetails : J → Except (JsError J) D) (headers : List (String × String))
    (req : Request) (data : CacheData D) (w : World) :
    Except (JsError J) (Response J D) × CacheData D × World :=
  match JsMap.get req.query "uri" with
  | none =>
    (.ok { headers := headers, status := 400,
           body := .error (.text "URI parameter is required") }, data, w)
  | some uri =>
    if !uri.truthy then
      (.ok { headers := headers, status := 400,
             body := .error (.text "URI parameter is required") }, data, w)
    else
      let cacheKey := "ship-details-" ++ uri.toStr
      match cache.get data w.now cacheKey with
      | (some cachedResponse, data) =>
        (.ok { headers := headers, status := 200, body := .json cachedResponse }, data, w)
      | (none, data) =>
        match fetchWithRetryIn net (tokenRequest env) w with
        | (.returned tokenResponse, w) =>
          match ops.accessToken tokenResponse with
          | none => (.error (newError "Failed to retrieve access token"), data, w)
          | some accessToken =>
            if accessToken = "" then
              (.error (newError "Failed to retrieve access token"), data, w)
            else
              match fetchWithRetryIn net (entityRequest env uri.toStr accessToken) w with
              | (.returned shipDetailsData, w) =>
                match processShipDetails shipDetailsData with
                | .ok processedDetails =>
                  let data := cache.set data w.now cacheKey processedDetails
                  (.ok { headers := headers, status := 200, body := .json processedDetails },
                   data, w)
                | .error e => (.error e, data, w)
              | (.threw e, w) => (.error e, data, w)
              | (_, w) => (.error undefinedTypeError, data, w)
        | (.threw e, w) => (.error e, data, w)
        | (_, w) => (.error undefinedTypeError, data, w)

/-- The `error` field built in the `catch` block:
`error.response?.data?.error || error.message || "Internal Server Error"`. -/
def handler.errorField {J : Type} (ops : JsonOps J) (e : JsError J) : ErrorValue J :=
  match e.response.bind (fun r => ops.error r.2) with
  | some j => .json j
  | none => if e.message = "" then .text "Internal Server Error" else .text e.message

/-- The route handler of ship-details.js: the response it sends, and
`cache.data` and the world afterwards.  `processShipDetails` is the reshaping
function of the module, taken as a parameter: the object it builds from the
payload, or the error it throws. -/
def handler {J D : Type} (env : ProcessEnv) (net : Network J) (ops : JsonOps J)
    (processShipDetails : J → Except (JsError J) D)
    (req : Request) (data : CacheData D) (w : World) :
    Response J D × CacheData D × World :=
  let headers := corsHeaders req.origin
  if req.method = "OPTIONS" then
    ({ headers := headers, status := 200, body := .empty }, data, w)
  else if req.method ≠ "GET" then
    ({ headers := headers, status := 405, body := .error (.text "Method Not Allowed") },
     data, w)
  else
    match handler.tryBlock env net ops processShipDetails headers req data w with
    | (.ok response, data, w) => (response, data, w)
    | (.error error, data, w) =>
      ({ headers := headers, status := error.statusOr500,
         body := .error (handler.errorField ops error) }, data, w)

end ShipDetails

/-! ## The route `/api/search` (search.js) -/

namespace Search

/-- The list `allowedOrigins`. -/
def allowedOrigins : List String :=
  ["http://localhost:3000", "http://localhost:8000", "http://localhost", "https://localhost",
   "http://127.0.0.1", "https://127.0.0.1"]

/-- The `res.setHeader` calls at the top of the handler. -/
def corsHeaders (origin : Option String) : List (String × String) :=
  let h := JsMap.set [] "Access-Control-Allow-Credentials" "true"
  let allowOrigin :=
    match origin with
    | some o =>
      if o ≠ "" ∧ (o ∈ allowedOrigins ∨ strIncludes o "localhost") then o else "*"
    | none => "*"
  let h := JsMap.set h "Access-Control-Allow-Origin" allowOrigin
  let h := JsMap.set h "Access-Control-Allow-Methods" "GET,OPTIONS"
  JsMap.set h "Access-Control-Allow-Headers"
    "X-CSRF-Token, X-Requested-With, Accept, Accept-Version, Content-Length, Content-MD5, Content-Type, Date, X-Api-Version, Authorization"

/-- The object `parameterMapping`. -/
def parameterMapping : List (String × String) :=
  [("name", "name"), ("charterType", "charterType"), ("minLength", "minLength"),
   ("maxLength", "maxLength"), ("sleeps", "sleeps"), ("yachtType", "yachtType"),
   ("currency", "currency"), ("priceMin", "priceMin"), ("priceMax", "priceMax"),
   ("region", "region")]

/-- The string that a built-in function turns into as a property key or as the
name of a URL parameter: `function <name>() { [native code] }`. -/
def nativeFunction (name : String) : String :=
  "function " ++ name ++ "() \x7b [native code] \x7d"

/-- The members that an object literal inherits from `Object.prototype`, each
with the string that its value turns into: the built-in functions, and the
prototype object itself under `__proto__`. -/
def objectPrototype : List (String × String) :=
  [("constructor", nativeFunction "Object"),
   ("__defineGetter__", nativeFunction "__defineGetter__"),
   ("__defineSetter__", nativeFunction "__defineSetter__"),
   ("hasOwnProperty", nativeFunction "hasOwnProperty"),
   ("__lookupGetter__", nativeFunction "__lookupGetter__"),
   ("__lookupSetter__", nativeFunction "__lookupSetter__"),
   ("isPrototypeOf", nativeFunction "isPrototypeOf"),
   ("propertyIsEnumerable", nativeFunction "propertyIsEnumerable"),
   ("toString", nativeFunction "toString"),
   ("valueOf", nativeFunction "valueOf"),
   ("__proto__", "[object Object]"),
   ("toLocaleString", nativeFunction "toLocaleString")]

/-- The read `parameterMapping[key]`, as the string that `mappedKey` is used
as: a property written in the literal, or else a member inherited from
`Object.prototype`, which is truthy as well; `none` is `undefined`. -/
def mappedKeyOf (key : String) : Option String :=
  match JsMap.get parameterMapping key with
  | some mappedKey => some mappedKey
  | none => JsMap.get objectPrototype key

/-- The object `allowedValues`. -/
def allowedValues : List (String × List String) :=
  [("charterType", ["Bareboat", "Crewed"]),
   ("yachtType", ["Gulet", "Sailing", "Catamaran", "Motor", "Power Catamaran", "Classic",
      "Expedition", "Sport fishing"]),
   ("currency", ["USD", "EUR", "GBP", "AUD", "AED", "SGD", "HKD", "JPY", "CAD", "CHF", "BTC",
      "ETH"]),
   ("region", ["Africa", "Antarctica", "Arabian Gulf", "Australasia & South Pacific", "Bahamas",
      "Caribbean", "Indian Ocean & South East Asia", "North America", "Northern Europe",
      "East Mediterranean", "West Mediterranean", "South & Central America"])]

/-- The keys whose values are converted with `parseFloat`. -/
def numericKeys : List String := ["minLength", "maxLength", "sleeps", "priceMin", "priceMax"]

/-- The test `allowed.includes(value)`: an array value is never an element. -/
def includesValue (allowed : List String) : QueryValue → Bool
  | .str s => s ∈ allowed
  | .arr _ => false

/-- The callback of `Object.entries(req.query).forEach`: the search
parameters and the warnings so far, and those after the entry.
`parseFloat s` is `parseFloat(s).toString()`, or `none` when the number is
`NaN`.  The read `parameterMapping[key]` is `mappedKeyOf key`.  No mapped key
names a member of `Object.prototype`, so the read `allowedValues[mappedKey]`
finds the properties written in the literal only. -/
def addQueryParam (parseFloat : String → Option String)
    (acc : List (String × String) × List String) (entry : String × QueryValue) :
    List (String × String) × List String :=
  let (key, value) := entry
  if value.truthy then
    match mappedKeyOf key with
    | none => acc
    | some mappedKey =>
      let invalid :=
        match JsMap.get allowedValues mappedKey with
        | some allowed => !includesValue allowed value
        | none => false
      if invalid then
        (acc.1, acc.2 ++ ["Invalid value for " ++ mappedKey ++ ": " ++ value.toStr])
      else if mappedKey ∈ numericKeys then
        match parseFloat value.toStr with
        | none =>
          (acc.1, acc.2 ++ ["Invalid numeric value for " ++ mappedKey ++ ": " ++ value.toStr])
        | some numValue => (acc.1 ++ [(mappedKey, numValue)], acc.2)
      else
        (acc.1 ++ [(mappedKey, value.toStr)], acc.2)
  else acc

/-- The test `searchUrl.searchParams.has(name)`. -/
def hasParam (params : List (String × String)) (name : String) : Bool :=
  params.any (fun p => p.1 = name)

/-- The value `req.query[name] || fallback` as a URL parameter. -/
def queryOr (query : Query) (name fallback : String) : String :=
  match JsMap.get query name with
  | some v => if v.truthy then v.toStr else fallback
  | none => fallback

/-- The search parameters of `searchUrl` when the request is sent, and the
warnings logged while building them. -/
def searchParams (env : ProcessEnv) (parseFloat : String → Option String) (query : Query) :
    List (String × String) × List String :=
  let (params, warnings) := query.foldl (addQueryParam parseFloat) ([], [])
  let params := params ++ [("company", env.NEXT_PUBLIC_COMPANY_URI)]
  let params := if !hasParam params "currency" then params ++ [("currency", "USD")] else params
  let params :=
    if !hasParam params "priceMin" && !hasParam params "priceMax" then
      params ++ [("priceMin", "0"), ("priceMax", "1000000")]
    else params
  let params := params ++ [("limit", queryOr query "limit" "50")]
  let params := params ++ [("offset", queryOr query "offset" "0")]
  (params, warnings)

/-- The `pricing` of a hit: the downstream `yacht.pricing`, or the default
block `{ currency, day: { from: null }, week: { from: null } }`. -/
inductive HitPricing (J : Type) where
  | downstream (pricing : J)
  | default (currency : QueryValue)
deriving DecidableEq, Repr

/-- One element of `transformedData.hits`: the downstream record whose fields
`uri`, `hero`, `length`, `cabins`, `sleeps`, `builtYear`, `make`, `yachtType`,
`region` and `charterType` are copied, its `name` (`none` is the default
`'Unnamed Yacht'`) and its pricing. -/
structure Hit (J : Type) where
  yacht : J
  name : Option J
  pricing : HitPricing J
deriving DecidableEq, Repr

/-- The object `transformedData`; `total = none` is the literal `0` of
`data.estHits || 0`. -/
structure Result (J : Type) where
  total : Option J
  hits : List (Hit J)
deriving DecidableEq, Repr

/-- The request `fetch(BASE_URL + "/api/token", { method: "POST" })`. -/
def tokenRequest (env : ProcessEnv) : HttpRequest :=
  { method := "POST", url := env.BASE_URL ++ "/api/token", params := [], bearer := none }

/-- The request that registers the company. -/
def registerRequest (env : ProcessEnv) (accessToken : String) : HttpRequest :=
  { method := "POST",
    url := env.NEXT_PUBLIC_BASE_ANKOR_API_URL ++ "/website/register/"
      ++ env.NEXT_PUBLIC_COMPANY_URI,
    params := [("link", env.BASE_URL ++ "/yacht-search")], bearer := some accessToken }

/-- The request `fetch(searchUrl.toString(), ...)`. -/
def searchRequest (env : ProcessEnv) (params : List (String × String)) (accessToken : String) :
    HttpRequest :=
  { method := "GET", url := env.NEXT_PUBLIC_BASE_ANKOR_API_URL ++ "/website/search",
    params := params, bearer := some accessToken }

/-- The block `// Get access token`: the token, or the error thrown. -/
def handler.getAccessToken {J : Type} (env : ProcessEnv) (net : Network J) (ops : JsonOps J)
    (tc : TokenCache) (w : World) : Except (JsError J) String × TokenCache × World :=
  match tokenCache.get tc w.now with
  | some accessToken => (.ok accessToken, tc, w)
  | none =>
    match fetchIn net (tokenRequest env) w with
    | (.rejected e, w) => (.error e, tc, w)
    | (.resolved res, w) =>
      match res.json with
      | .error e => (.error e, tc, w)
      | .ok tokenResponse =>
        match ops.accessToken tokenResponse with
        | none => (.error (newError "Failed to retrieve access token"), tc, w)
        | some accessToken =>
          if accessToken = "" then
            (.error (newError "Failed to retrieve access token"), tc, w)
          else (.ok accessToken, tokenCache.set tc w.now accessToken, w)

/-- The block `// First, register the company if needed`; it never throws. -/
def handler.register {J : Type} (env : ProcessEnv) (net : Network J) (accessToken : String)
    (w : World) : World :=
  match fetchIn net (registerRequest env accessToken) w with
  | (.rejected _, w) => w.warn "Company registration error:"
  | (.resolved registerResponse, w) =>
    if !registerResponse.ok then w.warn "Company registration warning:" else w

/-- The value `errorData.message` after the block that reads the body of a
failed response, and whether reading it failed. -/
def handler.errorDataMessage {J : Type} (ops : JsonOps J) (parseJson : String → Option J)
    (response : FetchResponse J) : Option String × Bool :=
  match response.text with
  | .error _ => (none, true)
  | .ok text =>
    match parseJson text with
    | some errorData => (ops.message errorData, false)
    | none => (if text = "" then none else some text, false)

/-- The error thrown for a response that is not `ok`. -/
def handler.statusError {J : Type} (status : Nat) (message : Option String) : JsError J :=
  if status = 400 then
    newError (message.getD "Invalid search parameters. Please check your filters and try again.")
  else if status = 401 then newError "Authentication failed. Please try again."
  else if status = 403 then
    newError "Company not authorized. Please check your company registration."
  else newError (message.getD ("API request failed with status " ++ toString status))

/-- The object `transformedData` built from the downstream `data`. -/
def handler.transform {J : Type} (ops : JsonOps J) (query : Query) (data : J) : Result J :=
  { total := ops.estHits data,
    hits := ((ops.hits data).getD []).map (fun yacht =>
      { yacht := yacht,
        name := ops.name yacht,
        pricing :=
          match ops.pricing yacht with
          | some pricing => .downstream pricing
          | none =>
            .default (match JsMap.get query "currency" with
              | some v => if v.truthy then v else .str "USD"
              | none => .str "USD") }) }

/-- The body of the `try` block of the handler. -/
def handler.tryBlock {J : Type} (env : ProcessEnv) (net : Network J) (ops : JsonOps J)
    (parseFloat : String → Option String) (parseJson : String → Option J)
    (headers : List (String × String)) (req : Request) (tc : TokenCache) (w : World) :
    Except (JsError J) (Response J (Result J)) × TokenCache × World :=
  match handler.getAccessToken env net ops tc w with
  | (.error e, tc, w) => (.error e, tc, w)
  | (.ok accessToken, tc, w) =>
    let w := handler.register env net accessToken w
    let (params, warnings) := searchParams env parseFloat req.query
    let w := { w with warnings := w.warnings ++ warnings }
    match fetchIn net (searchRequest env params accessToken) w with
    | (.rejected e, w) => (.error e, tc, w)
    | (.resolved response, w) =>
      if !response.ok then
        let (message, failed) := handler.errorDataMessage ops parseJson response
        let w := if failed then w.warn "Failed to parse error response:" else w
        (.error (handler.statusError response.status message), tc, w)
      else
        match response.json with
        | .error e => (.error e, tc, w)
        | .ok data =>
          (.ok { headers := headers, status := 200,
                 body := .json (handler.transform ops req.query data) }, tc, w)

/-- The `error` string built in the `catch` block:
`error.response?.data?.message || error.message || 'Internal server error'`. -/
def handler.errorMessage {J : Type} (ops : JsonOps J) (e : JsError J) : String :=
  match e.response.bind (fun r => ops.message r.2) with
  | some m => m
  | none => if e.message = "" then "Internal server error" else e.message

/-- The route handler of search.js: the response it sends, and `tokenCache`
and the world afterwards.  The module has no other state. -/
def handler {J : Type} (env : ProcessEnv) (net : Network J) (ops : JsonOps J)
    (parseFloat : String → Option String) (parseJson : String → Option J)
    (req : Request) (tc : TokenCache) (w : World) :
    Response J (Result J) × TokenCache × World :=
  let headers := corsHeaders req.origin
  if req.method = "OPTIONS" then
    ({ headers := headers, status := 200, body := .empty }, tc, w)
  else if req.method ≠ "GET" then
    ({ headers := headers, status := 405, body := .error (.text "Method not allowed") }, tc, w)
  else
    match handler.tryBlock env net ops parseFloat parseJson headers req tc w with
    | (.ok response, tc, w) => (response, tc, w)
    | (.error error, tc, w) =>
      ({ headers := headers, status := error.statusOr500,
         body := .error (.text (handler.errorMessage ops error)) }, tc, w)

end Search

/-! ## The route `/api/auth` (auth.js) -/

namespace Auth

/-- The object `payload` that is signed. -/
structure Payload where
  scopes : List String
  iss : String
  aud : String
  sub : String
  iat : Nat
  exp : Nat
deriving DecidableEq, Repr

/-- The object `header` given to `jwt.sign`. -/
structure Header where
  alg : String
  typ : String
  kid : String
deriving DecidableEq, Repr

/-- The body of the response: `{ jwt_assertion }` or `{ error }`. -/
inductive Body where
  | jwt_assertion (token : String)
  | error (message : String)
deriving DecidableEq, Repr

/-- The status and body written through `res`. -/
structure Response where
  status : Nat
  body : Body
deriving DecidableEq, Repr

/-- The object `payload` of the handler.  Its literal calls `Date.now()`
twice: `iatClock` is what the call in `iat` reads and `expClock` what the call
in `exp` reads. -/
def handler.payload (env : ProcessEnv) (iatClock expClock : Nat) : Payload :=
  let companyURI := env.NEXT_PUBLIC_COMPANY_URI
  { scopes := ["website:read:*"], iss := companyURI, aud := "ankor.io",
    sub := companyURI, iat := iatClock / 1000, exp := expClock / 1000 + 3600 }

/-- The route handler of auth.js, run when the two `Date.now()` calls of the
payload read `iatClock` and `expClock`.  `sign payload privateKey header` is
`jwt.sign(payload, privateKey, { algorithm: "RS256", header })`; `none` means
that it throws. -/
def handler (env : ProcessEnv) (sign : Payload → String → Header → Option String)
    (method : String) (iatClock expClock : Nat) : Response :=
  if method ≠ "POST" then { status := 405, body := .error "Method Not Allowed" }
  else
    match env.PRIVATE_KEY, env.KEY_ID with
    | some privateKey, some keyID =>
      if privateKey = "" ∨ keyID = "" then
        { status := 500, body := .error "Server misconfiguration" }
      else
        let payload := handler.payload env iatClock expClock
        let header : Header := { alg := "RS256", typ := "JWT", kid := keyID }
        match sign payload privateKey header with
        | some token => { status := 200, body := .jwt_assertion token }
        | none => { status := 500, body := .error "Failed to generate JWT" }
    | _, _ => { status := 500, body := .error "Server misconfiguration" }

/-- The claim set that `jwt.sign` of the library jsonwebtoken signs for the
payload, when `Date.now()` reads `signClock` inside the library: `iat` becomes
`payload.iat || Math.floor(Date.now() / 1000)`; the handler passes no
`expiresIn` and no `noTimestamp` option, so the other claims are signed as
they are given. -/
def signedClaims (payload : Payload) (signClock : Nat) : Payload :=
  { payload with iat := if payload.iat = 0 then signClock / 1000 else payload.iat }

end Auth

/-! ## The route `/api/yacht` (yacht.js) -/

namespace Yacht

/-- The module state of yacht.js: `cache.data` and `tokenCache`. -/
structure State (D : Type) where
  cache : CacheData D
  tokenCache : TokenCache
deriving DecidableEq, Repr

/-- What the handler of yacht.js calls besides the network.
`sign` is `jwt.sign`, used by the auth handler that `getToken` runs.
`dateAfter checkIn checkOut` is `new Date(checkIn) > new Date(checkOut)`.
`detailPhase uri accessToken` is the block that fetches and enriches one
yacht (from `fetchWithRetry` of the entity to the merged `responseData`);
`listPhase req accessToken` is the block of the list view from the
construction of `searchUrl` to the object `responseData`, with
`fetchYachtDetailsWithConcurrency` and the region filter.  Both read and
write `cache.data`, issue requests, and end with the response data or with
the error they throw. -/
structure Deps (J D : Type) where
  sign : Auth.Payload → String → Auth.Header → Option String
  dateAfter : QueryValue → QueryValue → Bool
  detailPhase : String → String → CacheData D → World →
    Except (JsError J) D × CacheData D × World
  listPhase : Request → String → CacheData D → World →
    Except (JsError J) D × CacheData D × World

/-- The list `allowedOrigins`. -/
def allowedOrigins : List String :=
  ["https://yourfrontend.com", "https://staging.yourfrontend.com"]

/-- The `res.setHeader` calls at the top of the handler. -/
def corsHeaders (origin : Option String) : List (String × String) :=
  let allowOrigin :=
    match origin with
    | some o => if o ∈ allowedOrigins then o else "*"
    | none => "*"
  let h := JsMap.set [] "Access-Control-Allow-Origin" allowOrigin
  let h := JsMap.set h "Access-Control-Allow-Methods" "GET, OPTIONS"
  JsMap.set h "Access-Control-Allow-Headers" "Content-Type, Authorization"

/-- The request `axios.post("https://api.ankor.io/iam/oauth/token", ...)`. -/
def oauthRequest (assertion : String) : HttpRequest :=
  { method := "POST", url := "https://api.ankor.io/iam/oauth/token",
    params := [("grant_type", "urn:ietf:params:oauth:grant-type:jwt-bearer"),
      ("assertion", assertion)],
    bearer := none }

/-- The closure `getToken`: the field `accessToken` of the object it returns
(`none` is `undefined`), or the error it throws.  The auth handler runs inside
the process; the clock of the world moves with the network only, so both of
its clock reads are `w.now`. -/
def handler.getToken {J D : Type} (env : ProcessEnv) (net : Network J) (ops : JsonOps J)
    (deps : Deps J D) (w : World) : Except (JsError J) (Option String) × World :=
  let mockRes := Auth.handler env deps.sign "POST" w.now w.now
  match mockRes.status, mockRes.body with
  | 200, .jwt_assertion jwt =>
    if jwt = "" then (.error (newError "Failed to get JWT from auth handler"), w)
    else
      let t := net.axios w.calls.length (oauthRequest jwt)
      let w := { w with now := w.now + t.elapsed, calls := w.calls ++ [oauthRequest jwt] }
      match t.value with
      | .ok tokenResponse => (.ok (ops.access_token tokenResponse), w)
      | .error e => (.error e, w)
  | _, _ => (.error (newError "Failed to get JWT from auth handler"), w)

/-- The block `// Check if we have a valid cached token first`. -/
def handler.getAccessToken {J D : Type} (env : ProcessEnv) (net : Network J) (ops : JsonOps J)
    (deps : Deps J D) (tc : TokenCache) (w : World) :
    Except (JsError J) String × TokenCache × World :=
  match tokenCache.get tc w.now with
  | some accessToken => (.ok accessToken, tc, w)
  | none =>
    match handler.getToken env net ops deps w with
    | (.error e, w) => (.error e, tc, w)
    | (.ok none, w) => (.error (newError "Failed to retrieve access token"), tc, w)
    | (.ok (some accessToken), w) =>
      if accessToken = "" then (.error (newError "Failed to retrieve access token"), tc, w)
      else (.ok accessToken, tokenCache.set tc w.now accessToken, w)

/-- The test `if (uri)` on `req.query.uri`: the request is for one yacht. -/
def hasUri (query : Query) : Bool :=
  match JsMap.get query "uri" with
  | some uri => uri.truthy
  | none => false

/-- The body of the `try` block of the handler: `.ok` is the response it
sends, `.error` the error that reaches the outer `catch`.  Cached values are
objects, so `if (cachedResponse)` holds exactly when `cache.get` returned a
value. -/
def handler.tryBlock {J D : Type} (env : ProcessEnv) (net : Network J) (ops : JsonOps J)
    (deps : Deps J D) (headers : List (String × String)) (req : Request)
    (st : State D) (w : World) : Except (JsError J) (Response J D) × State D × World :=
  let cacheKey := cacheKey req.query
  match cache.get st.cache w.now cacheKey with
  | (some cachedResponse, data) =>
    (.ok { headers := headers, status := 200, body := .json cachedResponse },
     { st with cache := data }, w)
  | (none, data) =>
    match handler.getAccessToken env net ops deps st.tokenCache w with
    | (.error e, tc, w) => (.error e, { cache := data, tokenCache := tc }, w)
    | (.ok accessToken, tc, w) =>
      if hasUri req.query then
        let uri := ((JsMap.get req.query "uri").map QueryValue.toStr).getD ""
        match cache.get data w.now ("yacht-details-" ++ uri) with
        | (some cachedYachtDetails, data) =>
          (.ok { headers := headers, status := 200, body := .json cachedYachtDetails },
           { cache := data, tokenCache := tc }, w)
        | (none, data) =>
          match deps.detailPhase uri accessToken data w with
          | (.ok responseData, data, w) =>
            let data := cache.set data w.now ("yacht-details-" ++ uri) responseData
            (.ok { headers := headers, status := 200, body := .json responseData },
             { cache := data, tokenCache := tc }, w)
          | (.error detailError, data, w) =>
            (.ok { headers := headers, status := 500,
                   body := .error (.text ("Failed to fetch yacht details: "
                     ++ detailError.message)) },
             { cache := data, tokenCache := tc }, w)
      else
        match deps.listPhase req accessToken data w with
        | (.ok responseData, data, w) =>
          let data := cache.set data w.now cacheKey responseData
          (.ok { headers := headers, status := 200, body := .json responseData },
           { cache := data, tokenCache := tc }, w)
        | (.error e, data, w) => (.error e, { cache := data, tokenCache := tc }, w)

/-- The `errorMessage` computed in the `catch` block. -/
def handler.errorMessage {J D : Type} (ops : JsonOps J) (deps : Deps J D) (query : Query)
    (e : JsError J) : String :=
  let status := e.response.map (fun r => r.1)
  if status = some 400 then
    match e.response.bind (fun r => ops.message r.2) with
    | some m => m
    | none =>
      match JsMap.get query "checkIn", JsMap.get query "checkOut" with
      | some checkIn, some checkOut =>
        if checkIn.truthy && checkOut.truthy && deps.dateAfter checkIn checkOut then
          "Check-out date must be after check-in date"
        else "Invalid search parameters. Please check your filters and try again."
      | _, _ => "Invalid search parameters. Please check your filters and try again."
  else if status = some 401 then "Authentication failed. Please try again later."
  else if status = some 429 then "Too many requests. Please wait a moment and try again."
  else "An error occurred while searching for yachts"

/-- The route handler of yacht.js: the response it sends, and the module
state and the world afterwards. -/
def handler {J D : Type} (env : ProcessEnv) (net : Network J) (ops : JsonOps J)
    (deps : Deps J D) (req : Request) (st : State D) (w : World) :
    Response J D × State D × World :=
  let headers := corsHeaders req.origin
  if req.method = "OPTIONS" then
    ({ headers := headers, status := 200, body := .empty }, st, w)
  else if req.method ≠ "GET" then
    ({ headers := headers, status := 405, body := .error (.text "Method Not Allowed") }, st, w)
  else
    match handler.tryBlock env net ops deps headers req st w with
    | (.ok response, st, w) => (response, st, w)
    | (.error error, st, w) =>
      ({ headers := JsMap.set headers "Access-Control-Allow-Origin" "*",
         status := error.statusOr500,
         body := .error (.text (handler.errorMessage ops deps req.query error)) }, st, w)

end Yacht

/-! ## Predicates on the search parameters -/

/-- Every enumerated parameter among `params` (a parameter whose name has an
entry in `allowedValues`) has a value of its allowed list. -/
def Search.EnumValid (params : List (String × String)) : Prop :=
  ∀ k v allowed, (k, v) ∈ params → JsMap.get Search.allowedValues k = some allowed →
    v ∈ allowed

/-! ## The route `/api/yacht-details` (yacht-details.js) -/

namespace YachtDetails

/-- The list `allowedOrigins`. -/
def allowedOrigins : List String :=
  ["https://yourfrontend.com", "https://staging.yourfrontend.com"]

/-- The `res.setHeader` calls at the top of the handler. -/
def corsHeaders (origin : Option String) : List (String × String) :=
  let allowOrigin :=
    match origin with
    | some o => if o ∈ allowedOrigins then o else "*"
    | none => "*"
  let h := JsMap.set [] "Access-Control-Allow-Origin" allowOrigin
  let h := JsMap.set h "Access-Control-Allow-Methods" "GET, OPTIONS"
  JsMap.set h "Access-Control-Allow-Headers" "Content-Type, Authorization"

/-- The call `await fetchWithRetry(url, options)` with the default limits,
run against the network: each attempt is one outbound request. -/
def fetchWithRetryIn {J : Type} (net : Network J) (r : HttpRequest) (w : World) :
    Completion (JsError J) J × World :=
  let first := w.calls.length
  let run := fetchWithRetry (fun i => (net.axios (first + i) r).value) defaultRetries defaultDelay
  (run.outcome,
   { w with
     now := w.now + elapsedSum (fun n => (net.axios n r).elapsed) first run.attempts
              + run.waits.sum
     calls := w.calls ++ List.replicate run.attempts r })

/-- The request `fetchWithRetry(BASE_URL + "/api/token", { method: "POST" })`. -/
def tokenRequest (env : ProcessEnv) : HttpRequest :=
  { method := "POST", url := env.BASE_URL ++ "/api/token", params := [], bearer := none }

/-- The request that registers the yacht, with the link to its page as body. -/
def registerRequest (env : ProcessEnv) (uri accessToken : String) : HttpRequest :=
  { method := "POST",
    url := env.NEXT_PUBLIC_BASE_ANKOR_API_URL ++ "/website/register/" ++ uri,
    params := [("link", env.BASE_URL ++ "/yacht?uri=" ++ uri)], bearer := some accessToken }

/-- The request for `.../website/entity/<uri>` with the bearer token. -/
def entityRequest (env : ProcessEnv) (uri accessToken : String) : HttpRequest :=
  { method := "GET", url := env.NEXT_PUBLIC_BASE_ANKOR_API_URL ++ "/website/entity/" ++ uri,
    params := [], bearer := some accessToken }

/-- The block `// First, try to register the yacht`; it never throws. -/
def handler.register {J : Type} (env : ProcessEnv) (net : Network J) (uri accessToken : String)
    (w : World) : World :=
  match fetchIn net (registerRequest env uri accessToken) w with
  | (.rejected _, w) => w.warn "Yacht registration error:"
  | (.resolved registerResponse, w) =>
    if !registerResponse.ok then w.warn "Yacht registration warning:" else w

/-- The body of the `try` block of the handler: `.ok` is the response it
sends, `.error` the error that reaches the `catch`.  Cached values are
objects, so `if (cachedResponse)` holds exactly when `cache.get` returned a
value. -/
def handler.tryBlock {J D : Type} (env : ProcessEnv) (net : Network J) (ops : JsonOps J)
    (processYachtDetails : J → Except (JsError J) D) (headers : List (String × String))
    (req : Request) (data : CacheData D) (w : World) :
    Except (JsError J) (Response J D) × CacheData D × World :=
  match JsMap.get req.query "uri" with
  | none =>
    (.ok { headers := headers, status := 400,
           body := .error (.text "URI parameter is required") }, data, w)
  | some uri =>
    if !uri.truthy then
      (.ok { headers := headers, status := 400,
             body := .error (.text "URI parameter is required") }, data, w)
    else
      let cacheKey := "yacht-details-" ++ uri.toStr
      match cache.get data w.now cacheKey with
      | (some cachedResponse, data) =>
        (.ok { headers := headers, status := 200, body := .json cachedResponse }, data, w)
      | (none, data) =>
        match fetchWithRetryIn net (tokenRequest env) w with
        | (.returned tokenResponse, w) =>
          match ops.accessToken tokenResponse with
          | none => (.error (newError "Failed to retrieve access token"), data, w)
          | some accessToken =>
            if accessToken = "" then
              (.error (newError "Failed to retrieve access token"), data, w)
            else
              let w := handler.register env net uri.toStr accessToken w
              match fetchWithRetryIn net (entityRequest env uri.toStr accessToken) w with
              | (.returned yachtDetailsData, w) =>
                match processYachtDetails yachtDetailsData with
                | .ok processedDetails =>
                  let data := cache.set data w.now cacheKey processedDetails
                  (.ok { headers := headers, status := 200, body := .json processedDetails },
                   data, w)
                | .error e => (.error e, data, w)
              | (.threw e, w) => (.error e, data, w)
              | (_, w) => (.error ShipDetails.undefinedTypeError, data, w)
        | (.threw e, w) => (.error e, data, w)
        | (_, w) => (.error ShipDetails.undefinedTypeError, data, w)

/-- The `error` field built in the `catch` block:
`error.response?.data?.error || error.message || "Internal Server Error"`. -/
def handler.errorField {J : Type} (ops : JsonOps J) (e : JsError J) : ErrorValue J :=
  match e.response.bind (fun r => ops.error r.2) with
  | some j => .json j
  | none => if e.message = "" then .text "Internal Server Error" else .text e.message

/-- The route handler of yacht-details.js: the response it sends, and
`cache.data` and the world afterwards.  `processYachtDetails` is the
reshaping function of the module, taken as a parameter: the object it builds
from the payload, or the error it throws. -/
def handler {J D : Type} (env : ProcessEnv) (net : Network J) (ops : JsonOps J)
    (processYachtDetails : J → Except (JsError J) D)
    (req : Request) (data : CacheData D) (w : World) :
    Response J D × CacheData D × World :=
  let headers := corsHeaders req.origin
  if req.method = "OPTIONS" then
    ({ headers := headers, status := 200, body := .empty }, data, w)
  else if req.method ≠ "GET" then
    ({ headers := headers, status := 405, body := .error (.text "Method Not Allowed") },
     data, w)
  else
    match handler.tryBlock env net ops processYachtDetails headers req data w with
    | (.ok response, data, w) => (response, data, w)
    | (.error error, data, w) =>
      ({ headers := headers, status := error.statusOr500,
         body := .error (handler.errorField ops error) }, data, w)

end YachtDetails

/-! ## The route `/api/filtered-ships` (filtered-ships.js): the method gate -/

namespace FilteredShips

/-- The module state of filtered-ships.js: `cache.data` and `tokenCache`. -/
structure State (D : Type) where
  cache : CacheData D
  tokenCache : TokenCache
deriving DecidableEq, Repr

/-- The `res.setHeader` calls at the top of the handler. -/
def corsHeaders : List (String × String) :=
  let h := JsMap.set [] "Access-Control-Allow-Credentials" "true"
  let h := JsMap.set h "Access-Control-Allow-Origin" "*"
  let h := JsMap.set h "Access-Control-Allow-Methods" "GET,OPTIONS"
  JsMap.set h "Access-Control-Allow-Headers"
    "X-CSRF-Token, X-Requested-With, Accept, Accept-Version, Content-Length, Content-MD5, Content-Type, Date, X-Api-Version, Authorization"

/-- The `error` field built in the `catch` block:
`error.response?.data?.error || error.message || "Internal Server Error"`. -/
def handler.errorField {J : Type} (ops : JsonOps J) (e : JsError J) : ErrorValue J :=
  match e.response.bind (fun r => ops.error r.2) with
  | some j => .json j
  | none => if e.message = "" then .text "Internal Server Error" else .text e.message

/-- The route handler of filtered-ships.js around its `try` block.  The block
itself (cache check, token, the paged search and the two entity lookups, the
filter by company) is the parameter `tryBlock`: the response it sends or the
error it throws, with the module state and the world afterwards. -/
def handler {J D : Type} (ops : JsonOps J)
    (tryBlock : List (String × String) → Request → State D → World →
      Except (JsError J) (Response J D) × State D × World)
    (req : Request) (st : State D) (w : World) : Response J D × State D × World :=
  let headers := corsHeaders
  if req.method = "OPTIONS" then
    ({ headers := headers, status := 200, body := .empty }, st, w)
  else if req.method ≠ "GET" then
    ({ headers := headers, status := 405, body := .error (.text "Method not allowed") }, st, w)
  else
    match tryBlock headers req st w with
    | (.ok response, st, w) => (response, st, w)
    | (.error error, st, w) =>
      ({ headers := headers, status := error.statusOr500,
         body := .error (handler.errorField ops error) }, st, w)

end FilteredShips

/-! ## The route `/api/currency` (currency.js): the rate cache and the method gate -/

namespace Currency

/-- The fields `data` and `timestamp` of the object `cache` of currency.js;
`none` is `null`.  `R` is the type of the table of rates. -/
structure Cache (R : Type) where
  data : Option R
  timestamp : Nat
deriving DecidableEq, Repr

/-- The field `ttl: 3600000`. -/
def Cache.ttl : Nat := 3600000

/-- The method `isExpired()`: `!this.data || Date.now() - this.timestamp > this.ttl`. -/
def Cache.isExpired {R : Type} (c : Cache R) (now : Nat) : Bool :=
  c.data.isNone || now - c.timestamp > Cache.ttl

/-- The method `update(data)`. -/
def Cache.update {R : Type} (_c : Cache R) (now : Nat) (data : R) : Cache R :=
  { data := some data, timestamp := now }

/-- The `res.setHeader` calls at the top of the handler. -/
def corsHeaders : List (String × String) :=
  let h := JsMap.set [] "Access-Control-Allow-Origin" "*"
  let h := JsMap.set h "Access-Control-Allow-Methods" "GET, OPTIONS"
  JsMap.set h "Access-Control-Allow-Headers" "Content-Type"

/-- The route handler of currency.js around its `try` block.  The block itself
(refreshing the rates when the cache is expired, and the conversion) is the
parameter `tryBlock`: the response it sends or the error it throws, with the
rate cache and the world afterwards. -/
def handler {J D R : Type}
    (tryBlock : List (String × String) → Request → Cache R → World →
      Except (JsError J) (Response J D) × Cache R × World)
    (req : Request) (c : Cache R) (w : World) : Response J D × Cache R × World :=
  let headers := corsHeaders
  if req.method = "OPTIONS" then
    ({ headers := headers, status := 200, body := .empty }, c, w)
  else if req.method ≠ "GET" then
    ({ headers := headers, status := 405, body := .error (.text "Method Not Allowed") }, c, w)
  else
    match tryBlock headers req c w with
    | (.ok response, c, w) => (response, c, w)
    | (.error error, c, w) =>
      ({ headers := headers, status := 500,
         body := .error (.text (if error.message = "" then "Internal Server Error"
           else error.message)) }, c, w)

end Currency

/-! ## The route `/api/token` (token.js) -/

namespace Token

/-- The request `fetch(BASE_URL + "/api/auth", { method: "POST" })`. -/
def authRequest (env : ProcessEnv) : HttpRequest :=
  { method := "POST", url := env.BASE_URL ++ "/api/auth", params := [], bearer := none }

/-- The request `axios.post("https://api.ankor.io/iam/oauth/token", ...)`. -/
def oauthRequest (assertion : String) : HttpRequest :=
  { method := "POST", url := "https://api.ankor.io/iam/oauth/token",
    params := [("grant_type", "urn:ietf:params:oauth:grant-type:jwt-bearer"),
      ("assertion", assertion)],
    bearer := none }

/-- The error thrown when the body of `/api/auth` has no `jwt_assertion`. -/
def missingAssertion {J : Type} : JsError J :=
  newError "❌ JWT assertion is missing from /api/auth response."

/-- The body of the `try` block of the handler: the value of
`tokenResponse.data.access_token` that it sends (`none` is `undefined`), or
the error that reaches the `catch`.  `statusText` reads
`jwtResponse.statusText` and `jwtAssertion` the property `jwt_assertion` of
the parsed body. -/
def handler.tryBlock {J : Type} (env : ProcessEnv) (net : Network J) (ops : JsonOps J)
    (statusText : FetchResponse J → String) (jwtAssertion : J → Option String) (w : World) :
    Except (JsError J) (Option String) × World :=
  match fetchIn net (authRequest env) w with
  | (.rejected e, w) => (.error e, w)
  | (.resolved jwtResponse, w) =>
    if !jwtResponse.ok then
      (.error (newError ("❌ Failed to get JWT: " ++ statusText jwtResponse)), w)
    else
      match jwtResponse.json with
      | .error e => (.error e, w)
      | .ok body =>
        match jwtAssertion body with
        | none => (.error missingAssertion, w)
        | some jwt_assertion =>
          if jwt_assertion = "" then (.error missingAssertion, w)
          else
            let t := net.axios w.calls.length (oauthRequest jwt_assertion)
            let w := { w with now := w.now + t.elapsed,
                              calls := w.calls ++ [oauthRequest jwt_assertion] }
            match t.value with
            | .ok tokenResponse => (.ok (ops.access_token tokenResponse), w)
            | .error e => (.error e, w)

/-- The `error` field built in the `catch` block:
`error.response?.data || error.message`; `truthy` is the truthiness of a
payload. -/
def handler.errorField {J : Type} (truthy : J → Bool) (e : JsError J) : ErrorValue J :=
  match e.response with
  | some (_, data) => if truthy data then .json data else .text e.message
  | none => .text e.message

/-- The route handler of token.js: the response it sends (it sets no header)
and the world afterwards; the data body is the object `{ accessToken }`. -/
def handler {J : Type} (env : ProcessEnv) (net : Network J) (ops : JsonOps J)
    (statusText : FetchResponse J → String) (jwtAssertion : J → Option String)
    (truthy : J → Bool) (req : Request) (w : World) :
    Response J (Option String) × World :=
  if req.method ≠ "POST" then
    ({ headers := [], status := 405, body := .error (.text "Method Not Allowed") }, w)
  else
    match handler.tryBlock env net ops statusText jwtAssertion w with
    | (.ok accessToken, w) => ({ headers := [], status := 200, body := .json accessToken }, w)
    | (.error error, w) =>
      ({ headers := [], status := 500, body := .error (handler.errorField truthy error) }, w)

end Token

/-- Whether the `error` field of a body is a string; `isString` tells it for a
payload. -/
def ErrorValue.isString {J : Type} (isString : J → Bool) : ErrorValue J → Bool
  | .text _ => true
  | .json j => isString j

/-! ## Enrichment of the list view (yacht.js)

A price is a rational number, the value of a finite JavaScript number.  The
operator `/` of the code divides doubles and rounds the quotient; it is the
function `divide` of `EnrichOps`, so that nothing is assumed of the quotient.
A yacht of the downstream list is a record of the properties that the code
reads, with the remaining ones in `rest`. -/

namespace Yacht

/-- An object `{ displayPrice, displayCurrency }` of the downstream pricing;
`none` is a missing property. -/
structure PriceFrom where
  displayPrice : Option ℚ
  displayCurrency : Option String
deriving DecidableEq, Repr

/-- The object `detailedData.pricing`. -/
structure DetailPricing where
  dayPricingFrom : Option PriceFrom
  weekPricingFrom : Option PriceFrom
deriving DecidableEq, Repr

/-- The object `pricing` of a returned yacht: `day.from` (`none` is `NaN`),
`week.from`, and the properties `currency` and `estimated` when the object has
them. -/
structure Pricing where
  day : Option ℚ
  week : ℚ
  currency : Option String
  estimated : Option Bool
deriving DecidableEq, Repr

/-- A yacht of the downstream list (an element of `yachtListData.hits`). -/
structure ListedYacht (X : Type) where
  uri : Option String
  name : Option String
  make : Option String
  builtYear : Option ℚ
  length : Option ℚ
  sleeps : Option ℚ
  hero : Option String
  description : Option String
  region : Option String
  rest : X
deriving DecidableEq, Repr

/-- A returned yacht: the properties of the input yacht (`...yacht`), the
properties for which a default is substituted, `pricing`, `operatingAreas`
(`none` when the property is not set) and `region`. -/
structure EnrichedYacht (X : Type) where
  yacht : ListedYacht X
  make : String
  name : String
  builtYear : ℚ ⊕ String
  length : ℚ
  sleeps : ℚ
  hero : String
  pricing : Pricing
  operatingAreas : Option (List String)
  region : Option String
deriving DecidableEq, Repr

/-- What the enrichment reads and builds besides the network:
`detailedData.pricing` of an entity payload, `cachedYachtDetails.pricing` of a
cached value, the cached object `{ ...detailedData, pricing }`, the operating
areas of a description (the match of `/Operating Area:([^\n]+)/i` split at the
commas, trimmed, without the empty pieces; `none` when there is no match),
the string method `toLowerCase`, and the operator `/` on numbers: `divide x y`
is the double that `x / y` evaluates to. -/
structure EnrichOps (J D : Type) where
  detailPricing : J → Option DetailPricing
  cachedPricing : D → Option Pricing
  detailsEntry : J → Pricing → D
  operatingAreas : String → Option (List String)
  toLowerCase : String → String
  divide : ℚ → ℚ → ℚ

/-- The state that the enrichment of a list works on: `cache.data`, the world
and the set `registrationAttempted`. -/
structure EnrichState (D : Type) where
  cache : CacheData D
  world : World
  registrationAttempted : List String
deriving DecidableEq, Repr

/-- The table `regionMapping`, its entries in the order of the literal, which
is the order of `Object.entries`. -/
def regionMapping : List (String × List String) :=
  [("West Mediterranean",
      ["France", "Monaco", "Italy", "Sardinia", "Corsica", "Spain", "Balearic Islands"]),
   ("East Mediterranean", ["Greece", "Croatia", "Montenegro", "Turkey"]),
   ("Caribbean", ["Bahamas", "Virgin Islands", "St. Barts", "Antigua"]),
   ("Indian Ocean", ["Maldives", "Seychelles"]),
   ("South Pacific", ["Fiji", "Tahiti", "French Polynesia"]),
   ("North America", ["Florida", "New England", "Alaska"]),
   ("South America", ["Brazil", "Argentina"]),
   ("Northern Europe", ["Norway", "Sweden", "Denmark", "Netherlands"])]

/-- The condition of the loop over `regionMapping` for one entry
`[region, locations]`: `areas.some(area => locations.some(location =>
area.toLowerCase().includes(location.toLowerCase())) ||
area.toLowerCase().includes(region.toLowerCase()))`. -/
def regionMatches (toLowerCase : String → String) (areas : List String)
    (entry : String × List String) : Bool :=
  areas.any (fun area =>
    entry.2.any (fun location => strIncludes (toLowerCase area) (toLowerCase location))
      || strIncludes (toLowerCase area) (toLowerCase entry.1))

/-- The loop `for (const [region, locations] of Object.entries(regionMapping))`
over the entries that are left: the region assigned before the `break`, or
`none` when the loop ends without an assignment. -/
def primaryRegion.loop (toLowerCase : String → String) (areas : List String) :
    List (String × List String) → Option String
  | [] => none
  | (region, locations) :: rest =>
    if regionMatches toLowerCase areas (region, locations) then some region
    else primaryRegion.loop toLowerCase areas rest

/-- The region that the loop over `regionMapping` assigns for a list of areas. -/
def primaryRegion (toLowerCase : String → String) (areas : List String) : Option String :=
  primaryRegion.loop toLowerCase areas regionMapping

/-- The default `pricing` of `enrichYachtWithDetails`:
`{ day: { from: 2500 }, week: { from: 14500 } }`. -/
def defaultPricing : Pricing :=
  { day := some 2500, week := 14500, currency := none, estimated := none }

/-- The `pricing` given to the yachts that are not enriched:
`{ day: { from: 2500 }, week: { from: 14500 }, currency: "USD" }`. -/
def remainingPricing : Pricing :=
  { day := some 2500, week := 14500, currency := some "USD", estimated := none }

/-- The value `s || fallback` for a string property. -/
def strOr (s : Option String) (fallback : String) : String :=
  match s with
  | some v => if v = "" then fallback else v
  | none => fallback

/-- The value `n || 0` for a number property. -/
def numOr0 (n : Option ℚ) : ℚ := n.getD 0

/-- The value `yacht.builtYear || "N/A"`. -/
def builtYearOr (n : Option ℚ) : ℚ ⊕ String :=
  match n with
  | some v => if v = 0 then .inr "N/A" else .inl v
  | none => .inr "N/A"

/-- The object built for a yacht beyond the first 20: the yacht with the
defaults and `remainingPricing`. -/
def passThrough {X : Type} (yacht : ListedYacht X) : EnrichedYacht X :=
  { yacht := yacht,
    make := strOr yacht.make "Unknown",
    name := strOr yacht.name "Unnamed Yacht",
    builtYear := builtYearOr yacht.builtYear,
    length := numOr0 yacht.length,
    sleeps := numOr0 yacht.sleeps,
    hero := strOr yacht.hero "/default-yacht.jpg",
    pricing := remainingPricing,
    operatingAreas := none,
    region := yacht.region }

/-- The call `await fetchWithRetry(url, options)` of yacht.js with the default
limits, run against the network: each attempt is one `fetch`. -/
def fetchWithRetryIn {J : Type} (net : Network J) (r : HttpRequest) (w : World) :
    Completion (JsError J) J × World :=
  let first := w.calls.length
  let run := fetchWithRetry r.url (fun i => (net.fetch (first + i) r).value)
    defaultRetries defaultDelay
  (run.outcome,
   { w with
     now := w.now + elapsedSum (fun n => (net.fetch n r).elapsed) first run.attempts
              + run.waits.sum
     calls := w.calls ++ List.replicate run.attempts r })

/-- The request for `.../website/entity/<uri>` with the bearer token. -/
def entityRequest (env : ProcessEnv) (uri accessToken : String) : HttpRequest :=
  { method := "GET", url := env.NEXT_PUBLIC_BASE_ANKOR_API_URL ++ "/website/entity/" ++ uri,
    params := [], bearer := some accessToken }

/-- The request that registers the vessel, with the link as body. -/
def registerRequest (env : ProcessEnv) (uri accessToken : String) : HttpRequest :=
  { method := "POST",
    url := env.NEXT_PUBLIC_BASE_ANKOR_API_URL ++ "/website/register/" ++ uri,
    params := [("link", "https://yourdomain.com/yacht?uri=" ++ uri)],
    bearer := some accessToken }

/-- The truthy `displayPrice` of a price object, if any. -/
def truthyPrice (p : Option PriceFrom) : Option ℚ :=
  match p.bind (fun x => x.displayPrice) with
  | some v => if v = 0 then none else some v
  | none => none

/-- The truthy `displayCurrency` of a price object, if any. -/
def truthyCurrency (p : Option PriceFrom) : Option String :=
  match p.bind (fun x => x.displayCurrency) with
  | some v => if v = "" then none else some v
  | none => none

/-- The value `Math.round(x)` for the value `x` of a finite number: the
integer closest to `x`, the greater one of two that are equally close.
`Math.round` does not round its result again. -/
def mathRound (x : ℚ) : ℚ := (⌊x + 1 / 2⌋ : ℤ)

/-- The object assigned to `enrichedYacht.pricing` when `detailedData.pricing`
is there; `divide` is the operator `/`. -/
def computePricing (divide : ℚ → ℚ → ℚ) (uri : String) (pricing : DetailPricing) :
    Pricing :=
  let hasRealPricing := pricing.dayPricingFrom.isSome || pricing.weekPricingFrom.isSome
  let isMischief := uri = "c::8864389904::vessel::d5cabfd2-fe8c-11ed-889f-43d4bb723744"
  let isPredator := uri = "c::22993047362::vessel::c6aef7c0-8a10-11ef-8759-d5c1b3b7b690"
  let hasWeekButNoDay := pricing.dayPricingFrom.isNone && pricing.weekPricingFrom.isSome
  { day :=
      match (if hasRealPricing then truthyPrice pricing.dayPricingFrom else none) with
      | some displayPrice => some (divide displayPrice 100)
      | none =>
        if isMischief then some 5500
        else if isPredator then some 2200
        else if hasWeekButNoDay then
          (pricing.weekPricingFrom.bind (fun x => x.displayPrice)).map
            (fun displayPrice => mathRound (divide displayPrice 700))
        else some 2500,
    week :=
      match (if hasRealPricing then truthyPrice pricing.weekPricingFrom else none) with
      | some displayPrice => divide displayPrice 100
      | none => if isMischief then 360000 else 14500,
    currency :=
      match (if hasRealPricing then truthyCurrency pricing.dayPricingFrom else none) with
      | some displayCurrency => some displayCurrency
      | none =>
        match (if hasRealPricing then truthyCurrency pricing.weekPricingFrom else none) with
        | some displayCurrency => some displayCurrency
        | none => some "USD",
    estimated := some hasWeekButNoDay }

/-- The test that guards the registration: no pricing, or a pricing with
neither `dayPricingFrom` nor `weekPricingFrom`. -/
def lacksPricing {J D : Type} (ops : EnrichOps J D) (detailedData : J) : Bool :=
  match ops.detailPricing detailedData with
  | none => true
  | some pricing => pricing.dayPricingFrom.isNone && pricing.weekPricingFrom.isNone

/-- The inner `try` of the registration: the set gets the uri, the vessel is
registered and the entity is fetched again; whatever fails there is logged
and `detailedData` stays as it was. -/
def enrichYachtWithDetails.register {J D : Type} (env : ProcessEnv) (net : Network J)
    (uri accessToken : String) (detailedData : J) (s : EnrichState D) :
    J × EnrichState D :=
  let attempted := s.registrationAttempted ++ [uri]
  match fetchIn net (registerRequest env uri accessToken) s.world with
  | (.rejected _, w) =>
    (detailedData,
     { s with registrationAttempted := attempted,
              world := w.warn ("Failed to register vessel " ++ uri ++ ":") })
  | (.resolved _, w) =>
    match fetchWithRetryIn net (entityRequest env uri accessToken) w with
    | (.returned updated, w) =>
      (updated, { s with registrationAttempted := attempted, world := w })
    | (_, w) =>
      (detailedData,
       { s with registrationAttempted := attempted,
                world := w.warn ("Failed to register vessel " ++ uri ++ ":") })

/-- The object `enrichedYacht` before the details are looked up: the yacht
with the defaults, the default pricing, and the operating areas and the region
read from the description. -/
def enrichYachtWithDetails.base {J D X : Type} (ops : EnrichOps J D)
    (yacht : ListedYacht X) : EnrichedYacht X :=
  let base : EnrichedYacht X :=
    { yacht := yacht,
      make := strOr yacht.make "Unknown",
      name := strOr yacht.name "Unnamed Yacht",
      builtYear := builtYearOr yacht.builtYear,
      length := numOr0 yacht.length,
      sleeps := numOr0 yacht.sleeps,
      hero := strOr yacht.hero "/default-yacht.jpg",
      pricing := defaultPricing,
      operatingAreas := some [],
      region := yacht.region }
  match yacht.description with
  | some description =>
    if description = "" then base
    else
      match ops.operatingAreas description with
      | some areas =>
        { base with
          operatingAreas := some areas,
          region :=
            match primaryRegion ops.toLowerCase areas with
            | some region => some region
            | none => base.region }
      | none => base
  | none => base

/-- The function `enrichYachtWithDetails(yacht, accessToken,
registrationAttempted)`: the yacht it returns and the state afterwards.  With
the typed records no statement outside the inner `try` blocks can throw, so
the outer `catch`, which returns the yacht as it came, is not reached. -/
def enrichYachtWithDetails {J D X : Type} (env : ProcessEnv) (net : Network J)
    (ops : EnrichOps J D) (yacht : ListedYacht X) (accessToken : String)
    (s : EnrichState D) : EnrichedYacht X × EnrichState D :=
  let enrichedYacht : EnrichedYacht X := enrichYachtWithDetails.base ops yacht
  match yacht.uri with
  | none => (enrichedYacht, s)
  | some uri =>
    if uri = "" then (enrichedYacht, s)
    else
      match cache.get s.cache s.world.now ("yacht-details-" ++ uri) with
      | (some cachedYachtDetails, data) =>
        ({ enrichedYacht with
           pricing := (ops.cachedPricing cachedYachtDetails).getD enrichedYacht.pricing },
         { s with cache := data })
      | (none, data) =>
        match fetchWithRetryIn net (entityRequest env uri accessToken) s.world with
        | (.returned detailedData, w) =>
          let s := { s with cache := data, world := w }
          let (detailedData, s) :=
            if lacksPricing ops detailedData && !(s.registrationAttempted.contains uri) then
              enrichYachtWithDetails.register env net uri accessToken detailedData s
            else (detailedData, s)
          match ops.detailPricing detailedData with
          | some pricing =>
            let computed := computePricing ops.divide uri pricing
            ({ enrichedYacht with pricing := computed },
             { s with
               cache := cache.set s.cache s.world.now ("yacht-details-" ++ uri)
                 (ops.detailsEntry detailedData computed) })
          | none => (enrichedYacht, s)
        | (_, w) =>
          (enrichedYacht,
           { s with cache := data,
                    world := w.warn ("Could not fetch details for yacht " ++ uri ++ ":") })

/-- The enrichments of one batch, `Promise.all(batch.map(...))`: the results
in the order of the batch.  The enrichments are run one after the other in
that order; the interleaving of their requests is not represented. -/
def enrichBatch {J D X : Type} (env : ProcessEnv) (net : Network J) (ops : EnrichOps J D)
    (accessToken : String) :
    List (ListedYacht X) → EnrichState D → List (EnrichedYacht X) × EnrichState D
  | [], s => ([], s)
  | yacht :: rest, s =>
    let (enriched, s) := enrichYachtWithDetails env net ops yacht accessToken s
    let (others, s) := enrichBatch env net ops accessToken rest s
    (enriched :: others, s)

/-- What the batch loop has done: the results so far, the batches it has
processed, in order, and the state. -/
structure BatchRun (D X : Type) where
  results : List (EnrichedYacht X)
  batches : List (List (ListedYacht X))
  state : EnrichState D
deriving DecidableEq, Repr

/-- One iteration of the batch loop, from `Promise.all` to `results.push`:
the batch is enriched in the state that the iterations before it left, and
its results are appended. -/
def fetchYachtDetailsWithConcurrency.processBatch {J D X : Type} (env : ProcessEnv)
    (net : Network J) (ops : EnrichOps J D) (accessToken : String) (run : BatchRun D X)
    (batch : List (ListedYacht X)) : BatchRun D X :=
  let (batchResults, s) := enrichBatch env net ops accessToken batch run.state
  { results := run.results ++ batchResults, batches := run.batches ++ [batch], state := s }

/-- The loop `for (let i = 0; i < yachtsToProcess.length; i += batchSize)`.
The first argument bounds the number of iterations; `none` means that the
bound was reached with `i` still below the length. -/
def fetchYachtDetailsWithConcurrency.loop {J D X : Type} (env : ProcessEnv) (net : Network J)
    (ops : EnrichOps J D) (accessToken : String) (yachtsToProcess : List (ListedYacht X))
    (batchSize : Nat) : Nat → Nat → BatchRun D X → Option (BatchRun D X)
  | 0, i, run => if i < yachtsToProcess.length then none else some run
  | fuel + 1, i, run =>
    if i < yachtsToProcess.length then
      let batch := (yachtsToProcess.drop i).take batchSize
      fetchYachtDetailsWithConcurrency.loop env net ops accessToken yachtsToProcess batchSize
        fuel (i + batchSize)
        (fetchYachtDetailsWithConcurrency.processBatch env net ops accessToken run batch)
    else some run

/-- The function `fetchYachtDetailsWithConcurrency(yachts, accessToken,
batchSize)` run on `cache.data` and the world: the returned list, the batches
processed, and the state afterwards; `none` when the loop does not end (a
batch size of 0 with a yacht to process).  The loop is given as many
iterations as there are yachts to process. -/
def fetchYachtDetailsWithConcurrency {J D X : Type} (env : ProcessEnv) (net : Network J)
    (ops : EnrichOps J D) (yachts : List (ListedYacht X)) (accessToken : String)
    (batchSize : Nat) (data : CacheData D) (w : World) : Option (BatchRun D X) :=
  let totalYachts := yachts.length
  let maxYachtsToEnrich := min totalYachts 20
  let yachtsToProcess := yachts.take maxYachtsToEnrich
  let remainingYachts := (yachts.drop maxYachtsToEnrich).map passThrough
  match fetchYachtDetailsWithConcurrency.loop env net ops accessToken yachtsToProcess batchSize
      yachtsToProcess.length 0
      { results := [], batches := [],
        state := { cache := data, world := w, registrationAttempted := [] } } with
  | none => none
  | some run => some { run with results := run.results ++ remainingYachts }

end Yacht

/-! ## The route `/api/filtered-ships` (filtered-ships.js): the `try` block -/

namespace FilteredShips

/-- A ship of a downstream list: `ship.uri` (`none` is `undefined`) and its
other properties. -/
structure Ship (X : Type) where
  uri : Option String
  rest : X
deriving DecidableEq, Repr

/-- The property `hits` of a payload: falsy or missing, an array of ships, or
another truthy value. -/
inductive Hits (X : Type) where
  | missing
  | array (ships : List (Ship X))
  | other
deriving DecidableEq, Repr

/-- Reads on a payload `J` that the `try` block does besides those of
`JsonOps`: the test `response && typeof response === 'object'`, the property
`hits`, the property `relatedVessels` when it is an array, and the properties
other than `uri` that the handler copies from a related vessel (`name`,
`hero`, `length`, `cabins`, `sleeps`, `builtYear`, `make`). -/
structure ShipOps (J X : Type) where
  isObject : J → Bool
  hits : J → Hits X
  relatedVessels : J → Option (List (Ship X))
  pick : X → X

/-- The object `responseData`. -/
structure ResponseData (X : Type) where
  estHits : Nat
  hits : List (Ship X)
  totalFetched : Nat
deriving DecidableEq, Repr

/-- The constant `targetCompany`. -/
def targetCompany : String := "c::8864389904"

/-- The call `await fetchWithRetry(url, options)` with the default limits,
run against the network: each attempt is one outbound request. -/
def fetchWithRetryIn {J : Type} (net : Network J) (r : HttpRequest) (w : World) :
    Completion (JsError J) J × World :=
  let first := w.calls.length
  let run := fetchWithRetry (fun i => (net.axios (first + i) r).value) defaultRetries defaultDelay
  (run.outcome,
   { w with
     now := w.now + elapsedSum (fun n => (net.axios n r).elapsed) first run.attempts
              + run.waits.sum
     calls := w.calls ++ List.replicate run.attempts r })

/-- The request `fetchWithRetry(BASE_URL + "/api/token", { method: "POST" })`. -/
def tokenRequest (env : ProcessEnv) : HttpRequest :=
  { method := "POST", url := env.BASE_URL ++ "/api/token", params := [], bearer := none }

/-- The request for one page of the downstream search: `searchUrl` with the
parameters `limit`, `offset`, `sort`, `order` and `company`. -/
def searchRequest (env : ProcessEnv) (query : Query) (currentOffset : Nat)
    (accessToken : String) : HttpRequest :=
  { method := "GET", url := env.NEXT_PUBLIC_BASE_ANKOR_API_URL ++ "/website/search",
    params := [("limit", "100"), ("offset", toString currentOffset),
      ("sort", Search.queryOr query "sort" "name"),
      ("order", Search.queryOr query "order" "asc"), ("company", targetCompany)],
    bearer := some accessToken }

/-- The request for the vessel list of the entity API. -/
def entityListRequest (env : ProcessEnv) (accessToken : String) : HttpRequest :=
  { method := "GET", url := env.NEXT_PUBLIC_BASE_ANKOR_API_URL ++ "/entity/vessel/list",
    params := [("company", targetCompany), ("limit", "300")], bearer := some accessToken }

/-- The request for the entity `vessel1`. -/
def entityRequest (env : ProcessEnv) (accessToken : String) : HttpRequest :=
  { method := "GET",
    url := env.NEXT_PUBLIC_BASE_ANKOR_API_URL ++ "/website/entity/" ++ targetCompany
      ++ "::vessel::" ++ "d5cabfd2-fe8c-11ed-889f-43d4bb723744",
    params := [], bearer := some accessToken }

/-- The block `// Get access token`: the token, or the error thrown.  With the
default limit of 3 `fetchWithRetry` returns a payload or throws an error. -/
def handler.getAccessToken {J : Type} (env : ProcessEnv) (net : Network J) (ops : JsonOps J)
    (tc : TokenCache) (w : World) : Except (JsError J) String × TokenCache × World :=
  match tokenCache.get tc w.now with
  | some accessToken => (.ok accessToken, tc, w)
  | none =>
    match fetchWithRetryIn net (tokenRequest env) w with
    | (.returned tokenResponse, w) =>
      match ops.accessToken tokenResponse with
      | none =>
        (.error (newError ("Token retrieval failed: " ++ "Failed to retrieve access token")),
         tc, w)
      | some accessToken =>
        if accessToken = "" then
          (.error (newError ("Token retrieval failed: " ++ "Failed to retrieve access token")),
           tc, w)
        else (.ok accessToken, tokenCache.set tc w.now accessToken, w)
    | (.threw tokenError, w) =>
      (.error (newError ("Token retrieval failed: " ++ tokenError.message)), tc, w)
    | (_, w) => (.error ShipDetails.undefinedTypeError, tc, w)

/-- The three statements that add ships to `allShips`: the ships whose `uri`
is not that of a ship already in `allShips` are appended. -/
def mergeByUri {X : Type} (allShips ships : List (Ship X)) : List (Ship X) :=
  let existingUris := allShips.map (fun ship => ship.uri)
  let newShips := ships.filter (fun ship => !existingUris.contains ship.uri)
  allShips ++ newShips

/-- The loop `while (hasMoreShips && attempts < maxPages)` with `pagesLeft =
maxPages - attempts`: `allShips` when it ends, by a `break`, by a short page
or by the page limit. -/
def handler.pages {J X : Type} (env : ProcessEnv) (net : Network J) (sops : ShipOps J X)
    (query : Query) (accessToken : String) :
    Nat → Nat → List (Ship X) → World → List (Ship X) × World
  | 0, _, allShips, w => (allShips, w)
  | pagesLeft + 1, currentOffset, allShips, w =>
    match fetchWithRetryIn net (searchRequest env query currentOffset accessToken) w with
    | (.returned response, w) =>
      if !sops.isObject response then (allShips, w)
      else
        match sops.hits response with
        | .other => (allShips, w)
        | .missing => (mergeByUri allShips [], w)
        | .array pageShips =>
          let allShips := mergeByUri allShips pageShips
          if pageShips.length < 100 then (allShips, w)
          else handler.pages env net sops query accessToken pagesLeft (currentOffset + 100)
            allShips w
    | (_, w) => (allShips, w)

/-- The block `// Second approach`: the vessel list of the entity API is
merged when its `hits` is an array; a failure is logged only. -/
def handler.entityList {J X : Type} (env : ProcessEnv) (net : Network J) (sops : ShipOps J X)
    (accessToken : String) (allShips : List (Ship X)) (w : World) : List (Ship X) × World :=
  match fetchWithRetryIn net (entityListRequest env accessToken) w with
  | (.returned entityResponse, w) =>
    match sops.hits entityResponse with
    | .array entityShips => (mergeByUri allShips entityShips, w)
    | _ => (allShips, w)
  | (_, w) => (allShips, w)

/-- The block `// Third approach`: the loop `for (let i = 0; i < 5; i++)`
with `left = 5 - i`; it ends at the first lookup that succeeds, whose related
vessels are merged when there are any. -/
def handler.related {J X : Type} (env : ProcessEnv) (net : Network J) (sops : ShipOps J X)
    (accessToken : String) : Nat → List (Ship X) → World → List (Ship X) × World
  | 0, allShips, w => (allShips, w)
  | left + 1, allShips, w =>
    match fetchWithRetryIn net (entityRequest env accessToken) w with
    | (.returned entityResponse, w) =>
      match sops.relatedVessels entityResponse with
      | some relatedVessels =>
        (mergeByUri allShips
          (relatedVessels.map (fun v => { uri := v.uri, rest := sops.pick v.rest })), w)
      | none => (allShips, w)
    | (.threw _, w) => handler.related env net sops accessToken left allShips w
    | (_, w) => (allShips, w)

/-- The test `ship.uri && ship.uri.startsWith(targetCompany)`. -/
def ofTargetCompany {X : Type} (ship : Ship X) : Bool :=
  match ship.uri with
  | some uri => uri ≠ "" && targetCompany.data.isPrefixOf uri.data
  | none => false

/-- The body of the `try` block of the handler; the environment holds a valid
base URL, so that `new URL` does not throw. -/
def handler.tryBlock {J X : Type} (env : ProcessEnv) (net : Network J) (ops : JsonOps J)
    (sops : ShipOps J X) (headers : List (String × String)) (req : Request)
    (st : State (ResponseData X)) (w : World) :
    Except (JsError J) (Response J (ResponseData X)) × State (ResponseData X) × World :=
  let cacheKey := cacheKey req.query
  match cache.get st.cache w.now cacheKey with
  | (some cachedResponse, data) =>
    (.ok { headers := headers, status := 200, body := .json cachedResponse },
     { st with cache := data }, w)
  | (none, data) =>
    match handler.getAccessToken env net ops st.tokenCache w with
    | (.error e, tc, w) => (.error e, { cache := data, tokenCache := tc }, w)
    | (.ok accessToken, tc, w) =>
      let (allShips, w) := handler.pages env net sops req.query accessToken 20 0 [] w
      let (allShips, w) := handler.entityList env net sops accessToken allShips w
      let (allShips, w) := handler.related env net sops accessToken 5 allShips w
      let filteredShips := allShips.filter ofTargetCompany
      let responseData : ResponseData X :=
        { estHits := filteredShips.length, hits := filteredShips,
          totalFetched := allShips.length }
      (.ok { headers := headers, status := 200, body := .json responseData },
       { cache := cache.set data w.now cacheKey responseData, tokenCache := tc }, w)

end FilteredShips

/-! ## An example deployment

A configuration and a network in which every request succeeds after 20 ms,
with payloads that are plain strings. -/

namespace Example

/-- The configuration of the process. -/
def env : ProcessEnv :=
  { BASE_URL := "http://localhost:3000",
    NEXT_PUBLIC_BASE_ANKOR_API_URL := "https://api.ankor.io",
    NEXT_PUBLIC_COMPANY_URI := "c::8864389904",
    PRIVATE_KEY := some "private-key",
    KEY_ID := some "key-1" }

/-- Every request succeeds: the token route and the token endpoint answer
with the token `tok`, every other endpoint with a payload naming its URL. -/
def payload (url : String) : String :=
  if url = "http://localhost:3000/api/token" then "tok"
  else if url = "https://api.ankor.io/iam/oauth/token" then "tok"
  else "data of " ++ url

/-- The network of the example: see `payload`. -/
def net : Network String :=
  { axios := fun _ r => { elapsed := 20, value := .ok (payload r.url) },
    fetch := fun _ r =>
      { elapsed := 20,
        value := .resolved
          { ok := true, status := 200, json := .ok (payload r.url), text := .ok "" } } }

/-- Property reads on the string payloads: a token payload is the token
itself, a search payload holds one yacht without a name and without pricing,
and no payload has an `error`, `message` or `estHits` property. -/
def ops : JsonOps String :=
  { accessToken := fun j => some j,
    access_token := fun j => some j,
    error := fun _ => none,
    message := fun _ => none,
    estHits := fun _ => none,
    hits := fun _ => some ["yacht-1"],
    name := fun _ => none,
    pricing := fun _ => none }

/-- A GET request for the details of one ship. -/
def shipRequest (uri : String) : Request :=
  { method := "GET", origin := none, query := [("uri", .str uri)] }

/-- A GET request for a list of yachts. -/
def listRequest : Request :=
  { method := "GET", origin := none,
    query := [("region", .str "Caribbean"), ("limit", .str "10")] }

/-- The functions that the handler of yacht.js calls: signing always
succeeds, and each phase issues one request and yields its payload. -/
def deps : Yacht.Deps String String :=
  { sign := fun _ _ _ => some "jwt",
    dateAfter := fun _ _ => false,
    detailPhase := fun uri accessToken data w =>
      match fetchIn net
        { method := "GET", url := "https://api.ankor.io/website/entity/" ++ uri, params := [],
          bearer := some accessToken } w with
      | (.resolved r, w) =>
        (match r.json with
         | .ok j => .ok j
         | .error e => .error e, data, w)
      | (.rejected e, w) => (.error e, data, w),
    listPhase := fun _ accessToken data w =>
      match fetchIn net
        { method := "GET", url := "https://api.ankor.io/website/search", params := [],
          bearer := some accessToken } w with
      | (.resolved r, w) =>
        (match r.json with
         | .ok j => .ok j
         | .error e => .error e, data, w)
      | (.rejected e, w) => (.error e, data, w) }

/-- The world when the process starts, at time 0. -/
def start : World := { now := 0, calls := [], warnings := [] }

/-- The handler of ship-details.js in the example deployment;
`processShipDetails` keeps the payload as it is. -/
def shipHandler (req : Request) (data : CacheData String) (w : World) :
    Response String String × CacheData String × World :=
  ShipDetails.handler env net ops (fun j => .ok j) req data w

/-- The handler of search.js in the example deployment; `parseFloat` keeps
its argument and `JSON.parse` is not needed. -/
def searchHandler (req : Request) (tc : TokenCache) (w : World) :
    Response String (Search.Result String) × TokenCache × World :=
  Search.handler env net ops (fun s => some s) (fun _ => none) req tc w

/-- The handler of yacht.js in the example deployment. -/
def yachtHandler (req : Request) (st : Yacht.State String) (w : World) :
    Response String String × Yacht.State String × World :=
  Yacht.handler env net ops deps req st w

/-- A network in which the downstream search answers with the given error
status and the plain text `denied`, everything else as in `net`. -/
def netSearchStatus (status : Nat) : Network String :=
  { axios := net.axios,
    fetch := fun n r =>
      if r.url = "https://api.ankor.io/website/search" then
        { elapsed := 20,
          value := .resolved
            { ok := false, status := status,
              json := .error { name := "SyntaxError", message := "Unexpected token",
                               response := none },
              text := .ok "denied" } }
      else net.fetch n r }

/-- A GET request to the search route with the given query and origin. -/
def searchRequest (origin : Option String) (query : Query) : Request :=
  { method := "GET", origin := origin, query := query }

/-- A payload that is either a string or an object with string properties. -/
inductive Json where
  | text (s : String)
  | object (fields : List (String × String))
deriving DecidableEq, Repr

/-- The property `name` of a payload when it is an object that has it. -/
def Json.prop (name : String) : Json → Option String
  | .text _ => none
  | .object fields => JsMap.get fields name

/-- Whether the payload is a string. -/
def Json.isString : Json → Bool
  | .text _ => true
  | .object _ => false

/-- Truthiness of a payload: every object, and every string but the empty one. -/
def Json.truthy : Json → Bool
  | .text s => s ≠ ""
  | .object _ => true

/-- A network in which `/api/auth` answers with a signed assertion and the
token endpoint rejects it with status 400 and the usual OAuth error object. -/
def netGrantRefused : Network Json :=
  { axios := fun _ _ =>
      { elapsed := 20,
        value := .error
          { name := "AxiosError", message := "Request failed with status code 400",
            response := some (400, .object [("error", "invalid_grant")]) } },
    fetch := fun _ _ =>
      { elapsed := 20,
        value := .resolved
          { ok := true, status := 200, json := .ok (.object [("jwt_assertion", "jwt")]),
            text := .ok "" } } }

/-- Property reads on the payloads of `Json`. -/
def jsonOps : JsonOps Json :=
  { accessToken := Json.prop "accessToken",
    access_token := Json.prop "access_token",
    error := fun j => (Json.prop "error" j).map Json.text,
    message := Json.prop "message",
    estHits := fun _ => none,
    hits := fun _ => none,
    name := fun _ => none,
    pricing := fun _ => none }

/-- The handler of token.js in that deployment. -/
def tokenHandler (net : Network Json) (req : Request) (w : World) :
    Response Json (Option String) × World :=
  Token.handler env net jsonOps (fun _ => "Internal Server Error") (Json.prop "jwt_assertion")
    Json.truthy req w

/-- Reads and builds of the enrichment in the example: the detail payload of
the vessel `c::1::vessel::priced` has a day price of 300000 in EUR and no
week price, no other payload has a pricing; a cached value is a payload with
its pricing; no description names an operating area; `toLowerCase` lowers the
letters `A` to `Z`; the quotients are exact, as those of the doubles of the
example are (300000 / 100 and 700000 / 700). -/
def enrichOps : Yacht.EnrichOps String (String × Option Yacht.Pricing) :=
  { detailPricing := fun j =>
      if j = "data of https://api.ankor.io/website/entity/c::1::vessel::priced" then
        some { dayPricingFrom := some { displayPrice := some 300000,
                                        displayCurrency := some "EUR" },
               weekPricingFrom := none }
      else none,
    cachedPricing := fun d => d.2,
    detailsEntry := fun j p => (j, some p),
    operatingAreas := fun _ => none,
    toLowerCase := fun s => String.mk (s.data.map Char.toLower),
    divide := fun x y => x / y }

/-- A yacht of the downstream list that has only a uri. -/
def listed (uri : String) : Yacht.ListedYacht Unit :=
  { uri := some uri, name := none, make := none, builtYear := none, length := none,
    sleeps := none, hero := none, description := none, region := none, rest := () }

/-- A network in which every `fetch` is aborted by the timeout. -/
def netTimeout : Network String :=
  { axios := net.axios,
    fetch := fun _ _ =>
      { elapsed := 10000,
        value := .rejected { name := "AbortError", message := "This operation was aborted",
                             response := none } } }

/-- The state of an enrichment that starts with an empty cache. -/
def enrichStart : Yacht.EnrichState (String × Option Yacht.Pricing) :=
  { cache := [], world := start, registrationAttempted := [] }

/-- Reads and builds of the enrichment as in `enrichOps`, but the description
`Operating Area: Monaco, Greece` names the areas `Monaco` and `Greece`. -/
def enrichOpsAreas : Yacht.EnrichOps String (String × Option Yacht.Pricing) :=
  { enrichOps with
    operatingAreas := fun description =>
      if description = "Operating Area: Monaco, Greece" then some ["Monaco", "Greece"]
      else none }

/-- A yacht of the downstream list without a uri, with the given description
and region. -/
def described (description : String) (region : Option String) : Yacht.ListedYacht Unit :=
  { uri := none, name := none, make := none, builtYear := none, length := none,
    sleeps := none, hero := none, description := some description, region := region,
    rest := () }

/-- Reads on the string payloads for filtered-ships.js: every payload is an
object; the payload of the downstream search has two hits with the same uri,
no other payload has hits or related vessels. -/
def shipOps : FilteredShips.ShipOps String String :=
  { isObject := fun _ => true,
    hits := fun j =>
      if j = "data of https://api.ankor.io/website/search" then
        .array [{ uri := some "c::8864389904::vessel::a", rest := "first" },
                { uri := some "c::8864389904::vessel::a", rest := "second" }]
      else .missing,
    relatedVessels := fun _ => none,
    pick := fun x => x }

/-- The handler of filtered-ships.js in the example deployment. -/
def filteredShipsHandler (req : Request) (st : FilteredShips.State (FilteredShips.ResponseData String))
    (w : World) :
    Response String (FilteredShips.ResponseData String)
      × FilteredShips.State (FilteredShips.ResponseData String) × World :=
  FilteredShips.handler ops (FilteredShips.handler.tryBlock env net ops shipOps) req st w

/-- The operator `/` on the doubles of a second example: the quotients of
24629060462182748 by 700 and by 100 as the division of doubles rounds them,
35184372088832.5 and 246290604621827.46875; every other quotient is exact. -/
def doubleDivide (x y : ℚ) : ℚ :=
  if x = 24629060462182748 ∧ y = 700 then 70368744177665 / 2
  else if x = 24629060462182748 ∧ y = 100 then 7881299347898479 / 32
  else x / y

end Example

/-! # Theorems -/

/-! ## Lemmas on the map model -/

theorem JsMap.get_set_same {β : Type} (m : List (String × β)) (k : String) (v : β) :
    JsMap.get (JsMap.set m k v) k = some v := by
  induction m with
  | nil => simp [JsMap.set, JsMap.get]
  | cons p rest ih =>
    obtain ⟨k', v'⟩ := p
    by_cases h : k' = k
    · simp [JsMap.set, JsMap.get, h]
    · simp [JsMap.set, JsMap.get, h, ih]

theorem JsMap.get_set_other {β : Type} (m : List (String × β)) (k k' : String) (v : β)
    (hne : k' ≠ k) : JsMap.get (JsMap.set m k v) k' = JsMap.get m k' := by
  induction m with
  | nil =>
    have : ¬ k = k' := fun h => hne h.symm
    simp [JsMap.set, JsMap.get, this]
  | cons p rest ih =>
    obtain ⟨k0, v0⟩ := p
    by_cases h : k0 = k
    · subst h
      simp [JsMap.set, JsMap.get, Ne.symm hne]
    · by_cases h' : k0 = k'
      · subst h'
        simp [JsMap.set, JsMap.get, h]
      · simp [JsMap.set, JsMap.get, h, h', ih]

theorem JsMap.get_delete_same {β : Type} (m : List (String × β)) (k : String) :
    JsMap.get (JsMap.delete m k) k = none := by
  induction m with
  | nil => simp [JsMap.delete, JsMap.get]
  | cons p rest ih =>
    obtain ⟨k0, v0⟩ := p
    by_cases h : k0 = k
    · simp [JsMap.delete, h, ih]
    · simp [JsMap.delete, h, JsMap.get, ih]

theorem JsMap.get_delete_other {β : Type} (m : List (String × β)) (k k' : String)
    (hne : k' ≠ k) : JsMap.get (JsMap.delete m k) k' = JsMap.get m k' := by
  induction m with
  | nil => simp [JsMap.delete, JsMap.get]
  | cons p rest ih =>
    obtain ⟨k0, v0⟩ := p
    by_cases h : k0 = k
    · subst h
      simp [JsMap.delete, JsMap.get, Ne.symm hne, ih]
    · by_cases h' : k0 = k'
      · subst h'
        simp [JsMap.delete, h, JsMap.get]
      · simp [JsMap.delete, h, JsMap.get, h', ih]

/-! ## The response cache: claims -/

/-- C1: for every prior state of `cache.data` (one that already holds an
entry for `key` included), `cache.set(key, v)` at time `t` followed by
`cache.get(key)` at a time `t'` with `t ≤ t' < t + ttl` returns `v`. -/
theorem cache_set_then_get {V : Type} (data : CacheData V) (key : String) (v : V)
    (t t' : Nat) (_h1 : t ≤ t') (h2 : t' < t + cache.ttl) :
    (cache.get (cache.set data t key v) t' key).1 = some v := by
  have hlt : ¬ t' > t + cache.ttl := by omega
  simp [cache.get, cache.set, JsMap.get_set_same, hlt]

/-- Witness of C1: an entry for the key is already present, and the read
happens one millisecond before the five minutes are over. -/
theorem cache_set_then_get_witness :
    (cache.get (cache.set [("k", { value := 1, expiry := 7 })] 1000 "k" 2) 300999 "k").1
      = some 2 :=
  cache_set_then_get [("k", { value := 1, expiry := 7 })] "k" 2 1000 300999
    (by decide) (by decide)

/-- C2, counterexample: an entry set at time 1000 is still returned by a read
at time `1000 + ttl`, the instant at which exactly `ttl` has elapsed. -/
theorem cache_get_at_expiry_counterexample :
    (cache.get (cache.set [] 1000 "k" 7) (1000 + cache.ttl) "k").1 = some 7
    ∧ (cache.get (cache.set [] 1000 "k" 7) (1000 + cache.ttl) "k").1 ≠ none := by
  decide

/-- C2, amended: `cache.get(key)` returns a stored value only when
`now ≤ expiry`; after `cache.set(key, v)` at time `t`, a read at a time
`t'` with `t' > t + ttl` returns `null`, and a read at `t' = t + ttl` (or at
any `t' ≤ t + ttl`) still returns `v`. -/
theorem cache_get_expiry {V : Type} (data : CacheData V) (key : String) (v : V)
    (t t' : Nat) :
    (∀ now w, (cache.get data now key).1 = some w →
        ∃ item, JsMap.get data key = some item ∧ item.value = w ∧ now ≤ item.expiry)
    ∧ (t + cache.ttl < t' → (cache.get (cache.set data t key v) t' key).1 = none)
    ∧ (t' ≤ t + cache.ttl → (cache.get (cache.set data t key v) t' key).1 = some v) := by
  refine ⟨?_, ?_, ?_⟩
  · intro now w h
    unfold cache.get at h
    cases hg : JsMap.get data key with
    | none => simp [hg] at h
    | some item =>
      by_cases hexp : now > item.expiry
      · simp [hg, hexp] at h
      · simp [hg, hexp] at h
        exact ⟨item, rfl, h, by omega⟩
  · intro h
    simp [cache.get, cache.set, JsMap.get_set_same, h]
  · intro h
    have hlt : ¬ t' > t + cache.ttl := by omega
    simp [cache.get, cache.set, JsMap.get_set_same, hlt]

/-- Witness of the amended C2: one millisecond past the expiry the read gives
`null`, at the expiry it gives the value. -/
theorem cache_get_expiry_witness :
    (cache.get (cache.set [] 1000 "k" 7) 301001 "k").1 = none
    ∧ (cache.get (cache.set [] 1000 "k" 7) 301000 "k").1 = some 7 :=
  ⟨(cache_get_expiry [] "k" 7 1000 301001).2.1 (by decide),
   (cache_get_expiry [] "k" 7 1000 301000).2.2 (by decide)⟩

/-- C3: for every state of `cache.data`, every time and every key,
`cache.get(key)` returns a value only from an entry whose expiry has not
passed (`¬ now > expiry`); on an entry whose expiry has passed it returns
`null` and leaves no entry for the key; the entries of all other keys are
unchanged; and when a value is returned the map is unchanged. -/
theorem cache_get_lazy_eviction {V : Type} (data : CacheData V) (now : Nat) (key : String) :
    (∀ w, (cache.get data now key).1 = some w →
        ∃ item, JsMap.get data key = some item ∧ item.value = w ∧ ¬ now > item.expiry)
    ∧ (∀ item, JsMap.get data key = some item → now > item.expiry →
        (cache.get data now key).1 = none
        ∧ JsMap.get (cache.get data now key).2 key = none)
    ∧ (∀ k', k' ≠ key → JsMap.get (cache.get data now key).2 k' = JsMap.get data k')
    ∧ ((cache.get data now key).1 ≠ none → (cache.get data now key).2 = data) := by
  unfold cache.get
  cases hg : JsMap.get data key with
  | none => simp
  | some item =>
    by_cases hexp : now > item.expiry
    · simp only [hexp, if_true]
      refine ⟨by simp, ?_, ?_, by simp⟩
      · intro item' _ _
        exact ⟨by simp, by simpa using JsMap.get_delete_same data key⟩
      · intro k' hne
        exact JsMap.get_delete_other data key k' hne
    · simp only [hexp, if_false]
      refine ⟨?_, ?_, by simp, by simp⟩
      · intro w hw
        simp at hw
        exact ⟨item, rfl, hw, hexp⟩
      · intro item' h1 h2
        simp at h1
        subst h1
        exact absurd h2 hexp

/-- Witness of C3: an expired entry next to a live one. -/
theorem cache_get_lazy_eviction_witness :
    ((cache.get [("a", { value := 1, expiry := 5 }), ("b", { value := 2, expiry := 50 })]
        10 "a").1 = none
      ∧ JsMap.get (cache.get
          [("a", { value := 1, expiry := 5 }), ("b", { value := 2, expiry := 50 })]
          10 "a").2 "a" = none)
    ∧ JsMap.get (cache.get
          [("a", { value := 1, expiry := 5 }), ("b", { value := 2, expiry := 50 })]
          10 "a").2 "b" = some { value := 2, expiry := 50 } :=
  ⟨(cache_get_lazy_eviction
      [("a", { value := 1, expiry := 5 }), ("b", { value := 2, expiry := 50 })] 10 "a").2.1
      { value := 1, expiry := 5 } (by decide) (by decide),
   (cache_get_lazy_eviction
      [("a", { value := 1, expiry := 5 }), ("b", { value := 2, expiry := 50 })] 10 "a").2.2.1
      "b" (by decide)⟩

/-! ## The retry loops -/

/-- The linear waits `delay * (attempt + 1)` after the failed attempts
`a, a+1, ..., a+d-1`. -/
theorem shipLoop_success {E P : Type} (target : Nat → Except E P)
    (maxRetries delay k : Nat) (p : P) (hk : k < maxRetries)
    (hok : target k = .ok p) :
    ∀ (d a n : Nat) (ws : List Nat), a + d = k → a + n = maxRetries →
      (∀ j, a ≤ j → j < k → ∃ e, target j = .error e) →
      ShipDetails.fetchWithRetry.loop target maxRetries delay n a ws =
        { outcome := .returned p, attempts := k + 1,
          waits := ws ++ (List.range' a d).map (fun i => delay * (i + 1)) } := by
  intro d
  induction d with
  | zero =>
    intro a n ws had han _
    obtain ⟨n', rfl⟩ : ∃ n', n = n' + 1 := ⟨n - 1, by omega⟩
    have : a = k := by omega
    subst this
    simp [ShipDetails.fetchWithRetry.loop, hok]
  | succ d ih =>
    intro a n ws had han hfail
    obtain ⟨n', rfl⟩ : ∃ n', n = n' + 1 := ⟨n - 1, by omega⟩
    obtain ⟨e, he⟩ := hfail a (Nat.le_refl a) (by omega)
    have hne : ¬ a = maxRetries - 1 := by omega
    have hrec := ih (a + 1) n' (ws ++ [delay * (a + 1)]) (by omega) (by omega)
      (fun j hj hjk => hfail j (by omega) hjk)
    simp [ShipDetails.fetchWithRetry.loop, he, hne, hrec, List.range'_succ]

theorem shipLoop_exhausted {E P : Type} (target : Nat → Except E P)
    (maxRetries delay : Nat) (eLast : E)
    (hlast : target (maxRetries - 1) = .error eLast) :
    ∀ (n a : Nat) (ws : List Nat), a + (n + 1) = maxRetries →
      (∀ j, a ≤ j → j < maxRetries → ∃ e, target j = .error e) →
      ShipDetails.fetchWithRetry.loop target maxRetries delay (n + 1) a ws =
        { outcome := .threw eLast, attempts := maxRetries,
          waits := ws ++ (List.range' a n).map (fun i => delay * (i + 1)) } := by
  intro n
  induction n with
  | zero =>
    intro a ws han _
    have ha : a = maxRetries - 1 := by omega
    have ha' : maxRetries - 1 + 1 = maxRetries := by omega
    subst ha
    simp [ShipDetails.fetchWithRetry.loop, hlast, ha']
  | succ n ih =>
    intro a ws han hfail
    obtain ⟨e, he⟩ := hfail a (Nat.le_refl a) (by omega)
    have hne : ¬ a = maxRetries - 1 := by omega
    have hrec := ih (a + 1) (ws ++ [delay * (a + 1)]) (by omega)
      (fun j hj hjk => hfail j (by omega) hjk)
    rw [ShipDetails.fetchWithRetry.loop]
    simp [he, hne, hrec, List.range'_succ]

theorem filteredLoop_success {E P : Type} (target : Nat → Except E P)
    (maxRetries delay k : Nat) (p : P) (hk : k < maxRetries)
    (hok : target k = .ok p) :
    ∀ (d a n : Nat) (last : Option E) (ws : List Nat), a + d = k → a + n = maxRetries →
      (∀ j, a ≤ j → j < k → ∃ e, target j = .error e) →
      FilteredShips.fetchWithRetry.loop target maxRetries delay n a last ws =
        { outcome := .returned p, attempts := k + 1,
          waits := ws ++ (List.range' a d).map (fun i => delay * (i + 1)) } := by
  intro d
  induction d with
  | zero =>
    intro a n last ws had han _
    obtain ⟨n', rfl⟩ : ∃ n', n = n' + 1 := ⟨n - 1, by omega⟩
    have : a = k := by omega
    subst this
    simp [FilteredShips.fetchWithRetry.loop, hok]
  | succ d ih =>
    intro a n last ws had han hfail
    obtain ⟨n', rfl⟩ : ∃ n', n = n' + 1 := ⟨n - 1, by omega⟩
    obtain ⟨e, he⟩ := hfail a (Nat.le_refl a) (by omega)
    have hne : ¬ a = maxRetries - 1 := by omega
    have hrec := ih (a + 1) n' (some e) (ws ++ [delay * (a + 1)]) (by omega) (by omega)
      (fun j hj hjk => hfail j (by omega) hjk)
    simp [FilteredShips.fetchWithRetry.loop, he, hne, hrec, List.range'_succ]

theorem filteredLoop_exhausted {E P : Type} (target : Nat → Except E P)
    (maxRetries delay : Nat) (eLast : E)
    (hlast : target (maxRetries - 1) = .error eLast) :
    ∀ (n a : Nat) (last : Option E) (ws : List Nat), a + (n + 1) = maxRetries →
      (∀ j, a ≤ j → j < maxRetries → ∃ e, target j = .error e) →
      FilteredShips.fetchWithRetry.loop target maxRetries delay (n + 1) a last ws =
        { outcome := .threw eLast, attempts := maxRetries,
          waits := ws ++ (List.range' a n).map (fun i => delay * (i + 1)) } := by
  intro n
  induction n with
  | zero =>
    intro a last ws han _
    have ha : a = maxRetries - 1 := by omega
    have ha' : maxRetries - 1 + 1 = maxRetries := by omega
    subst ha
    simp [FilteredShips.fetchWithRetry.loop, hlast, ha']
  | succ n ih =>
    intro a last ws han hfail
    obtain ⟨e, he⟩ := hfail a (Nat.le_refl a) (by omega)
    have hne : ¬ a = maxRetries - 1 := by omega
    have hrec := ih (a + 1) (some e) (ws ++ [delay * (a + 1)]) (by omega)
      (fun j hj hjk => hfail j (by omega) hjk)
    rw [FilteredShips.fetchWithRetry.loop]
    simp [he, hne, hrec, List.range'_succ]

theorem Yacht.failsOrdinarily_iff {J : Type} (r : FetchResult J) :
    Yacht.FailsOrdinarily r ↔ ∃ e, Yacht.attempt r = .error e ∧ e.name ≠ "AbortError" := by
  unfold Yacht.FailsOrdinarily
  cases h : Yacht.attempt r with
  | ok v => simp
  | error e => simp

theorem yachtLoop_success {J : Type} (url : String) (target : Nat → FetchResult J)
    (retries delay k : Nat) (p : J) (hk : k < retries)
    (hok : Yacht.attempt (target k) = .ok p) :
    ∀ (d a n : Nat) (ws : List Nat), a + d = k → a + n = retries →
      (∀ j, a ≤ j → j < k → Yacht.FailsOrdinarily (target j)) →
      Yacht.fetchWithRetry.loop url target retries delay n a ws =
        { outcome := .returned p, attempts := k + 1,
          waits := ws ++ (List.range' a d).map (fun i => delay * 2 ^ i) } := by
  intro d
  induction d with
  | zero =>
    intro a n ws had han _
    obtain ⟨n', rfl⟩ : ∃ n', n = n' + 1 := ⟨n - 1, by omega⟩
    have : a = k := by omega
    subst this
    simp [Yacht.fetchWithRetry.loop, hok]
  | succ d ih =>
    intro a n ws had han hfail
    obtain ⟨n', rfl⟩ : ∃ n', n = n' + 1 := ⟨n - 1, by omega⟩
    obtain ⟨e, he, hname⟩ :=
      (Yacht.failsOrdinarily_iff _).1 (hfail a (Nat.le_refl a) (by omega))
    have hne : ¬ a = retries - 1 := by omega
    have hrec := ih (a + 1) n' (ws ++ [delay * 2 ^ a]) (by omega) (by omega)
      (fun j hj hjk => hfail j (by omega) hjk)
    simp [Yacht.fetchWithRetry.loop, he, hname, hne, hrec, List.range'_succ]

theorem yachtLoop_exhausted {J : Type} (url : String) (target : Nat → FetchResult J)
    (retries delay : Nat) (eLast : JsError J)
    (hlast : Yacht.attempt (target (retries - 1)) = .error eLast) :
    ∀ (n a : Nat) (ws : List Nat), a + (n + 1) = retries →
      (∀ j, a ≤ j → j < retries → Yacht.FailsOrdinarily (target j)) →
      Yacht.fetchWithRetry.loop url target retries delay (n + 1) a ws =
        { outcome := .threw eLast, attempts := retries,
          waits := ws ++ (List.range' a n).map (fun i => delay * 2 ^ i) } := by
  intro n
  induction n with
  | zero =>
    intro a ws han hfail
    have ha : a = retries - 1 := by omega
    have ha' : retries - 1 + 1 = retries := by omega
    obtain ⟨e, he, hname⟩ :=
      (Yacht.failsOrdinarily_iff _).1 (hfail a (Nat.le_refl a) (by omega))
    subst ha
    have hee : e = eLast := by
      rw [hlast] at he
      exact (Except.error.inj he).symm
    subst hee
    simp [Yacht.fetchWithRetry.loop, hlast, hname, ha']
  | succ n ih =>
    intro a ws han hfail
    obtain ⟨e, he, hname⟩ :=
      (Yacht.failsOrdinarily_iff _).1 (hfail a (Nat.le_refl a) (by omega))
    have hne : ¬ a = retries - 1 := by omega
    have hrec := ih (a + 1) (ws ++ [delay * 2 ^ a]) (by omega)
      (fun j hj hjk => hfail j (by omega) hjk)
    rw [Yacht.fetchWithRetry.loop]
    simp [he, hname, hne, hrec, List.range'_succ]

theorem yachtLoop_abort {J : Type} (url : String) (target : Nat → FetchResult J)
    (retries delay k : Nat) (eAbort : JsError J) (hk : k < retries)
    (habort : Yacht.attempt (target k) = .error eAbort)
    (hname : eAbort.name = "AbortError") :
    ∀ (d a n : Nat) (ws : List Nat), a + d = k → a + n = retries →
      (∀ j, a ≤ j → j < k → Yacht.FailsOrdinarily (target j)) →
      Yacht.fetchWithRetry.loop url target retries delay n a ws =
        { outcome := .threw (Yacht.timeoutError url), attempts := k + 1,
          waits := ws ++ (List.range' a d).map (fun i => delay * 2 ^ i) } := by
  intro d
  induction d with
  | zero =>
    intro a n ws had han _
    obtain ⟨n', rfl⟩ : ∃ n', n = n' + 1 := ⟨n - 1, by omega⟩
    have : a = k := by omega
    subst this
    simp [Yacht.fetchWithRetry.loop, habort, hname]
  | succ d ih =>
    intro a n ws had han hfail
    obtain ⟨n', rfl⟩ : ∃ n', n = n' + 1 := ⟨n - 1, by omega⟩
    obtain ⟨e, he, hname'⟩ :=
      (Yacht.failsOrdinarily_iff _).1 (hfail a (Nat.le_refl a) (by omega))
    have hne : ¬ a = retries - 1 := by omega
    have hrec := ih (a + 1) n' (ws ++ [delay * 2 ^ a]) (by omega) (by omega)
      (fun j hj hjk => hfail j (by omega) hjk)
    simp [Yacht.fetchWithRetry.loop, he, hname', hne, hrec, List.range'_succ]

/-! ## `fetchWithRetry`: claims -/

/-- C4: in every `fetchWithRetry` variant, with `maxRetries ≥ 1` and
`k < maxRetries`, a target that fails on its first `k` attempts (in yacht.js:
with errors other than an abort) and succeeds on attempt `k + 1` is asked
exactly `k + 1` times and the payload of the successful attempt is returned. -/
theorem fetchWithRetry_fail_then_succeed {E J : Type} (maxRetries delay k : Nat)
    (_h1 : 1 ≤ maxRetries) (hk : k < maxRetries) :
    (∀ (target : Nat → Except E J) (p : J),
        (∀ j, j < k → ∃ e, target j = .error e) → target k = .ok p →
        ((ShipDetails.fetchWithRetry target maxRetries delay).outcome = .returned p
          ∧ (ShipDetails.fetchWithRetry target maxRetries delay).attempts = k + 1)
        ∧ ((YachtDetails.fetchWithRetry target maxRetries delay).outcome = .returned p
          ∧ (YachtDetails.fetchWithRetry target maxRetries delay).attempts = k + 1)
        ∧ ((FilteredShips.fetchWithRetry target maxRetries delay).outcome = .returned p
          ∧ (FilteredShips.fetchWithRetry target maxRetries delay).attempts = k + 1))
    ∧ (∀ (url : String) (target : Nat → FetchResult J) (p : J),
        (∀ j, j < k → Yacht.FailsOrdinarily (target j)) →
        Yacht.attempt (target k) = .ok p →
        (Yacht.fetchWithRetry url target maxRetries delay).outcome = .returned p
          ∧ (Yacht.fetchWithRetry url target maxRetries delay).attempts = k + 1) := by
  refine ⟨?_, ?_⟩
  · intro target p hfail hok
    have hs := shipLoop_success target maxRetries delay k p hk hok k 0 maxRetries []
      (by omega) (by omega) (fun j _ hj => hfail j hj)
    have hf := filteredLoop_success target maxRetries delay k p hk hok k 0 maxRetries
      none [] (by omega) (by omega) (fun j _ hj => hfail j hj)
    simp [YachtDetails.fetchWithRetry, ShipDetails.fetchWithRetry,
      FilteredShips.fetchWithRetry, hs, hf]
  · intro url target p hfail hok
    have hy := yachtLoop_success url target maxRetries delay k p hk hok k 0 maxRetries []
      (by omega) (by omega) (fun j _ hj => hfail j hj)
    simp [Yacht.fetchWithRetry, hy]

/-- Witness of C4: fail, fail, succeed under the default limit of 3 makes
exactly 3 attempts in the axios variant and in the yacht.js variant. -/
theorem fetchWithRetry_fail_then_succeed_witness :
    ((ShipDetails.fetchWithRetry
        (fun i => if i < 2 then Except.error "down" else Except.ok 42)
        defaultRetries defaultDelay).outcome = .returned 42
      ∧ (ShipDetails.fetchWithRetry
        (fun i => if i < 2 then Except.error "down" else Except.ok 42)
        defaultRetries defaultDelay).attempts = 3)
    ∧ ((Yacht.fetchWithRetry "u"
        (fun i => if i < 2 then FetchResult.resolved { ok := false, status := 503, json := .ok 0, text := .ok "" }
          else FetchResult.resolved { ok := true, status := 200, json := .ok 42, text := .ok "" })
        defaultRetries defaultDelay).outcome = .returned 42
      ∧ (Yacht.fetchWithRetry "u"
        (fun i => if i < 2 then FetchResult.resolved { ok := false, status := 503, json := .ok 0, text := .ok "" }
          else FetchResult.resolved { ok := true, status := 200, json := .ok 42, text := .ok "" })
        defaultRetries defaultDelay).attempts = 3) :=
  ⟨((fetchWithRetry_fail_then_succeed (E := String) (J := Nat) defaultRetries defaultDelay 2
      (by decide) (by decide)).1
      (fun i => if i < 2 then Except.error "down" else Except.ok 42) 42
      (fun j hj => ⟨"down", by simp [hj]⟩) (by simp)).1,
   (fetchWithRetry_fail_then_succeed (E := String) (J := Nat) defaultRetries defaultDelay 2
      (by decide) (by decide)).2 "u"
      (fun i => if i < 2 then FetchResult.resolved { ok := false, status := 503, json := .ok 0, text := .ok "" }
        else FetchResult.resolved { ok := true, status := 200, json := .ok 42, text := .ok "" }) 42
      (fun j hj => by
        simp only [hj, if_true]
        decide)
      (by simp [Yacht.attempt])⟩

/-- C5: in every `fetchWithRetry` variant, with `maxRetries ≥ 1`, a target
that fails at every attempt (in yacht.js: never with an abort) is asked
exactly `maxRetries` times and the call throws the error of the last
attempt. -/
theorem fetchWithRetry_all_fail {E J : Type} (maxRetries delay : Nat)
    (h1 : 1 ≤ maxRetries) :
    (∀ (target : Nat → Except E J) (eLast : E),
        (∀ j, j < maxRetries → ∃ e, target j = .error e) →
        target (maxRetries - 1) = .error eLast →
        ((ShipDetails.fetchWithRetry target maxRetries delay).outcome = .threw eLast
          ∧ (ShipDetails.fetchWithRetry target maxRetries delay).attempts = maxRetries)
        ∧ ((YachtDetails.fetchWithRetry target maxRetries delay).outcome = .threw eLast
          ∧ (YachtDetails.fetchWithRetry target maxRetries delay).attempts = maxRetries)
        ∧ ((FilteredShips.fetchWithRetry target maxRetries delay).outcome = .threw eLast
          ∧ (FilteredShips.fetchWithRetry target maxRetries delay).attempts = maxRetries))
    ∧ (∀ (url : String) (target : Nat → FetchResult J) (eLast : JsError J),
        (∀ j, j < maxRetries → Yacht.FailsOrdinarily (target j)) →
        Yacht.attempt (target (maxRetries - 1)) = .error eLast →
        (Yacht.fetchWithRetry url target maxRetries delay).outcome = .threw eLast
          ∧ (Yacht.fetchWithRetry url target maxRetries delay).attempts = maxRetries) := by
  obtain ⟨n, rfl⟩ : ∃ n, maxRetries = n + 1 := ⟨maxRetries - 1, by omega⟩
  refine ⟨?_, ?_⟩
  · intro target eLast hfail hlast
    have hs := shipLoop_exhausted target (n + 1) delay eLast hlast n 0 []
      (by omega) (fun j _ hj => hfail j hj)
    have hf := filteredLoop_exhausted target (n + 1) delay eLast hlast n 0 none []
      (by omega) (fun j _ hj => hfail j hj)
    simp [YachtDetails.fetchWithRetry, ShipDetails.fetchWithRetry,
      FilteredShips.fetchWithRetry, hs, hf]
  · intro url target eLast hfail hlast
    have hy := yachtLoop_exhausted url target (n + 1) delay eLast hlast n 0 []
      (by omega) (fun j _ hj => hfail j hj)
    simp [Yacht.fetchWithRetry, hy]

/-- Witness of C5: a target whose attempt `i` fails with the error `i`, under
the default limit of 3: three attempts, and the error 2 of the last one is
thrown. -/
theorem fetchWithRetry_all_fail_witness :
    ((FilteredShips.fetchWithRetry (fun i => (Except.error i : Except Nat Nat))
        defaultRetries defaultDelay).outcome = .threw 2
      ∧ (FilteredShips.fetchWithRetry (fun i => (Except.error i : Except Nat Nat))
        defaultRetries defaultDelay).attempts = 3)
    ∧ ((Yacht.fetchWithRetry "u"
        (fun i => (FetchResult.resolved { ok := false, status := 500 + i, json := .ok 0, text := .ok "" } :
          FetchResult Nat))
        defaultRetries defaultDelay).outcome = .threw (Yacht.httpError 502)
      ∧ (Yacht.fetchWithRetry "u"
        (fun i => (FetchResult.resolved { ok := false, status := 500 + i, json := .ok 0, text := .ok "" } :
          FetchResult Nat))
        defaultRetries defaultDelay).attempts = 3) :=
  ⟨((fetchWithRetry_all_fail (E := Nat) (J := Nat) defaultRetries defaultDelay (by decide)).1
      (fun i => Except.error i) 2 (fun j _ => ⟨j, rfl⟩) rfl).2.2,
   (fetchWithRetry_all_fail (E := Nat) (J := Nat) defaultRetries defaultDelay (by decide)).2
      "u" (fun i => FetchResult.resolved { ok := false, status := 500 + i, json := .ok 0, text := .ok "" })
      (Yacht.httpError 502)
      (fun j _ => by
        simp [Yacht.FailsOrdinarily, Yacht.attempt, Yacht.httpError, newError])
      rfl⟩

theorem Yacht.timeoutError_ne_httpError {J : Type} (url : String) (status : Nat) :
    (Yacht.timeoutError url : JsError J) ≠ Yacht.httpError status := by
  intro h
  have hm : ("Request timed out for " ++ url).data
      = ("HTTP error! Status: " ++ toString status).data := by
    have := congrArg JsError.message h
    simpa [Yacht.timeoutError, Yacht.httpError, newError] using congrArg String.data this
  simp [String.data_append] at hm

/-- C6: in the `fetchWithRetry` of yacht.js, with `retries ≥ 1` and
`i < retries`, when the attempts before attempt `i` fail with ordinary errors
and attempt `i` fails with an `AbortError`, exactly `i + 1` attempts are made
and the call throws the error `Request timed out for <url>`; that error is
neither the error of the aborted attempt, which the path of the other
failures would rethrow, nor any `HTTP error! Status: ...` error. -/
theorem yacht_fetchWithRetry_timeout {J : Type} (url : String)
    (target : Nat → FetchResult J) (retries delay i : Nat) (eAbort : JsError J)
    (_h1 : 1 ≤ retries) (hi : i < retries)
    (hfail : ∀ j, j < i → Yacht.FailsOrdinarily (target j))
    (habort : Yacht.attempt (target i) = .error eAbort)
    (hname : eAbort.name = "AbortError") :
    (Yacht.fetchWithRetry url target retries delay).attempts = i + 1
    ∧ (Yacht.fetchWithRetry url target retries delay).outcome
        = .threw (Yacht.timeoutError url)
    ∧ (Yacht.timeoutError url : JsError J).message = "Request timed out for " ++ url
    ∧ (Yacht.timeoutError url : JsError J) ≠ eAbort
    ∧ ∀ status, (Yacht.timeoutError url : JsError J) ≠ Yacht.httpError status := by
  have hy := yachtLoop_abort url target retries delay i eAbort hi habort hname i 0 retries []
    (by omega) (by omega) (fun j _ hj => hfail j hj)
  refine ⟨by simp [Yacht.fetchWithRetry, hy], by simp [Yacht.fetchWithRetry, hy], rfl, ?_,
    Yacht.timeoutError_ne_httpError url⟩
  intro h
  have hn : (Yacht.timeoutError url : JsError J).name = "AbortError" := by rw [h, hname]
  simp [Yacht.timeoutError, newError] at hn

/-- Witness of C6: with the default limit of 3, a first attempt answered by
status 500 and a second one aborted: two attempts, no third one. -/
theorem yacht_fetchWithRetry_timeout_witness :
    (Yacht.fetchWithRetry "https://api/x"
      (fun i => if i = 0 then
          (FetchResult.resolved { ok := false, status := 500, json := .ok 0, text := .ok "" } : FetchResult Nat)
        else FetchResult.rejected
          { name := "AbortError", message := "This operation was aborted", response := none })
      defaultRetries defaultDelay).attempts = 2
    ∧ (Yacht.fetchWithRetry "https://api/x"
      (fun i => if i = 0 then
          (FetchResult.resolved { ok := false, status := 500, json := .ok 0, text := .ok "" } : FetchResult Nat)
        else FetchResult.rejected
          { name := "AbortError", message := "This operation was aborted", response := none })
      defaultRetries defaultDelay).outcome = .threw (Yacht.timeoutError "https://api/x") :=
  have h := yacht_fetchWithRetry_timeout "https://api/x"
    (fun i => if i = 0 then
        (FetchResult.resolved { ok := false, status := 500, json := .ok 0, text := .ok "" } : FetchResult Nat)
      else FetchResult.rejected
        { name := "AbortError", message := "This operation was aborted", response := none })
    defaultRetries defaultDelay 1
    { name := "AbortError", message := "This operation was aborted", response := none }
    (by decide) (by decide)
    (fun j hj => by
      have : j = 0 := by omega
      subst this
      decide)
    rfl rfl
  ⟨h.1, h.2.1⟩
/-! ## `JSON.stringify` loses nothing -/

namespace JSON

theorem unquote_quoteChar (c : Char) (r : List Char) :
    unquoteChar (quoteChar c ++ r) = some (c, r) := by
  unfold quoteChar
  split
  · next h => subst h; rfl
  split
  · next h => subst h; rfl
  split
  · next h => subst h; rfl
  split
  · next h => subst h; rfl
  split
  · next h => subst h; rfl
  split
  · next h => subst h; rfl
  split
  · next h => subst h; rfl
  split
  · next h1 h2 h3 h4 h5 h6 h7 hlt =>
    have hc : c = Char.ofNat c.toNat := (Char.ofNat_toNat c).symm
    generalize hn : c.toNat = n at hlt hc
    subst hc
    interval_cases n <;> rfl
  · next h1 h2 h3 h4 h5 h6 h7 hlt =>
    simp [unquoteChar, h7]

theorem quoteChar_head (c : Char) (r : List Char) :
    ∃ h t, quoteChar c ++ r = h :: t ∧ h ≠ quoteMark := by
  unfold quoteChar
  split
  · exact ⟨_, _, rfl, by decide⟩
  split
  · exact ⟨_, _, rfl, by decide⟩
  split
  · exact ⟨_, _, rfl, by decide⟩
  split
  · exact ⟨_, _, rfl, by decide⟩
  split
  · exact ⟨_, _, rfl, by decide⟩
  split
  · exact ⟨_, _, rfl, by decide⟩
  split
  · exact ⟨_, _, rfl, by decide⟩
  split
  · exact ⟨_, _, rfl, by decide⟩
  · next h6 _ _ => exact ⟨c, r, rfl, h6⟩

theorem quoteChar_inj (c1 c2 : Char) (r1 r2 : List Char)
    (h : quoteChar c1 ++ r1 = quoteChar c2 ++ r2) : c1 = c2 ∧ r1 = r2 := by
  have := congrArg unquoteChar h
  simpa [unquote_quoteChar] using this

theorem quoteBody_inj : ∀ (s1 s2 : List Char) (r1 r2 : List Char),
    quoteBody s1 ++ quoteMark :: r1 = quoteBody s2 ++ quoteMark :: r2 → s1 = s2 ∧ r1 = r2
  | [], [], r1, r2, h => by simpa [quoteBody] using h
  | [], c :: cs, r1, r2, h => by
    obtain ⟨x, t, hx, hne⟩ := quoteChar_head c (quoteBody cs ++ quoteMark :: r2)
    simp only [quoteBody, List.nil_append, List.append_assoc] at h
    rw [hx] at h
    exact absurd (List.cons.inj h).1.symm hne
  | c :: cs, [], r1, r2, h => by
    obtain ⟨x, t, hx, hne⟩ := quoteChar_head c (quoteBody cs ++ quoteMark :: r1)
    simp only [quoteBody, List.nil_append, List.append_assoc] at h
    rw [hx] at h
    exact absurd (List.cons.inj h).1 hne
  | c :: cs, d :: ds, r1, r2, h => by
    simp only [quoteBody, List.append_assoc] at h
    obtain ⟨hc, hrest⟩ := quoteChar_inj _ _ _ _ h
    obtain ⟨hs, hr⟩ := quoteBody_inj cs ds r1 r2 hrest
    exact ⟨by rw [hc, hs], hr⟩

theorem quoteJSONString_inj (s1 s2 : String) (r1 r2 : List Char)
    (h : quoteJSONString s1 ++ r1 = quoteJSONString s2 ++ r2) : s1 = s2 ∧ r1 = r2 := by
  simp only [quoteJSONString, List.cons_append, List.append_assoc, List.singleton_append,
    List.cons.injEq, true_and] at h
  obtain ⟨hs, hr⟩ := quoteBody_inj _ _ _ _ h
  exact ⟨String.ext hs, hr⟩

theorem sepBy_inj {α : Type} (close : Char) (render : α → List Char) (hclose : close ≠ ',')
    (hinj : ∀ x y r1 r2, render x ++ r1 = render y ++ r2 → x = y ∧ r1 = r2) :
    ∀ (xs ys : List α) (r1 r2 : List Char),
      sepBy close render xs ++ r1 = sepBy close render ys ++ r2 → xs = ys ∧ r1 = r2
  | [], [], r1, r2, h => by simpa [sepBy] using h
  | [], y :: ys, r1, r2, h => by
    simp only [sepBy, List.cons_append, List.cons.injEq] at h
    exact absurd h.1 hclose
  | x :: xs, [], r1, r2, h => by
    simp only [sepBy, List.cons_append, List.cons.injEq] at h
    exact absurd h.1.symm hclose
  | x :: xs, y :: ys, r1, r2, h => by
    simp only [sepBy, List.cons_append, List.cons.injEq, true_and, List.append_assoc] at h
    obtain ⟨hx, hrest⟩ := hinj _ _ _ _ h
    obtain ⟨hxs, hr⟩ := sepBy_inj close render hclose hinj xs ys r1 r2 hrest
    exact ⟨by rw [hx, hxs], hr⟩

theorem listBody_inj {α : Type} (close : Char) (render : α → List Char) (hclose : close ≠ ',')
    (hinj : ∀ x y r1 r2, render x ++ r1 = render y ++ r2 → x = y ∧ r1 = r2)
    (hhead : ∀ x r, ∃ t, render x ++ r = quoteMark :: t) (hq : close ≠ quoteMark) :
    ∀ (xs ys : List α) (r1 r2 : List Char),
      listBody close render xs ++ r1 = listBody close render ys ++ r2 → xs = ys ∧ r1 = r2
  | [], [], r1, r2, h => by simpa [listBody] using h
  | [], y :: ys, r1, r2, h => by
    obtain ⟨t, ht⟩ := hhead y (sepBy close render ys ++ r2)
    simp only [listBody, List.cons_append, List.append_assoc, List.nil_append] at h
    rw [ht] at h
    exact absurd (List.cons.inj h).1 hq
  | x :: xs, [], r1, r2, h => by
    obtain ⟨t, ht⟩ := hhead x (sepBy close render xs ++ r1)
    simp only [listBody, List.cons_append, List.append_assoc, List.nil_append] at h
    rw [ht] at h
    exact absurd (List.cons.inj h).1.symm hq
  | x :: xs, y :: ys, r1, r2, h => by
    simp only [listBody, List.append_assoc] at h
    obtain ⟨hx, hrest⟩ := hinj _ _ _ _ h
    obtain ⟨hxs, hr⟩ := sepBy_inj close render hclose hinj xs ys r1 r2 hrest
    exact ⟨by rw [hx, hxs], hr⟩

theorem quoteJSONString_head (s : String) (r : List Char) :
    ∃ t, quoteJSONString s ++ r = quoteMark :: t := ⟨_, rfl⟩

theorem serializeValue_inj (v1 v2 : QueryValue) (r1 r2 : List Char)
    (h : serializeValue v1 ++ r1 = serializeValue v2 ++ r2) : v1 = v2 ∧ r1 = r2 := by
  cases v1 with
  | str s1 =>
    cases v2 with
    | str s2 =>
      obtain ⟨hs, hr⟩ := quoteJSONString_inj s1 s2 r1 r2 h
      exact ⟨by rw [hs], hr⟩
    | arr ys =>
      simp only [serializeValue, quoteJSONString, List.cons_append, List.cons.injEq] at h
      exact absurd h.1 (by decide)
  | arr xs =>
    cases v2 with
    | str s2 =>
      simp only [serializeValue, quoteJSONString, List.cons_append, List.cons.injEq] at h
      exact absurd h.1 (by decide)
    | arr ys =>
      simp only [serializeValue, List.cons_append, List.cons.injEq, true_and] at h
      obtain ⟨hs, hr⟩ := listBody_inj ']' quoteJSONString (by decide) quoteJSONString_inj
        quoteJSONString_head (by decide) xs ys r1 r2 h
      exact ⟨by rw [hs], hr⟩

theorem serializeMember_inj (m1 m2 : String × QueryValue) (r1 r2 : List Char)
    (h : serializeMember m1 ++ r1 = serializeMember m2 ++ r2) : m1 = m2 ∧ r1 = r2 := by
  obtain ⟨k1, v1⟩ := m1
  obtain ⟨k2, v2⟩ := m2
  simp only [serializeMember, List.append_assoc] at h
  obtain ⟨hk, hrest⟩ := quoteJSONString_inj k1 k2 _ _ h
  simp only [List.cons_append, List.cons.injEq, true_and] at hrest
  obtain ⟨hv, hr⟩ := serializeValue_inj v1 v2 r1 r2 hrest
  exact ⟨by rw [hk, hv], hr⟩

theorem serializeMember_head (m : String × QueryValue) (r : List Char) :
    ∃ t, serializeMember m ++ r = quoteMark :: t := ⟨_, rfl⟩

theorem stringify_inj (q1 q2 : Query) (h : stringify q1 = stringify q2) : q1 = q2 := by
  have hd : serializeObject q1 = serializeObject q2 := by
    exact congrArg String.data h
  simp only [serializeObject, List.cons.injEq, true_and] at hd
  have := listBody_inj (Char.ofNat 125) serializeMember (by decide) serializeMember_inj
    serializeMember_head (by decide) q1 q2 [] [] (by simpa using hd)
  exact this.1

end JSON

/-! ## The cache key: claims -/

/-- C10, counterexample: the queries `?a=1&b=2` and `?b=2&a=1` hold the same
parameters with the same values, and their cache keys differ, in yacht.js and
in filtered-ships.js. -/
theorem cacheKey_order_counterexample :
    List.Perm [("a", QueryValue.str "1"), ("b", QueryValue.str "2")]
        [("b", QueryValue.str "2"), ("a", QueryValue.str "1")]
    ∧ Yacht.cacheKey [("a", .str "1"), ("b", .str "2")]
        ≠ Yacht.cacheKey [("b", .str "2"), ("a", .str "1")]
    ∧ FilteredShips.cacheKey [("a", .str "1"), ("b", .str "2")]
        ≠ FilteredShips.cacheKey [("b", .str "2"), ("a", .str "1")] := by
  refine ⟨List.Perm.swap _ _ _, by decide, by decide⟩

/-- C10, amended: the cache key of yacht.js and of filtered-ships.js is the
same string for two query objects exactly when they enumerate the same
parameter names with the same values in the same order. -/
theorem cacheKey_eq_iff (q1 q2 : Query) :
    (Yacht.cacheKey q1 = Yacht.cacheKey q2 ↔ q1 = q2)
    ∧ (FilteredShips.cacheKey q1 = FilteredShips.cacheKey q2 ↔ q1 = q2) := by
  refine ⟨⟨fun h => JSON.stringify_inj q1 q2 h, fun h => by rw [h]⟩,
    ⟨fun h => ?_, fun h => by rw [h]⟩⟩
  apply JSON.stringify_inj
  have hd := congrArg String.data h
  simp only [FilteredShips.cacheKey, String.data_append] at hd
  exact String.ext (List.append_cancel_left hd)

/-! ## The routes: claims -/

/-- C7, the code at the failing input: in the example deployment the handler
of ship-details.js answers two GET requests that both miss the response
cache, one second apart; both succeed, and the token route is asked twice,
once for each request. -/
theorem shipDetails_token_per_miss :
    (Example.shipHandler (Example.shipRequest "a") [] Example.start).1.status = 200
    ∧ (Example.shipHandler (Example.shipRequest "b")
        (Example.shipHandler (Example.shipRequest "a") [] Example.start).2.1
        { (Example.shipHandler (Example.shipRequest "a") [] Example.start).2.2 with
          now := 1000 }).1.status = 200
    ∧ (Example.shipHandler (Example.shipRequest "b")
        (Example.shipHandler (Example.shipRequest "a") [] Example.start).2.1
        { (Example.shipHandler (Example.shipRequest "a") [] Example.start).2.2 with
          now := 1000 }).2.2.calls
      = [ShipDetails.tokenRequest Example.env,
         ShipDetails.entityRequest Example.env "a" "tok",
         ShipDetails.tokenRequest Example.env,
         ShipDetails.entityRequest Example.env "b" "tok"] := by
  decide

/-- C9, the code at the failing input: in the example deployment the handler
of search.js answers the same GET request twice, one second apart; both
answers are the same 200 response, and the second request issues the
company registration and the downstream search once more (the token alone
is reused). -/
theorem search_repeat_calls_downstream :
    (Example.searchHandler Example.listRequest tokenCache.initial Example.start).1.status = 200
    ∧ (Example.searchHandler Example.listRequest tokenCache.initial Example.start).2.2.calls
      = [Search.tokenRequest Example.env,
         Search.registerRequest Example.env "tok",
         Search.searchRequest Example.env
           (Search.searchParams Example.env (fun s => some s) Example.listRequest.query).1
           "tok"]
    ∧ (Example.searchHandler Example.listRequest
        (Example.searchHandler Example.listRequest tokenCache.initial Example.start).2.1
        { (Example.searchHandler Example.listRequest tokenCache.initial Example.start).2.2 with
          now := 1060 }).1
      = (Example.searchHandler Example.listRequest tokenCache.initial Example.start).1
    ∧ (Example.searchHandler Example.listRequest
        (Example.searchHandler Example.listRequest tokenCache.initial Example.start).2.1
        { (Example.searchHandler Example.listRequest tokenCache.initial Example.start).2.2 with
          now := 1060 }).2.2.calls
      = [Search.tokenRequest Example.env,
         Search.registerRequest Example.env "tok",
         Search.searchRequest Example.env
           (Search.searchParams Example.env (fun s => some s) Example.listRequest.query).1
           "tok",
         Search.registerRequest Example.env "tok",
         Search.searchRequest Example.env
           (Search.searchParams Example.env (fun s => some s) Example.listRequest.query).1
           "tok"] := by
  decide

theorem cache_get_after_set {V : Type} (data : CacheData V) (key : String) (v : V)
    (t t' : Nat) (h : t' ≤ t + cache.ttl) :
    cache.get (cache.set data t key v) t' key = (some v, cache.set data t key v) := by
  have hlt : ¬ t' > t + cache.ttl := by omega
  simp [cache.get, cache.set, JsMap.get_set_same, hlt]

theorem yachtHandler_hit {J D : Type} (env : ProcessEnv) (net : Network J) (ops : JsonOps J)
    (deps : Yacht.Deps J D) (req : Request) (st : Yacht.State D) (w : World) (b : D)
    (hm : req.method = "GET")
    (hhit : cache.get st.cache w.now (Yacht.cacheKey req.query) = (some b, st.cache)) :
    Yacht.handler env net ops deps req st w
      = ({ headers := Yacht.corsHeaders req.origin, status := 200, body := .json b }, st, w) := by
  simp [Yacht.handler, hm, Yacht.handler.tryBlock, hhit]

theorem yachtHandler_token_error {J D : Type} (env : ProcessEnv) (net : Network J)
    (ops : JsonOps J) (deps : Yacht.Deps J D) (req : Request) (st : Yacht.State D) (w : World)
    (data : CacheData D) (e : JsError J) (tc : TokenCache) (w1 : World)
    (hm : req.method = "GET")
    (hc : cache.get st.cache w.now (Yacht.cacheKey req.query) = (none, data))
    (ht : Yacht.handler.getAccessToken env net ops deps st.tokenCache w = (.error e, tc, w1)) :
    ∃ msg, (Yacht.handler env net ops deps req st w).1.body = .error msg := by
  simp [Yacht.handler, hm, Yacht.handler.tryBlock, hc, ht]

theorem yachtHandler_list_error {J D : Type} (env : ProcessEnv) (net : Network J)
    (ops : JsonOps J) (deps : Yacht.Deps J D) (req : Request) (st : Yacht.State D) (w : World)
    (data data2 : CacheData D) (tok : String) (e : JsError J) (tc : TokenCache) (w1 w2 : World)
    (hm : req.method = "GET")
    (hc : cache.get st.cache w.now (Yacht.cacheKey req.query) = (none, data))
    (ht : Yacht.handler.getAccessToken env net ops deps st.tokenCache w = (.ok tok, tc, w1))
    (huri : Yacht.hasUri req.query = false)
    (hl : deps.listPhase req tok data w1 = (.error e, data2, w2)) :
    ∃ msg, (Yacht.handler env net ops deps req st w).1.body = .error msg := by
  simp [Yacht.handler, hm, Yacht.handler.tryBlock, hc, ht, huri, hl]

theorem yachtHandler_list_ok {J D : Type} (env : ProcessEnv) (net : Network J)
    (ops : JsonOps J) (deps : Yacht.Deps J D) (req : Request) (st : Yacht.State D) (w : World)
    (data data2 : CacheData D) (tok : String) (d : D) (tc : TokenCache) (w1 w2 : World)
    (hm : req.method = "GET")
    (hc : cache.get st.cache w.now (Yacht.cacheKey req.query) = (none, data))
    (ht : Yacht.handler.getAccessToken env net ops deps st.tokenCache w = (.ok tok, tc, w1))
    (huri : Yacht.hasUri req.query = false)
    (hl : deps.listPhase req tok data w1 = (.ok d, data2, w2)) :
    Yacht.handler env net ops deps req st w
      = ({ headers := Yacht.corsHeaders req.origin, status := 200, body := .json d },
         { cache := cache.set data2 w2.now (Yacht.cacheKey req.query) d, tokenCache := tc },
         w2) := by
  simp [Yacht.handler, hm, Yacht.handler.tryBlock, hc, ht, huri, hl]

/-- A GET of the list route that was not answered from the cache and ended
with a data body has status 200 and has stored that body under the cache key
at the time at which it ended. -/
theorem yachtHandler_fresh_list {J D : Type} (env : ProcessEnv) (net : Network J)
    (ops : JsonOps J) (deps : Yacht.Deps J D) (req : Request) (st : Yacht.State D) (w : World)
    (b : D) (hm : req.method = "GET")
    (hmiss : (cache.get st.cache w.now (Yacht.cacheKey req.query)).1 = none)
    (huri : Yacht.hasUri req.query = false)
    (hbody : (Yacht.handler env net ops deps req st w).1.body = .json b) :
    ∃ data tc w2, Yacht.handler env net ops deps req st w
      = ({ headers := Yacht.corsHeaders req.origin, status := 200, body := .json b },
         { cache := cache.set data w2.now (Yacht.cacheKey req.query) b, tokenCache := tc },
         w2) := by
  obtain ⟨r, data, hc⟩ : ∃ r data,
      cache.get st.cache w.now (Yacht.cacheKey req.query) = (r, data) := ⟨_, _, rfl⟩
  rw [hc] at hmiss
  simp only at hmiss
  subst hmiss
  obtain ⟨rt, tc, w1, ht⟩ : ∃ rt tc w1,
      Yacht.handler.getAccessToken env net ops deps st.tokenCache w = (rt, tc, w1) :=
    ⟨_, _, _, rfl⟩
  cases rt with
  | error e =>
    obtain ⟨msg, hmsg⟩ := yachtHandler_token_error env net ops deps req st w data e tc w1 hm hc ht
    rw [hmsg] at hbody
    cases hbody
  | ok tok =>
    obtain ⟨rl, data2, w2, hl⟩ : ∃ rl data2 w2, deps.listPhase req tok data w1 = (rl, data2, w2) :=
      ⟨_, _, _, rfl⟩
    cases rl with
    | error e =>
      obtain ⟨msg, hmsg⟩ := yachtHandler_list_error env net ops deps req st w data data2 tok e
        tc w1 w2 hm hc ht huri hl
      rw [hmsg] at hbody
      cases hbody
    | ok d =>
      have hok := yachtHandler_list_ok env net ops deps req st w data data2 tok d tc w1 w2
        hm hc ht huri hl
      rw [hok] at hbody ⊢
      simp only [Body.json.injEq] at hbody
      subst hbody
      exact ⟨data2, tc, w2, rfl⟩

/-- C8: in the list route of yacht.js (no `uri` parameter), after a first GET
that was not answered from the cache and succeeded with the body `b`, a second
GET with the same query, made no later than `ttl` after the first one stored
its response, is answered with status 200 and the body `b`, and leaves the
module state and the world as they were: it issues no request at all.  The
network and the called functions may have changed between the two. -/
theorem yacht_list_repeat_from_cache {J D : Type} (env env2 : ProcessEnv)
    (net net2 : Network J) (ops ops2 : JsonOps J) (deps deps2 : Yacht.Deps J D)
    (req req2 : Request) (st : Yacht.State D) (w w2 : World) (b : D)
    (hm : req.method = "GET") (hm2 : req2.method = "GET") (hq : req2.query = req.query)
    (hlist : Yacht.hasUri req.query = false)
    (hmiss : (cache.get st.cache w.now (Yacht.cacheKey req.query)).1 = none)
    (hbody : (Yacht.handler env net ops deps req st w).1.body = .json b)
    (hwithin : w2.now ≤ (Yacht.handler env net ops deps req st w).2.2.now + cache.ttl) :
    (Yacht.handler env net ops deps req st w).1.status = 200
    ∧ (Yacht.handler env2 net2 ops2 deps2 req2
        (Yacht.handler env net ops deps req st w).2.1 w2).1.status = 200
    ∧ (Yacht.handler env2 net2 ops2 deps2 req2
        (Yacht.handler env net ops deps req st w).2.1 w2).1.body = .json b
    ∧ (Yacht.handler env2 net2 ops2 deps2 req2
        (Yacht.handler env net ops deps req st w).2.1 w2).2.1
      = (Yacht.handler env net ops deps req st w).2.1
    ∧ (Yacht.handler env2 net2 ops2 deps2 req2
        (Yacht.handler env net ops deps req st w).2.1 w2).2.2 = w2 := by
  obtain ⟨data, tc, w1, h1⟩ :=
    yachtHandler_fresh_list env net ops deps req st w b hm hmiss hlist hbody
  rw [h1] at hwithin ⊢
  simp only at hwithin
  have hhit := cache_get_after_set data (Yacht.cacheKey req.query) b w1.now w2.now hwithin
  have h2 := yachtHandler_hit env2 net2 ops2 deps2 req2
    { cache := cache.set data w1.now (Yacht.cacheKey req.query) b, tokenCache := tc } w2 b hm2
    (by rw [hq]; exact hhit)
  simp only [h2, and_self]

/-- Witness of C8: in the example deployment a list request at time 0 is
answered after a token exchange and a search; the same request four minutes
later is answered from the cache, and the list of issued requests is the one
the first request left. -/
theorem yacht_list_repeat_from_cache_witness :
    (Example.yachtHandler Example.listRequest
        { cache := [], tokenCache := tokenCache.initial } Example.start).2.2.calls
      = [Yacht.oauthRequest "jwt",
         { method := "GET", url := "https://api.ankor.io/website/search", params := [],
           bearer := some "tok" }]
    ∧ (Yacht.handler Example.env Example.net Example.ops Example.deps Example.listRequest
        (Example.yachtHandler Example.listRequest
          { cache := [], tokenCache := tokenCache.initial } Example.start).2.1
        { (Example.yachtHandler Example.listRequest
            { cache := [], tokenCache := tokenCache.initial } Example.start).2.2 with
          now := 240000 }).1.body
      = .json "data of https://api.ankor.io/website/search"
    ∧ (Yacht.handler Example.env Example.net Example.ops Example.deps Example.listRequest
        (Example.yachtHandler Example.listRequest
          { cache := [], tokenCache := tokenCache.initial } Example.start).2.1
        { (Example.yachtHandler Example.listRequest
            { cache := [], tokenCache := tokenCache.initial } Example.start).2.2 with
          now := 240000 }).2.2.calls
      = (Example.yachtHandler Example.listRequest
          { cache := [], tokenCache := tokenCache.initial } Example.start).2.2.calls :=
  have h := yacht_list_repeat_from_cache Example.env Example.env Example.net Example.net
    Example.ops Example.ops Example.deps Example.deps Example.listRequest Example.listRequest
    { cache := [], tokenCache := tokenCache.initial } Example.start
    { (Example.yachtHandler Example.listRequest
        { cache := [], tokenCache := tokenCache.initial } Example.start).2.2 with
      now := 240000 }
    "data of https://api.ankor.io/website/search"
    (by decide) (by decide) rfl (by decide) (by decide) (by decide) (by decide)
  have hcalls := congrArg World.calls h.2.2.2.2
  ⟨by decide, h.2.2.1, hcalls⟩

/-! ## The search route: parameters and the `try` block -/

theorem allowedValues_key {k : String} {allowed : List String}
    (h : JsMap.get Search.allowedValues k = some allowed) :
    k = "charterType" ∨ k = "yachtType" ∨ k = "currency" ∨ k = "region" := by
  simp only [Search.allowedValues, JsMap.get] at h
  split_ifs at h with h1 h2 h3 h4
  · exact Or.inl h1.symm
  · exact Or.inr (Or.inl h2.symm)
  · exact Or.inr (Or.inr (Or.inl h3.symm))
  · exact Or.inr (Or.inr (Or.inr h4.symm))

theorem parameterMapping_enum {k : String} {allowed : List String}
    (h : JsMap.get Search.allowedValues k = some allowed) :
    Search.mappedKeyOf k = some k := by
  rcases allowedValues_key h with rfl | rfl | rfl | rfl <;> decide

theorem parameterMapping_value {k k' : String}
    (h : JsMap.get Search.parameterMapping k = some k') : k' = k := by
  simp only [Search.parameterMapping, JsMap.get] at h
  split_ifs at h with h1 h2 h3 h4 h5 h6 h7 h8 h9 h10 <;> simp_all

theorem enumValid_append {p1 p2 : List (String × String)} (h1 : Search.EnumValid p1)
    (h2 : Search.EnumValid p2) : Search.EnumValid (p1 ++ p2) := by
  intro k v allowed hmem hk
  rcases List.mem_append.1 hmem with h | h
  · exact h1 k v allowed h hk
  · exact h2 k v allowed h hk

theorem enumValid_single_of_none {k v : String}
    (h : JsMap.get Search.allowedValues k = none) : Search.EnumValid [(k, v)] := by
  intro k' v' allowed hmem hk
  simp only [List.mem_singleton, Prod.mk.injEq] at hmem
  rw [hmem.1, h] at hk
  cases hk

theorem numericKeys_not_enum {k : String} (h : k ∈ Search.numericKeys) :
    JsMap.get Search.allowedValues k = none := by
  simp only [Search.numericKeys, List.mem_cons, List.mem_singleton, List.not_mem_nil,
    or_false] at h
  rcases h with rfl | rfl | rfl | rfl | rfl <;> decide

theorem addQueryParam_enumValid (parseFloat : String → Option String)
    (acc : List (String × String) × List String) (entry : String × QueryValue)
    (h : Search.EnumValid acc.1) :
    Search.EnumValid (Search.addQueryParam parseFloat acc entry).1 := by
  obtain ⟨key, value⟩ := entry
  unfold Search.addQueryParam
  simp only
  split_ifs with ht
  · cases hm : Search.mappedKeyOf key with
    | none => simpa using h
    | some mappedKey =>
      simp only
      cases ha : JsMap.get Search.allowedValues mappedKey with
      | none =>
        simp only [Bool.false_eq_true, if_false]
        split_ifs with hn
        · cases hp : parseFloat value.toStr with
          | none => simpa using h
          | some numValue =>
            exact enumValid_append h (enumValid_single_of_none ha)
        · exact enumValid_append h (enumValid_single_of_none ha)
      | some allowed =>
        simp only
        by_cases hinc : Search.includesValue allowed value = true
        · simp only [hinc, Bool.not_true, Bool.false_eq_true, if_false]
          have hnum : ¬ mappedKey ∈ Search.numericKeys := by
            intro hn
            rw [numericKeys_not_enum hn] at ha
            cases ha
          simp only [hnum, if_false]
          apply enumValid_append h
          intro k v allowed' hmem hk
          simp only [List.mem_singleton, Prod.mk.injEq] at hmem
          obtain ⟨rfl, rfl⟩ := hmem
          rw [ha] at hk
          cases hk
          cases value with
          | str s => simpa [Search.includesValue, QueryValue.toStr] using hinc
          | arr xs => simp [Search.includesValue] at hinc
        · simp only [Bool.not_eq_true] at hinc
          simpa [hinc] using h
  · exact h

theorem foldl_addQueryParam_enumValid (parseFloat : String → Option String) :
    ∀ (query : Query) (acc : List (String × String) × List String),
      Search.EnumValid acc.1 →
      Search.EnumValid (query.foldl (Search.addQueryParam parseFloat) acc).1
  | [], _, h => h
  | e :: rest, acc, h =>
    foldl_addQueryParam_enumValid parseFloat rest _
      (addQueryParam_enumValid parseFloat acc e h)

theorem searchParams_enumValid (env : ProcessEnv) (parseFloat : String → Option String)
    (query : Query) : Search.EnumValid (Search.searchParams env parseFloat query).1 := by
  have h0 := foldl_addQueryParam_enumValid parseFloat query ([], [])
    (fun _ _ _ hmem _ => absurd hmem (List.not_mem_nil _))
  unfold Search.searchParams
  rcases hf : query.foldl (Search.addQueryParam parseFloat) ([], []) with ⟨params, warnings⟩
  rw [hf] at h0
  simp only at h0 ⊢
  have h1 : Search.EnumValid (params ++ [("company", env.NEXT_PUBLIC_COMPANY_URI)]) :=
    enumValid_append h0 (enumValid_single_of_none (by decide))
  have hUSD : Search.EnumValid [("currency", "USD")] := by
    intro k v allowed hmem hk
    simp only [List.mem_singleton, Prod.mk.injEq] at hmem
    obtain ⟨rfl, rfl⟩ := hmem
    have : allowed = ["USD", "EUR", "GBP", "AUD", "AED", "SGD", "HKD", "JPY", "CAD", "CHF",
        "BTC", "ETH"] := by
      have h' : JsMap.get Search.allowedValues "currency" = some ["USD", "EUR", "GBP", "AUD",
        "AED", "SGD", "HKD", "JPY", "CAD", "CHF", "BTC", "ETH"] := by decide
      rw [h'] at hk
      exact (Option.some.inj hk).symm
    rw [this]
    decide
  have hPrice : Search.EnumValid [("priceMin", "0"), ("priceMax", "1000000")] :=
    @enumValid_append [("priceMin", "0")] [("priceMax", "1000000")]
      (enumValid_single_of_none (by decide)) (enumValid_single_of_none (by decide))
  apply enumValid_append
  · apply enumValid_append
    · split_ifs
      · exact enumValid_append (enumValid_append h1 hUSD) hPrice
      · exact enumValid_append h1 hUSD
      · exact enumValid_append h1 hPrice
      · exact h1
    · exact enumValid_single_of_none (by decide)
  · exact enumValid_single_of_none (by decide)
/-- An entry whose value is outside the allowed list of its key leaves the
search parameters as they are. -/
theorem addQueryParam_invalid (parseFloat : String → Option String)
    (acc : List (String × String) × List String) (k : String) (v : QueryValue)
    (allowed : List String) (hk : JsMap.get Search.allowedValues k = some allowed)
    (hv : Search.includesValue allowed v = false) :
    (Search.addQueryParam parseFloat acc (k, v)).1 = acc.1 := by
  unfold Search.addQueryParam
  simp only [parameterMapping_enum hk, hk, hv, Bool.not_false, if_true]
  split_ifs <;> rfl

theorem addQueryParam_params_congr (parseFloat : String → Option String)
    (p : List (String × String)) (w1 w2 : List String) (e : String × QueryValue) :
    (Search.addQueryParam parseFloat (p, w1) e).1 = (Search.addQueryParam parseFloat (p, w2) e).1 := by
  obtain ⟨key, value⟩ := e
  unfold Search.addQueryParam
  simp only
  split_ifs
  · cases Search.mappedKeyOf key with
    | none => rfl
    | some mappedKey =>
      simp only
      split_ifs
      · rfl
      · cases parseFloat value.toStr <;> rfl
      · rfl
  · rfl

theorem foldl_addQueryParam_params_congr (parseFloat : String → Option String) :
    ∀ (query : Query) (p : List (String × String)) (w1 w2 : List String),
      (query.foldl (Search.addQueryParam parseFloat) (p, w1)).1
        = (query.foldl (Search.addQueryParam parseFloat) (p, w2)).1
  | [], _, _, _ => rfl
  | e :: rest, p, w1, w2 => by
    simp only [List.foldl_cons]
    have h := addQueryParam_params_congr parseFloat p w1 w2 e
    rcases h1 : Search.addQueryParam parseFloat (p, w1) e with ⟨p1, x1⟩
    rcases h2 : Search.addQueryParam parseFloat (p, w2) e with ⟨p2, x2⟩
    rw [h1, h2] at h
    simp only at h
    subst h
    exact foldl_addQueryParam_params_congr parseFloat rest p1 x1 x2

theorem foldl_addQueryParam_drop_invalid (parseFloat : String → Option String)
    (q1 q2 : Query) (k : String) (v : QueryValue) (allowed : List String)
    (hk : JsMap.get Search.allowedValues k = some allowed)
    (hv : Search.includesValue allowed v = false) :
    ((q1 ++ (k, v) :: q2).foldl (Search.addQueryParam parseFloat) ([], [])).1
      = ((q1 ++ q2).foldl (Search.addQueryParam parseFloat) ([], [])).1 := by
  simp only [List.foldl_append, List.foldl_cons]
  rcases h1 : q1.foldl (Search.addQueryParam parseFloat) ([], []) with ⟨p1, x1⟩
  have h := addQueryParam_invalid parseFloat (p1, x1) k v allowed hk hv
  rcases h2 : Search.addQueryParam parseFloat (p1, x1) (k, v) with ⟨p2, x2⟩
  rw [h2] at h
  simp only at h
  subst h
  exact foldl_addQueryParam_params_congr parseFloat q2 p2 x2 x1

theorem JsMap.get_append_cons_other {β : Type} (q1 q2 : List (String × β)) (k name : String)
    (v : β) (hne : k ≠ name) :
    JsMap.get (q1 ++ (k, v) :: q2) name = JsMap.get (q1 ++ q2) name := by
  induction q1 with
  | nil => simp [JsMap.get, hne]
  | cons p rest ih =>
    obtain ⟨k0, v0⟩ := p
    show (if k0 = name then some v0 else JsMap.get (rest ++ (k, v) :: q2) name)
      = (if k0 = name then some v0 else JsMap.get (rest ++ q2) name)
    rw [ih]

theorem searchParams_drop_invalid (env : ProcessEnv) (parseFloat : String → Option String)
    (q1 q2 : Query) (k : String) (v : QueryValue) (allowed : List String)
    (hk : JsMap.get Search.allowedValues k = some allowed)
    (hv : Search.includesValue allowed v = false) :
    (Search.searchParams env parseFloat (q1 ++ (k, v) :: q2)).1
      = (Search.searchParams env parseFloat (q1 ++ q2)).1 := by
  have hf := foldl_addQueryParam_drop_invalid parseFloat q1 q2 k v allowed hk hv
  have hl : k ≠ "limit" := by
    rcases allowedValues_key hk with rfl | rfl | rfl | rfl <;> decide
  have ho : k ≠ "offset" := by
    rcases allowedValues_key hk with rfl | rfl | rfl | rfl <;> decide
  unfold Search.searchParams
  rcases h1 : (q1 ++ (k, v) :: q2).foldl (Search.addQueryParam parseFloat) ([], []) with ⟨p1, x1⟩
  rcases h2 : (q1 ++ q2).foldl (Search.addQueryParam parseFloat) ([], []) with ⟨p2, x2⟩
  rw [h1, h2] at hf
  simp only at hf
  subst hf
  simp only [Search.queryOr, JsMap.get_append_cons_other q1 q2 k "limit" v hl,
    JsMap.get_append_cons_other q1 q2 k "offset" v ho]

/-- The `try` block of search.js once a token is there: registration, then the
search request with the parameters built from the query. -/
theorem searchTry_calls {J : Type} (env : ProcessEnv) (net : Network J) (ops : JsonOps J)
    (parseFloat : String → Option String) (parseJson : String → Option J)
    (headers : List (String × String)) (req : Request) (tc tc1 : TokenCache) (w w1 : World)
    (tok : String)
    (ht : Search.handler.getAccessToken env net ops tc w = (.ok tok, tc1, w1)) :
    (Search.handler.tryBlock env net ops parseFloat parseJson headers req tc w).2.2.calls
      = (Search.handler.register env net tok w1).calls
        ++ [Search.searchRequest env (Search.searchParams env parseFloat req.query).1 tok] := by
  unfold Search.handler.tryBlock
  rw [ht]
  rcases hsp : Search.searchParams env parseFloat req.query with ⟨params, warnings⟩
  simp only [fetchIn]
  cases (net.fetch (Search.handler.register env net tok w1).calls.length
      (Search.searchRequest env params tok)).value with
  | rejected e => rfl
  | resolved response =>
    simp only
    split_ifs <;> (try split) <;> rfl

/-- Two runs of the `try` block of search.js on queries that give the same
search parameters differ at most in the warnings and in the data body. -/
theorem searchTry_congr {J : Type} (env : ProcessEnv) (net : Network J) (ops : JsonOps J)
    (parseFloat : String → Option String) (parseJson : String → Option J)
    (headers : List (String × String)) (req req2 : Request) (tc : TokenCache) (w : World)
    (hp : (Search.searchParams env parseFloat req.query).1
      = (Search.searchParams env parseFloat req2.query).1) :
    (∀ e, (Search.handler.tryBlock env net ops parseFloat parseJson headers req tc w).1 = .error e
      ↔ (Search.handler.tryBlock env net ops parseFloat parseJson headers req2 tc w).1 = .error e)
    ∧ (Search.handler.tryBlock env net ops parseFloat parseJson headers req tc w).2.1
      = (Search.handler.tryBlock env net ops parseFloat parseJson headers req2 tc w).2.1
    ∧ (Search.handler.tryBlock env net ops parseFloat parseJson headers req tc w).2.2.calls
      = (Search.handler.tryBlock env net ops parseFloat parseJson headers req2 tc w).2.2.calls
    ∧ (Search.handler.tryBlock env net ops parseFloat parseJson headers req tc w).2.2.now
      = (Search.handler.tryBlock env net ops parseFloat parseJson headers req2 tc w).2.2.now
    ∧ (∀ r, (Search.handler.tryBlock env net ops parseFloat parseJson headers req tc w).1 = .ok r →
        ∃ r2, (Search.handler.tryBlock env net ops parseFloat parseJson headers req2 tc w).1
          = .ok r2 ∧ r2.status = r.status ∧ r2.headers = r.headers) := by
  unfold Search.handler.tryBlock
  rcases Search.handler.getAccessToken env net ops tc w with ⟨rt, tc1, w1⟩
  cases rt with
  | error e => simp
  | ok tok =>
    rcases hsp : Search.searchParams env parseFloat req.query with ⟨params, warnings⟩
    rcases hsp2 : Search.searchParams env parseFloat req2.query with ⟨params2, warnings2⟩
    rw [hsp, hsp2] at hp
    simp only at hp
    subst hp
    simp only [fetchIn]
    cases (net.fetch (Search.handler.register env net tok w1).calls.length
        (Search.searchRequest env params tok)).value with
    | rejected e => simp
    | resolved response =>
      simp only
      split_ifs <;> (try split) <;> simp [World.warn]

theorem addQueryParam_warnings_mono (parseFloat : String → Option String)
    (acc : List (String × String) × List String) (e : String × QueryValue) (m : String)
    (hm : m ∈ acc.2) : m ∈ (Search.addQueryParam parseFloat acc e).2 := by
  obtain ⟨key, value⟩ := e
  unfold Search.addQueryParam
  simp only
  split_ifs
  · cases Search.mappedKeyOf key with
    | none => exact hm
    | some mappedKey =>
      simp only
      split_ifs
      · exact List.mem_append_left _ hm
      · cases parseFloat value.toStr with
        | none => exact List.mem_append_left _ hm
        | some n => exact hm
      · exact hm
  · exact hm

theorem foldl_addQueryParam_warnings_mono (parseFloat : String → Option String) (m : String) :
    ∀ (query : Query) (acc : List (String × String) × List String), m ∈ acc.2 →
      m ∈ (query.foldl (Search.addQueryParam parseFloat) acc).2
  | [], _, h => h
  | e :: rest, acc, h =>
    foldl_addQueryParam_warnings_mono parseFloat m rest _
      (addQueryParam_warnings_mono parseFloat acc e m h)

theorem addQueryParam_spaceship (parseFloat : String → Option String)
    (acc : List (String × String) × List String) :
    "Invalid value for yachtType: Spaceship"
      ∈ (Search.addQueryParam parseFloat acc ("yachtType", .str "Spaceship")).2 := by
  have hk : Search.mappedKeyOf "yachtType" = some "yachtType" := by decide
  have ha : JsMap.get Search.allowedValues "yachtType" = some ["Gulet", "Sailing", "Catamaran",
      "Motor", "Power Catamaran", "Classic", "Expedition", "Sport fishing"] := by decide
  have ht : (QueryValue.str "Spaceship").truthy = true := by decide
  have hi : Search.includesValue ["Gulet", "Sailing", "Catamaran", "Motor", "Power Catamaran",
      "Classic", "Expedition", "Sport fishing"] (.str "Spaceship") = false := by decide
  unfold Search.addQueryParam
  simp only [ht, hk, ha, hi, Bool.not_false, if_true]
  apply List.mem_append_right
  decide

theorem searchParams_spaceship_warning (env : ProcessEnv) (parseFloat : String → Option String)
    (query : Query) (hq : ("yachtType", QueryValue.str "Spaceship") ∈ query) :
    "Invalid value for yachtType: Spaceship" ∈ (Search.searchParams env parseFloat query).2 := by
  obtain ⟨q1, q2, rfl⟩ := List.append_of_mem hq
  have h : "Invalid value for yachtType: Spaceship"
      ∈ ((q1 ++ ("yachtType", QueryValue.str "Spaceship") :: q2).foldl
          (Search.addQueryParam parseFloat) ([], [])).2 := by
    simp only [List.foldl_append, List.foldl_cons]
    exact foldl_addQueryParam_warnings_mono parseFloat _ q2 _
      (addQueryParam_spaceship parseFloat _)
  unfold Search.searchParams
  rcases hf : (q1 ++ ("yachtType", QueryValue.str "Spaceship") :: q2).foldl
    (Search.addQueryParam parseFloat) ([], []) with ⟨p, x⟩
  rw [hf] at h
  exact h

theorem searchTry_warnings {J : Type} (env : ProcessEnv) (net : Network J) (ops : JsonOps J)
    (parseFloat : String → Option String) (parseJson : String → Option J)
    (headers : List (String × String)) (req : Request) (tc tc1 : TokenCache) (w w1 : World)
    (tok : String) (m : String)
    (ht : Search.handler.getAccessToken env net ops tc w = (.ok tok, tc1, w1))
    (hm : m ∈ (Search.searchParams env parseFloat req.query).2) :
    m ∈ (Search.handler.tryBlock env net ops parseFloat parseJson headers req tc w).2.2.warnings := by
  unfold Search.handler.tryBlock
  rw [ht]
  rcases hsp : Search.searchParams env parseFloat req.query with ⟨params, warnings⟩
  rw [hsp] at hm
  simp only at hm
  simp only [fetchIn]
  cases (net.fetch (Search.handler.register env net tok w1).calls.length
      (Search.searchRequest env params tok)).value with
  | rejected e => simp [hm]
  | resolved response =>
    simp only
    split_ifs <;> (try split) <;> simp [World.warn, hm]

theorem searchTry_body {J : Type} (env : ProcessEnv) (net : Network J) (ops : JsonOps J)
    (parseFloat : String → Option String) (parseJson : String → Option J)
    (headers : List (String × String)) (req : Request) (tc : TokenCache) (w : World)
    (r : Response J (Search.Result J))
    (h : (Search.handler.tryBlock env net ops parseFloat parseJson headers req tc w).1 = .ok r) :
    r.status = 200 ∧ r.headers = headers
      ∧ ∃ data, r.body = .json (Search.handler.transform ops req.query data) := by
  unfold Search.handler.tryBlock at h
  obtain ⟨rt, tc1, w1, ht⟩ : ∃ rt tc1 w1,
      Search.handler.getAccessToken env net ops tc w = (rt, tc1, w1) := ⟨_, _, _, rfl⟩
  rw [ht] at h
  cases rt with
  | error e => simp at h
  | ok tok =>
    obtain ⟨params, warnings, hsp⟩ : ∃ params warnings,
        Search.searchParams env parseFloat req.query = (params, warnings) := ⟨_, _, rfl⟩
    rw [hsp] at h
    simp only [fetchIn] at h
    obtain ⟨v, hv⟩ : ∃ v, (net.fetch (Search.handler.register env net tok w1).calls.length
        (Search.searchRequest env params tok)).value = v := ⟨_, rfl⟩
    rw [hv] at h
    cases v with
    | rejected e => simp at h
    | resolved response =>
      simp only at h
      split_ifs at h
      · cases hj : response.json with
        | error e => simp [hj] at h
        | ok data =>
          simp only [hj, Except.ok.injEq] at h
          subst h
          exact ⟨rfl, rfl, data, rfl⟩

theorem searchHandler_headers {J : Type} (env : ProcessEnv) (net : Network J) (ops : JsonOps J)
    (parseFloat : String → Option String) (parseJson : String → Option J)
    (req : Request) (tc : TokenCache) (w : World) :
    (Search.handler env net ops parseFloat parseJson req tc w).1.headers
      = Search.corsHeaders req.origin := by
  unfold Search.handler
  simp only
  split_ifs
  · rfl
  · rfl
  · obtain ⟨rt, tc1, w1, ht⟩ : ∃ rt tc1 w1,
        Search.handler.tryBlock env net ops parseFloat parseJson
          (Search.corsHeaders req.origin) req tc w = (rt, tc1, w1) := ⟨_, _, _, rfl⟩
    rw [ht]
    cases rt with
    | error e => rfl
    | ok r =>
      have hb := searchTry_body env net ops parseFloat parseJson
        (Search.corsHeaders req.origin) req tc w r (by rw [ht])
      exact hb.2.1

/-- The handler of search.js on two requests that differ only in their
queries, when both queries give the same search parameters. -/
theorem searchHandler_congr {J : Type} (env : ProcessEnv) (net : Network J) (ops : JsonOps J)
    (parseFloat : String → Option String) (parseJson : String → Option J)
    (req : Request) (query2 : Query) (tc : TokenCache) (w : World)
    (hp : (Search.searchParams env parseFloat req.query).1
      = (Search.searchParams env parseFloat query2).1) :
    (Search.handler env net ops parseFloat parseJson req tc w).1.status
      = (Search.handler env net ops parseFloat parseJson
          { req with query := query2 } tc w).1.status
    ∧ (∀ e, (Search.handler env net ops parseFloat parseJson req tc w).1.body = .error e
        ↔ (Search.handler env net ops parseFloat parseJson
            { req with query := query2 } tc w).1.body = .error e)
    ∧ (Search.handler env net ops parseFloat parseJson req tc w).2.2.calls
      = (Search.handler env net ops parseFloat parseJson
          { req with query := query2 } tc w).2.2.calls := by
  have hc := searchTry_congr env net ops parseFloat parseJson (Search.corsHeaders req.origin)
    req { req with query := query2 } tc w hp
  unfold Search.handler
  simp only
  split_ifs
  · simp
  · simp
  · obtain ⟨rt, tc1, w1, ht⟩ : ∃ rt tc1 w1,
        Search.handler.tryBlock env net ops parseFloat parseJson
          (Search.corsHeaders req.origin) req tc w = (rt, tc1, w1) := ⟨_, _, _, rfl⟩
    obtain ⟨rt2, tc2, w2, ht2⟩ : ∃ rt tc1 w1,
        Search.handler.tryBlock env net ops parseFloat parseJson
          (Search.corsHeaders req.origin) { req with query := query2 } tc w = (rt, tc1, w1) :=
      ⟨_, _, _, rfl⟩
    rw [ht, ht2] at hc
    rw [ht, ht2]
    simp only at hc
    obtain ⟨herr, _, hcalls, _, hok⟩ := hc
    cases rt with
    | error e =>
      have h2 := (herr e).1 rfl
      subst h2
      exact ⟨rfl, fun _ => Iff.rfl, hcalls⟩
    | ok r =>
      obtain ⟨r2, hr2, hst, _⟩ := hok r rfl
      subst hr2
      have hb := searchTry_body env net ops parseFloat parseJson
        (Search.corsHeaders req.origin) req tc w r (by rw [ht])
      have hb2 := searchTry_body env net ops parseFloat parseJson
        (Search.corsHeaders req.origin) { req with query := query2 } tc w r2 (by rw [ht2])
      obtain ⟨_, _, d, hd⟩ := hb
      obtain ⟨_, _, d2, hd2⟩ := hb2
      refine ⟨hst.symm, fun e => ?_, hcalls⟩
      simp [hd, hd2]

theorem searchHandler_calls {J : Type} (env : ProcessEnv) (net : Network J) (ops : JsonOps J)
    (parseFloat : String → Option String) (parseJson : String → Option J)
    (req : Request) (tc tc1 : TokenCache) (w w1 : World) (tok : String)
    (hm : req.method = "GET")
    (ht : Search.handler.getAccessToken env net ops tc w = (.ok tok, tc1, w1)) :
    (Search.handler env net ops parseFloat parseJson req tc w).2.2.calls
      = (Search.handler.register env net tok w1).calls
        ++ [Search.searchRequest env (Search.searchParams env parseFloat req.query).1 tok] := by
  have h := searchTry_calls env net ops parseFloat parseJson (Search.corsHeaders req.origin)
    req tc tc1 w w1 tok ht
  unfold Search.handler
  simp only [hm]
  obtain ⟨rt, tc2, w2, hr⟩ : ∃ rt tc1 w1,
      Search.handler.tryBlock env net ops parseFloat parseJson
        (Search.corsHeaders req.origin) req tc w = (rt, tc1, w1) := ⟨_, _, _, rfl⟩
  rw [hr] at h
  rw [hr]
  cases rt <;> simpa using h

theorem searchHandler_warnings {J : Type} (env : ProcessEnv) (net : Network J)
    (ops : JsonOps J) (parseFloat : String → Option String) (parseJson : String → Option J)
    (req : Request) (tc tc1 : TokenCache) (w w1 : World) (tok : String) (m : String)
    (hm : req.method = "GET")
    (ht : Search.handler.getAccessToken env net ops tc w = (.ok tok, tc1, w1))
    (hw : m ∈ (Search.searchParams env parseFloat req.query).2) :
    m ∈ (Search.handler env net ops parseFloat parseJson req tc w).2.2.warnings := by
  have h := searchTry_warnings env net ops parseFloat parseJson (Search.corsHeaders req.origin)
    req tc tc1 w w1 tok m ht hw
  unfold Search.handler
  simp only [hm]
  obtain ⟨rt, tc2, w2, hr⟩ : ∃ rt tc1 w1,
      Search.handler.tryBlock env net ops parseFloat parseJson
        (Search.corsHeaders req.origin) req tc w = (rt, tc1, w1) := ⟨_, _, _, rfl⟩
  rw [hr] at h
  rw [hr]
  cases rt <;> simpa using h

theorem searchHandler_body {J : Type} (env : ProcessEnv) (net : Network J)
    (ops : JsonOps J) (parseFloat : String → Option String) (parseJson : String → Option J)
    (req : Request) (tc : TokenCache) (w : World) (d : Search.Result J)
    (h : (Search.handler env net ops parseFloat parseJson req tc w).1.body = .json d) :
    ∃ data, d = Search.handler.transform ops req.query data := by
  unfold Search.handler at h
  by_cases h1 : req.method = "OPTIONS"
  · simp [h1] at h
  · by_cases h2 : req.method = "GET"
    · simp only [h1, h2, if_false, ne_eq, not_true_eq_false] at h
      obtain ⟨rt, tc2, w2, hr⟩ : ∃ rt tc1 w1,
          Search.handler.tryBlock env net ops parseFloat parseJson
            (Search.corsHeaders req.origin) req tc w = (rt, tc1, w1) := ⟨_, _, _, rfl⟩
      rw [hr] at h
      cases rt with
      | error e => cases h
      | ok r =>
        obtain ⟨_, _, data, hd⟩ := searchTry_body env net ops parseFloat parseJson
          (Search.corsHeaders req.origin) req tc w r (by rw [hr])
        have hg : ¬ ("GET" = "OPTIONS") := by decide
        simp only [hg, if_false] at h
        rw [hd] at h
        exact ⟨data, (Body.json.inj h).symm⟩
    · simp [h1, h2] at h

theorem addQueryParam_params_mono (parseFloat : String → Option String)
    (acc : List (String × String) × List String) (e : String × QueryValue)
    (p : String × String) (hp : p ∈ acc.1) : p ∈ (Search.addQueryParam parseFloat acc e).1 := by
  obtain ⟨key, value⟩ := e
  unfold Search.addQueryParam
  simp only
  split_ifs
  · cases Search.mappedKeyOf key with
    | none => exact hp
    | some mappedKey =>
      simp only
      split_ifs
      · exact hp
      · cases parseFloat value.toStr with
        | none => exact hp
        | some n => exact List.mem_append_left _ hp
      · exact List.mem_append_left _ hp
  · exact hp

theorem foldl_addQueryParam_params_mono (parseFloat : String → Option String)
    (p : String × String) :
    ∀ (query : Query) (acc : List (String × String) × List String), p ∈ acc.1 →
      p ∈ (query.foldl (Search.addQueryParam parseFloat) acc).1
  | [], _, h => h
  | e :: rest, acc, h =>
    foldl_addQueryParam_params_mono parseFloat p rest _
      (addQueryParam_params_mono parseFloat acc e p h)

/-- A truthy entry whose key is mapped and whose value passes the checks of
its mapped key is appended to the search parameters. -/
theorem addQueryParam_forward (parseFloat : String → Option String)
    (acc : List (String × String) × List String) (k m : String) (v : QueryValue)
    (hv : v.truthy = true) (hk : Search.mappedKeyOf k = some m)
    (henum : ∀ allowed, JsMap.get Search.allowedValues m = some allowed →
      Search.includesValue allowed v = true) :
    (m ∉ Search.numericKeys → (m, v.toStr) ∈ (Search.addQueryParam parseFloat acc (k, v)).1) ∧
    (m ∈ Search.numericKeys → ∀ n, parseFloat v.toStr = some n →
      (m, n) ∈ (Search.addQueryParam parseFloat acc (k, v)).1) := by
  unfold Search.addQueryParam
  simp only [hv, if_true, hk]
  cases ha : JsMap.get Search.allowedValues m with
  | none =>
    constructor
    · intro hn
      simp [hn]
    · intro hn n hp
      simp [hn, hp]
  | some allowed =>
    have hi := henum allowed ha
    constructor
    · intro hn
      simp [hn, hi]
    · intro hn n hp
      simp [hn, hp, hi]

theorem searchParams_mem_of_foldl (env : ProcessEnv) (parseFloat : String → Option String)
    (query : Query) (p : String × String)
    (h : p ∈ (query.foldl (Search.addQueryParam parseFloat) ([], [])).1) :
    p ∈ (Search.searchParams env parseFloat query).1 := by
  unfold Search.searchParams
  rcases hf : query.foldl (Search.addQueryParam parseFloat) ([], []) with ⟨params, warnings⟩
  rw [hf] at h
  simp only at h ⊢
  apply List.mem_append_left
  apply List.mem_append_left
  split_ifs
  · exact List.mem_append_left _ (List.mem_append_left _ (List.mem_append_left _ h))
  · exact List.mem_append_left _ (List.mem_append_left _ h)
  · exact List.mem_append_left _ (List.mem_append_left _ h)
  · exact List.mem_append_left _ h

theorem searchParams_forward (env : ProcessEnv) (parseFloat : String → Option String)
    (query : Query) (k m : String) (v : QueryValue) (hq : (k, v) ∈ query)
    (hv : v.truthy = true) (hk : Search.mappedKeyOf k = some m)
    (henum : ∀ allowed, JsMap.get Search.allowedValues m = some allowed →
      Search.includesValue allowed v = true) :
    (m ∉ Search.numericKeys → (m, v.toStr) ∈ (Search.searchParams env parseFloat query).1) ∧
    (m ∈ Search.numericKeys → ∀ n, parseFloat v.toStr = some n →
      (m, n) ∈ (Search.searchParams env parseFloat query).1) := by
  obtain ⟨q1, q2, rfl⟩ := List.append_of_mem hq
  have hf := addQueryParam_forward parseFloat
    (q1.foldl (Search.addQueryParam parseFloat) ([], [])) k m v hv hk henum
  constructor
  · intro hn
    apply searchParams_mem_of_foldl
    simp only [List.foldl_append, List.foldl_cons]
    exact foldl_addQueryParam_params_mono parseFloat _ q2 _ (hf.1 hn)
  · intro hn n hp
    apply searchParams_mem_of_foldl
    simp only [List.foldl_append, List.foldl_cons]
    exact foldl_addQueryParam_params_mono parseFloat _ q2 _ (hf.2 hn n hp)

/-- The query key `constructor` names a member that `parameterMapping`
inherits: the entry is forwarded under the name that the function turns
into. -/
theorem searchParams_inherited_key :
    (Search.searchParams Example.env (fun s => some s) [("constructor", .str "x")]).1
      = [("function Object() \x7b [native code] \x7d", "x"), ("company", "c::8864389904"),
         ("currency", "USD"), ("priceMin", "0"), ("priceMax", "1000000"), ("limit", "50"),
         ("offset", "0")] := by
  decide

/-! ## The search route: claims -/

/-- C11: in search.js, for every query, every parameter of the downstream
search URL named `charterType`, `yachtType`, `currency` or `region` has a
value of its allowed list; an entry of the query whose value is outside the
list of its key is omitted: the URL parameters are those of the query without
that entry, and the handler answers with the same status, is an error response
in the same cases and issues the same requests as for the query without it;
whenever a token was obtained, the downstream search request is issued with
these parameters; and every other filter is forwarded: a truthy entry whose
key is mapped and whose value is in the allowed list of the mapped key, when
there is one, is a parameter of the URL, a numeric one with the number that
`parseFloat` reads. -/
theorem search_enum_values_validated {J : Type} (env : ProcessEnv) (net : Network J)
    (ops : JsonOps J) (parseFloat : String → Option String) (parseJson : String → Option J)
    (req : Request) (tc : TokenCache) (w : World) :
    (∀ k v allowed, (k, v) ∈ (Search.searchParams env parseFloat req.query).1 →
        JsMap.get Search.allowedValues k = some allowed → v ∈ allowed)
    ∧ (∀ q1 q2 k v allowed, req.query = q1 ++ (k, v) :: q2 →
        JsMap.get Search.allowedValues k = some allowed →
        Search.includesValue allowed v = false →
        (Search.searchParams env parseFloat req.query).1
          = (Search.searchParams env parseFloat (q1 ++ q2)).1
        ∧ (Search.handler env net ops parseFloat parseJson req tc w).1.status
          = (Search.handler env net ops parseFloat parseJson
              { req with query := q1 ++ q2 } tc w).1.status
        ∧ (∀ e, (Search.handler env net ops parseFloat parseJson req tc w).1.body = .error e
            ↔ (Search.handler env net ops parseFloat parseJson
                { req with query := q1 ++ q2 } tc w).1.body = .error e)
        ∧ (Search.handler env net ops parseFloat parseJson req tc w).2.2.calls
          = (Search.handler env net ops parseFloat parseJson
              { req with query := q1 ++ q2 } tc w).2.2.calls)
    ∧ (∀ tok tc1 w1, req.method = "GET" →
        Search.handler.getAccessToken env net ops tc w = (.ok tok, tc1, w1) →
        (Search.handler env net ops parseFloat parseJson req tc w).2.2.calls
          = (Search.handler.register env net tok w1).calls
            ++ [Search.searchRequest env (Search.searchParams env parseFloat req.query).1
                  tok])
    ∧ (∀ k v m, (k, v) ∈ req.query → v.truthy = true → Search.mappedKeyOf k = some m →
        (∀ allowed, JsMap.get Search.allowedValues m = some allowed →
          Search.includesValue allowed v = true) →
        (m ∉ Search.numericKeys →
          (m, v.toStr) ∈ (Search.searchParams env parseFloat req.query).1)
        ∧ (m ∈ Search.numericKeys → ∀ n, parseFloat v.toStr = some n →
          (m, n) ∈ (Search.searchParams env parseFloat req.query).1)) := by
  refine ⟨searchParams_enumValid env parseFloat req.query, ?_, ?_, ?_⟩
  · intro q1 q2 k v allowed hq hk hv
    have hp : (Search.searchParams env parseFloat req.query).1
        = (Search.searchParams env parseFloat (q1 ++ q2)).1 := by
      rw [hq]
      exact searchParams_drop_invalid env parseFloat q1 q2 k v allowed hk hv
    exact ⟨hp, searchHandler_congr env net ops parseFloat parseJson req (q1 ++ q2) tc w hp⟩
  · intro tok tc1 w1 hm ht
    exact searchHandler_calls env net ops parseFloat parseJson req tc tc1 w w1 tok hm ht
  · intro k v m hq hv hk henum
    exact searchParams_forward env parseFloat req.query k m v hq hv hk henum

/-- Witness of C11: in the example deployment the query
`yachtType=Spaceship&region=Caribbean` gives the URL parameters and the
status of the query `region=Caribbean`, and `region=Caribbean` is one of the
URL parameters. -/
theorem search_enum_values_validated_witness :
    (Search.searchParams Example.env (fun s => some s)
        [("yachtType", .str "Spaceship"), ("region", .str "Caribbean")]).1
      = (Search.searchParams Example.env (fun s => some s) [("region", .str "Caribbean")]).1
    ∧ (Search.handler Example.env Example.net Example.ops (fun s => some s) (fun _ => none)
        (Example.searchRequest none
          [("yachtType", .str "Spaceship"), ("region", .str "Caribbean")])
        tokenCache.initial Example.start).1.status
      = (Search.handler Example.env Example.net Example.ops (fun s => some s) (fun _ => none)
        { Example.searchRequest none
            [("yachtType", .str "Spaceship"), ("region", .str "Caribbean")] with
          query := [] ++ [("region", .str "Caribbean")] }
        tokenCache.initial Example.start).1.status
    ∧ ("region", "Caribbean")
      ∈ (Search.searchParams Example.env (fun s => some s)
          [("yachtType", .str "Spaceship"), ("region", .str "Caribbean")]).1 :=
  have h := search_enum_values_validated Example.env Example.net Example.ops
    (fun s => some s) (fun _ => none)
    (Example.searchRequest none [("yachtType", .str "Spaceship"), ("region", .str "Caribbean")])
    tokenCache.initial Example.start
  have h1 := h.2.1 [] [("region", .str "Caribbean")] "yachtType" (.str "Spaceship")
    ["Gulet", "Sailing", "Catamaran", "Motor", "Power Catamaran", "Classic", "Expedition",
      "Sport fishing"] rfl (by decide) (by decide)
  have h2 := (h.2.2.2 "region" (.str "Caribbean") "region" (by decide) (by decide) (by decide)
    (fun allowed ha => by
      have : allowed = ["Africa", "Antarctica", "Arabian Gulf", "Australasia & South Pacific",
          "Bahamas", "Caribbean", "Indian Ocean & South East Asia", "North America",
          "Northern Europe", "East Mediterranean", "West Mediterranean",
          "South & Central America"] := by
        have h' : JsMap.get Search.allowedValues "region" = some ["Africa", "Antarctica",
          "Arabian Gulf", "Australasia & South Pacific", "Bahamas", "Caribbean",
          "Indian Ocean & South East Asia", "North America", "Northern Europe",
          "East Mediterranean", "West Mediterranean", "South & Central America"] := by decide
        rw [h'] at ha
        exact (Option.some.inj ha).symm
      rw [this]
      decide)).1 (by decide)
  ⟨h1.1, h1.2.1, h2⟩

/-- C12, the code at the failing input: in the example deployment the query
`type=Spaceship` is answered with status 200 after a downstream search whose
URL has no parameter from it, and no warning at all is logged: `type` is not a
key of `parameterMapping`.  The query `type=Sailing`, a documented value, is
not forwarded either. -/
theorem search_type_filter_ignored :
    (Example.searchHandler (Example.searchRequest none [("type", .str "Spaceship")])
        tokenCache.initial Example.start).1.status = 200
    ∧ (Example.searchHandler (Example.searchRequest none [("type", .str "Spaceship")])
        tokenCache.initial Example.start).2.2.calls
      = [Search.tokenRequest Example.env, Search.registerRequest Example.env "tok",
         Search.searchRequest Example.env
           [("company", "c::8864389904"), ("currency", "USD"), ("priceMin", "0"),
            ("priceMax", "1000000"), ("limit", "50"), ("offset", "0")] "tok"]
    ∧ (Example.searchHandler (Example.searchRequest none [("type", .str "Spaceship")])
        tokenCache.initial Example.start).2.2.warnings = []
    ∧ (Example.searchHandler (Example.searchRequest none [("type", .str "Sailing")])
        tokenCache.initial Example.start).2.2.calls
      = [Search.tokenRequest Example.env, Search.registerRequest Example.env "tok",
         Search.searchRequest Example.env
           [("company", "c::8864389904"), ("currency", "USD"), ("priceMin", "0"),
            ("priceMax", "1000000"), ("limit", "50"), ("offset", "0")] "tok"] := by
  decide

/-- The yacht-type filter that search.js validates is the key `yachtType`:
for a GET request whose query contains `yachtType=Spaceship`, once a token is
there, the downstream URL has no parameter `yachtType=Spaceship`, the
downstream search request is issued, the warning
`Invalid value for yachtType: Spaceship` is logged, and a data body of the
response is built from the downstream payload and the query alone. -/
theorem search_yachtType_spaceship {J : Type} (env : ProcessEnv) (net : Network J)
    (ops : JsonOps J) (parseFloat : String → Option String) (parseJson : String → Option J)
    (req : Request) (tc tc1 : TokenCache) (w w1 : World) (tok : String)
    (hm : req.method = "GET")
    (hq : ("yachtType", QueryValue.str "Spaceship") ∈ req.query)
    (ht : Search.handler.getAccessToken env net ops tc w = (.ok tok, tc1, w1)) :
    ("yachtType", "Spaceship") ∉ (Search.searchParams env parseFloat req.query).1
    ∧ (Search.handler env net ops parseFloat parseJson req tc w).2.2.calls
      = (Search.handler.register env net tok w1).calls
        ++ [Search.searchRequest env (Search.searchParams env parseFloat req.query).1 tok]
    ∧ "Invalid value for yachtType: Spaceship"
      ∈ (Search.handler env net ops parseFloat parseJson req tc w).2.2.warnings
    ∧ (∀ d, (Search.handler env net ops parseFloat parseJson req tc w).1.body = .json d →
        ∃ data, d = Search.handler.transform ops req.query data) := by
  refine ⟨?_, searchHandler_calls env net ops parseFloat parseJson req tc tc1 w w1 tok hm ht,
    searchHandler_warnings env net ops parseFloat parseJson req tc tc1 w w1 tok _ hm ht
      (searchParams_spaceship_warning env parseFloat req.query hq),
    fun d hd => searchHandler_body env net ops parseFloat parseJson req tc w d hd⟩
  intro hmem
  have := searchParams_enumValid env parseFloat req.query "yachtType" "Spaceship"
    ["Gulet", "Sailing", "Catamaran", "Motor", "Power Catamaran", "Classic", "Expedition",
      "Sport fishing"] hmem (by decide)
  revert this
  decide

/-- The query `yachtType=Spaceship&region=Caribbean` in the example
deployment. -/
theorem search_yachtType_spaceship_witness :
    (Example.searchHandler
        (Example.searchRequest none
          [("yachtType", .str "Spaceship"), ("region", .str "Caribbean")])
        tokenCache.initial Example.start).2.2.calls
      = (Search.handler.register Example.env Example.net "tok"
          { now := 20, calls := [Search.tokenRequest Example.env], warnings := [] }).calls
        ++ [Search.searchRequest Example.env
              (Search.searchParams Example.env (fun s => some s)
                [("yachtType", .str "Spaceship"), ("region", .str "Caribbean")]).1 "tok"]
    ∧ "Invalid value for yachtType: Spaceship"
      ∈ (Example.searchHandler
        (Example.searchRequest none
          [("yachtType", .str "Spaceship"), ("region", .str "Caribbean")])
        tokenCache.initial Example.start).2.2.warnings :=
  have h := search_yachtType_spaceship Example.env Example.net Example.ops (fun s => some s)
    (fun _ => none)
    (Example.searchRequest none [("yachtType", .str "Spaceship"), ("region", .str "Caribbean")])
    tokenCache.initial (tokenCache.set tokenCache.initial 20 "tok") Example.start
    { now := 20, calls := [Search.tokenRequest Example.env], warnings := [] } "tok"
    rfl (by decide) rfl
  ⟨h.2.1, h.2.2.1⟩

/-- C16, the code at the failing input: in the example deployment with a
downstream search that answers 400, 401, 403 or any other error status, the
handler of search.js responds with status 500; the message alone depends on
the downstream status. -/
theorem search_downstream_status_lost :
    (∀ status, (Search.handler Example.env (Example.netSearchStatus status) Example.ops
        (fun s => some s) (fun _ => none) Example.listRequest tokenCache.initial
        Example.start).1.status = 500)
    ∧ (Search.handler Example.env (Example.netSearchStatus 400) Example.ops
        (fun s => some s) (fun _ => none) Example.listRequest tokenCache.initial
        Example.start).1.body = .error (.text "denied")
    ∧ (Search.handler Example.env (Example.netSearchStatus 401) Example.ops
        (fun s => some s) (fun _ => none) Example.listRequest tokenCache.initial
        Example.start).1.body = .error (.text "Authentication failed. Please try again.")
    ∧ (Search.handler Example.env (Example.netSearchStatus 403) Example.ops
        (fun s => some s) (fun _ => none) Example.listRequest tokenCache.initial
        Example.start).1.body
      = .error (.text "Company not authorized. Please check your company registration.") := by
  refine ⟨?_, by decide, by decide, by decide⟩
  intro status
  have hs : ∀ m : Option String,
      (Search.handler.statusError status m : JsError String).statusOr500 = 500 := by
    intro m
    unfold Search.handler.statusError
    split_ifs <;> rfl
  exact hs _

/-- C18, the code at the failing input: the origin
`https://localhost.evil.example` is not in the allow-list of search.js, and
the handler echoes it in `Access-Control-Allow-Origin`, beside
`Access-Control-Allow-Credentials: true`; the handlers of yacht.js,
ship-details.js and yacht-details.js answer the same origin with `*`. -/
theorem search_cors_substring_echo :
    "https://localhost.evil.example" ∉ Search.allowedOrigins
    ∧ JsMap.get (Example.searchHandler
        (Example.searchRequest (some "https://localhost.evil.example") [])
        tokenCache.initial Example.start).1.headers "Access-Control-Allow-Origin"
      = some "https://localhost.evil.example"
    ∧ JsMap.get (Example.searchHandler
        (Example.searchRequest (some "https://localhost.evil.example") [])
        tokenCache.initial Example.start).1.headers "Access-Control-Allow-Credentials"
      = some "true"
    ∧ JsMap.get (Yacht.corsHeaders (some "https://localhost.evil.example"))
        "Access-Control-Allow-Origin" = some "*"
    ∧ JsMap.get (ShipDetails.corsHeaders (some "https://localhost.evil.example"))
        "Access-Control-Allow-Origin" = some "*"
    ∧ JsMap.get (YachtDetails.corsHeaders (some "https://localhost.evil.example"))
        "Access-Control-Allow-Origin" = some "*" := by
  decide

/-- The test that search.js runs on the Origin: for every request, whatever
its method and outcome, the `Access-Control-Allow-Origin` header of the
response is the request's Origin when that Origin is not empty and is a member
of the allow-list or contains the text `localhost`, and `*` for every other
Origin and for none. -/
theorem search_cors_origin {J : Type} (env : ProcessEnv) (net : Network J)
    (ops : JsonOps J) (parseFloat : String → Option String) (parseJson : String → Option J)
    (req : Request) (tc : TokenCache) (w : World) :
    JsMap.get (Search.handler env net ops parseFloat parseJson req tc w).1.headers
        "Access-Control-Allow-Origin"
      = some (match req.origin with
          | some o =>
            if o ≠ "" ∧ (o ∈ Search.allowedOrigins ∨ strIncludes o "localhost") then o else "*"
          | none => "*") := by
  rw [searchHandler_headers]
  cases req.origin <;> simp [Search.corsHeaders, JsMap.set, JsMap.get]

/-! ## The method gate and the `uri` check: claims -/

/-- C19: in the handlers of yacht.js, search.js, ship-details.js,
yacht-details.js, filtered-ships.js and currency.js, for every request,
module state, network and called code: an OPTIONS request is answered with
status 200 and no body, and a request whose method is neither OPTIONS nor GET
with status 405 and an `error` body; in both cases the module state (caches)
and the world (issued requests, clock, log) are left as they were, so the code
behind the gate runs for GET only. -/
theorem method_gate {J D R : Type} (env : ProcessEnv) (net : Network J) (ops : JsonOps J)
    (deps : Yacht.Deps J D) (parseFloat : String → Option String)
    (parseJson : String → Option J) (processDetails : J → Except (JsError J) D)
    (filteredTry : List (String × String) → Request → FilteredShips.State D → World →
      Except (JsError J) (Response J D) × FilteredShips.State D × World)
    (currencyTry : List (String × String) → Request → Currency.Cache R → World →
      Except (JsError J) (Response J D) × Currency.Cache R × World)
    (req : Request) (yst : Yacht.State D) (tc : TokenCache) (data : CacheData D)
    (fst : FilteredShips.State D) (rates : Currency.Cache R) (w : World) :
    (req.method = "OPTIONS" →
      Yacht.handler env net ops deps req yst w
        = ({ headers := Yacht.corsHeaders req.origin, status := 200, body := .empty }, yst, w)
      ∧ Search.handler env net ops parseFloat parseJson req tc w
        = ({ headers := Search.corsHeaders req.origin, status := 200, body := .empty }, tc, w)
      ∧ ShipDetails.handler env net ops processDetails req data w
        = ({ headers := ShipDetails.corsHeaders req.origin, status := 200, body := .empty },
           data, w)
      ∧ YachtDetails.handler env net ops processDetails req data w
        = ({ headers := YachtDetails.corsHeaders req.origin, status := 200, body := .empty },
           data, w)
      ∧ FilteredShips.handler ops filteredTry req fst w
        = ({ headers := FilteredShips.corsHeaders, status := 200, body := .empty }, fst, w)
      ∧ Currency.handler currencyTry req rates w
        = ({ headers := Currency.corsHeaders, status := 200, body := .empty }, rates, w))
    ∧ (req.method ≠ "OPTIONS" → req.method ≠ "GET" →
      Yacht.handler env net ops deps req yst w
        = ({ headers := Yacht.corsHeaders req.origin, status := 405,
             body := .error (.text "Method Not Allowed") }, yst, w)
      ∧ Search.handler env net ops parseFloat parseJson req tc w
        = ({ headers := Search.corsHeaders req.origin, status := 405,
             body := .error (.text "Method not allowed") }, tc, w)
      ∧ ShipDetails.handler env net ops processDetails req data w
        = ({ headers := ShipDetails.corsHeaders req.origin, status := 405,
             body := .error (.text "Method Not Allowed") }, data, w)
      ∧ YachtDetails.handler env net ops processDetails req data w
        = ({ headers := YachtDetails.corsHeaders req.origin, status := 405,
             body := .error (.text "Method Not Allowed") }, data, w)
      ∧ FilteredShips.handler ops filteredTry req fst w
        = ({ headers := FilteredShips.corsHeaders, status := 405,
             body := .error (.text "Method not allowed") }, fst, w)
      ∧ Currency.handler currencyTry req rates w
        = ({ headers := Currency.corsHeaders, status := 405,
             body := .error (.text "Method Not Allowed") }, rates, w)) := by
  refine ⟨fun h => ?_, fun h1 h2 => ?_⟩
  · simp [Yacht.handler, Search.handler, ShipDetails.handler, YachtDetails.handler,
      FilteredShips.handler, Currency.handler, h]
  · simp [Yacht.handler, Search.handler, ShipDetails.handler, YachtDetails.handler,
      FilteredShips.handler, Currency.handler, h1, h2]

/-- Witness of C19: an OPTIONS request and a POST request to the handler of
yacht.js in the example deployment, on a state that holds a cached entry. -/
theorem method_gate_witness :
    Yacht.handler Example.env Example.net Example.ops Example.deps
        { method := "OPTIONS", origin := none, query := [] }
        { cache := [("k", { value := "v", expiry := 5 })], tokenCache := tokenCache.initial }
        Example.start
      = ({ headers := Yacht.corsHeaders none, status := 200, body := .empty },
         { cache := [("k", { value := "v", expiry := 5 })], tokenCache := tokenCache.initial },
         Example.start)
    ∧ Yacht.handler Example.env Example.net Example.ops Example.deps
        { method := "POST", origin := none, query := [] }
        { cache := [("k", { value := "v", expiry := 5 })], tokenCache := tokenCache.initial }
        Example.start
      = ({ headers := Yacht.corsHeaders none, status := 405,
           body := .error (.text "Method Not Allowed") },
         { cache := [("k", { value := "v", expiry := 5 })], tokenCache := tokenCache.initial },
         Example.start) :=
  ⟨((method_gate (R := Unit) Example.env Example.net Example.ops Example.deps (fun s => some s)
      (fun _ => none) (fun j => .ok j)
      (fun h _ st w => (.ok { headers := h, status := 200, body := .empty }, st, w))
      (fun h _ c w => (.ok { headers := h, status := 200, body := .empty }, c, w))
      { method := "OPTIONS", origin := none, query := [] }
      { cache := [("k", { value := "v", expiry := 5 })], tokenCache := tokenCache.initial }
      tokenCache.initial [] { cache := [], tokenCache := tokenCache.initial }
      { data := none, timestamp := 0 } Example.start).1 rfl).1,
   ((method_gate (R := Unit) Example.env Example.net Example.ops Example.deps (fun s => some s)
      (fun _ => none) (fun j => .ok j)
      (fun h _ st w => (.ok { headers := h, status := 200, body := .empty }, st, w))
      (fun h _ c w => (.ok { headers := h, status := 200, body := .empty }, c, w))
      { method := "POST", origin := none, query := [] }
      { cache := [("k", { value := "v", expiry := 5 })], tokenCache := tokenCache.initial }
      tokenCache.initial [] { cache := [], tokenCache := tokenCache.initial }
      { data := none, timestamp := 0 } Example.start).2 (by decide) (by decide)).1⟩

/-- C20: in the handlers of ship-details.js and yacht-details.js, a GET request
whose query has no `uri`, or has the empty string as `uri`, is answered with
status 400 and the error `URI parameter is required`; `cache.data` and the
world are left as they were: no token request, no downstream request. -/
theorem uri_required {J D : Type} (env : ProcessEnv) (net : Network J) (ops : JsonOps J)
    (processDetails : J → Except (JsError J) D) (req : Request) (data : CacheData D)
    (w : World) (hm : req.method = "GET")
    (huri : JsMap.get req.query "uri" = none ∨ JsMap.get req.query "uri" = some (.str "")) :
    ShipDetails.handler env net ops processDetails req data w
      = ({ headers := ShipDetails.corsHeaders req.origin, status := 400,
           body := .error (.text "URI parameter is required") }, data, w)
    ∧ YachtDetails.handler env net ops processDetails req data w
      = ({ headers := YachtDetails.corsHeaders req.origin, status := 400,
           body := .error (.text "URI parameter is required") }, data, w) := by
  rcases huri with h | h
  · simp [ShipDetails.handler, ShipDetails.handler.tryBlock, YachtDetails.handler,
      YachtDetails.handler.tryBlock, hm, h]
  · simp [ShipDetails.handler, ShipDetails.handler.tryBlock, YachtDetails.handler,
      YachtDetails.handler.tryBlock, hm, h, QueryValue.truthy]

/-- Witness of C20: the requests `GET /api/ship-details` and
`GET /api/yacht-details?uri=` in the example deployment. -/
theorem uri_required_witness :
    ShipDetails.handler Example.env Example.net Example.ops
        (fun j => (Except.ok j : Except (JsError String) String))
        { method := "GET", origin := none, query := [] } [] Example.start
      = ({ headers := ShipDetails.corsHeaders none, status := 400,
           body := .error (.text "URI parameter is required") }, [], Example.start)
    ∧ YachtDetails.handler Example.env Example.net Example.ops
        (fun j => (Except.ok j : Except (JsError String) String))
        { method := "GET", origin := none, query := [("uri", .str "")] } [] Example.start
      = ({ headers := YachtDetails.corsHeaders none, status := 400,
           body := .error (.text "URI parameter is required") }, [], Example.start) :=
  ⟨(uri_required Example.env Example.net Example.ops
      (fun j => (Except.ok j : Except (JsError String) String))
      { method := "GET", origin := none, query := [] } [] Example.start rfl (Or.inl rfl)).1,
   (uri_required Example.env Example.net Example.ops
      (fun j => (Except.ok j : Except (JsError String) String))
      { method := "GET", origin := none, query := [("uri", .str "")] } [] Example.start rfl
      (Or.inr rfl)).2⟩

/-! ## The token route: claims -/

/-- C17, counterexample: when the token endpoint refuses the grant with the
object `{ error: "invalid_grant" }`, the handler of token.js answers a POST
with status 500 and a body whose `error` field is that object, not a
string. -/
theorem token_error_counterexample :
    (Example.tokenHandler Example.netGrantRefused
        { method := "POST", origin := none, query := [] } Example.start).1.status = 500
    ∧ (Example.tokenHandler Example.netGrantRefused
        { method := "POST", origin := none, query := [] } Example.start).1.body
      = .error (.json (.object [("error", "invalid_grant")]))
    ∧ ErrorValue.isString Example.Json.isString
        (.json (.object [("error", "invalid_grant")])) = false := by
  decide

/-- The error that reaches the `catch` of token.js: a failure of the fetch of
`/api/auth` or of reading its body, an error made by the handler itself, or
the rejection of the token exchange. -/
theorem tokenTry_error {J : Type} (env : ProcessEnv) (net : Network J) (ops : JsonOps J)
    (statusText : FetchResponse J → String) (jwtAssertion : J → Option String) (w : World)
    (e : JsError J)
    (h : (Token.handler.tryBlock env net ops statusText jwtAssertion w).1 = .error e) :
    (∃ n r, (net.fetch n r).value = .rejected e)
    ∨ (∃ n r response, (net.fetch n r).value = .resolved response ∧ response.json = .error e)
    ∨ e.response = none
    ∨ (∃ n jwt, (net.axios n (Token.oauthRequest jwt)).value = .error e) := by
  unfold Token.handler.tryBlock at h
  simp only [fetchIn] at h
  obtain ⟨v, hv⟩ : ∃ v, (net.fetch w.calls.length (Token.authRequest env)).value = v := ⟨_, rfl⟩
  rw [hv] at h
  cases v with
  | rejected e' =>
    simp only [Except.error.injEq] at h
    subst h
    exact Or.inl ⟨_, _, hv⟩
  | resolved response =>
    simp only at h
    split_ifs at h with hok
    · simp only [Except.error.injEq] at h
      subst h
      exact Or.inr (Or.inr (Or.inl rfl))
    · cases hj : response.json with
      | error e' =>
        simp only [hj, Except.error.injEq] at h
        subst h
        exact Or.inr (Or.inl ⟨_, _, response, hv, hj⟩)
      | ok body =>
        simp only [hj] at h
        cases hjwt : jwtAssertion body with
        | none =>
          simp only [hjwt, Except.error.injEq] at h
          subst h
          exact Or.inr (Or.inr (Or.inl rfl))
        | some jwt =>
          simp only [hjwt] at h
          split_ifs at h with hempty
          · simp only [Except.error.injEq] at h
            subst h
            exact Or.inr (Or.inr (Or.inl rfl))
          · cases ha : (net.axios (w.calls.length + 1) (Token.oauthRequest jwt)).value with
            | ok t => simp [ha] at h
            | error e' =>
              simp only [List.length_append, List.length_singleton, ha,
                Except.error.injEq] at h
              subst h
              exact Or.inr (Or.inr (Or.inr ⟨_, _, ha⟩))

/-- C17, amended: every response of token.js other than the 200 one has a body
with an `error` field.  When the errors of `fetch` and of `response.json()`
carry no response, that field is a string (text) unless the token exchange
was rejected with an error that carries a truthy response payload; then the
field is that payload as it is. -/
theorem token_error_body {J : Type} (env : ProcessEnv) (net : Network J) (ops : JsonOps J)
    (statusText : FetchResponse J → String) (jwtAssertion : J → Option String)
    (truthy : J → Bool) (req : Request) (w : World)
    (hfetch : ∀ n r e, (net.fetch n r).value = .rejected e → e.response = none)
    (hjson : ∀ n r response e, (net.fetch n r).value = .resolved response →
      response.json = .error e → e.response = none) :
    ((Token.handler env net ops statusText jwtAssertion truthy req w).1.status = 200
      ∧ ∃ t, (Token.handler env net ops statusText jwtAssertion truthy req w).1.body = .json t)
    ∨ (∃ s, (Token.handler env net ops statusText jwtAssertion truthy req w).1.body
        = .error (.text s))
    ∨ (∃ n jwt e status j, (net.axios n (Token.oauthRequest jwt)).value = .error e
        ∧ e.response = some (status, j) ∧ truthy j = true
        ∧ (Token.handler env net ops statusText jwtAssertion truthy req w).1.body
          = .error (.json j)) := by
  unfold Token.handler
  split_ifs with hm
  · exact Or.inr (Or.inl ⟨_, rfl⟩)
  · obtain ⟨rt, w1, ht⟩ : ∃ rt w1,
        Token.handler.tryBlock env net ops statusText jwtAssertion w = (rt, w1) := ⟨_, _, rfl⟩
    rw [ht]
    cases rt with
    | ok t => exact Or.inl ⟨rfl, t, rfl⟩
    | error e =>
      have hsrc := tokenTry_error env net ops statusText jwtAssertion w e (by rw [ht])
      simp only [Token.handler.errorField]
      cases hr : e.response with
      | none => exact Or.inr (Or.inl ⟨_, rfl⟩)
      | some p =>
        obtain ⟨status, j⟩ := p
        simp only
        by_cases htr : truthy j = true
        · rcases hsrc with ⟨n, r, h1⟩ | ⟨n, r, response, h1, h2⟩ | h3 | ⟨n, jwt, h4⟩
          · rw [hfetch n r e h1] at hr
            cases hr
          · rw [hjson n r response e h1 h2] at hr
            cases hr
          · rw [h3] at hr
            cases hr
          · exact Or.inr (Or.inr ⟨n, jwt, e, status, j, h4, hr, htr, by simp [htr]⟩)
        · exact Or.inr (Or.inl ⟨e.message, by simp [htr]⟩)

/-- Witness of the amended C17: the deployment in which the token endpoint
refuses the grant; its `fetch` never fails. -/
theorem token_error_body_witness :
    ((Example.tokenHandler Example.netGrantRefused
        { method := "POST", origin := none, query := [] } Example.start).1.status = 200
      ∧ ∃ t, (Example.tokenHandler Example.netGrantRefused
        { method := "POST", origin := none, query := [] } Example.start).1.body = .json t)
    ∨ (∃ s, (Example.tokenHandler Example.netGrantRefused
        { method := "POST", origin := none, query := [] } Example.start).1.body
        = .error (.text s))
    ∨ (∃ n jwt e status j,
        (Example.netGrantRefused.axios n (Token.oauthRequest jwt)).value = .error e
        ∧ e.response = some (status, j) ∧ Example.Json.truthy j = true
        ∧ (Example.tokenHandler Example.netGrantRefused
          { method := "POST", origin := none, query := [] } Example.start).1.body
          = .error (.json j)) :=
  token_error_body Example.env Example.netGrantRefused Example.jsonOps
    (fun _ => "Internal Server Error") (Example.Json.prop "jwt_assertion") Example.Json.truthy
    { method := "POST", origin := none, query := [] } Example.start
    (fun n r e h => by simp [Example.netGrantRefused] at h)
    (fun n r response e h1 h2 => by
      simp only [Example.netGrantRefused, FetchResult.resolved.injEq] at h1
      subst h1
      simp at h2)

/-! ## Enrichment of the list view -/

namespace Yacht

theorem base_yacht {J D X : Type} (ops : EnrichOps J D) (yacht : ListedYacht X) :
    (enrichYachtWithDetails.base ops yacht).yacht = yacht := by
  unfold enrichYachtWithDetails.base
  cases yacht.description with
  | none => rfl
  | some description =>
    simp only []
    split_ifs
    · rfl
    · split <;> rfl

theorem base_pricing {J D X : Type} (ops : EnrichOps J D) (yacht : ListedYacht X) :
    (enrichYachtWithDetails.base ops yacht).pricing = defaultPricing := by
  unfold enrichYachtWithDetails.base
  cases yacht.description with
  | none => rfl
  | some description =>
    simp only []
    split_ifs
    · rfl
    · split <;> rfl

theorem enrichBatch_append {J D X : Type} (env : ProcessEnv) (net : Network J)
    (ops : EnrichOps J D) (tok : String) (a b : List (ListedYacht X)) (s : EnrichState D) :
    enrichBatch env net ops tok (a ++ b) s =
      ((enrichBatch env net ops tok a s).1 ++
          (enrichBatch env net ops tok b (enrichBatch env net ops tok a s).2).1,
       (enrichBatch env net ops tok b (enrichBatch env net ops tok a s).2).2) := by
  induction a generalizing s with
  | nil => simp [enrichBatch]
  | cons y ys ih => simp [enrichBatch, ih]

theorem enrichBatch_length {J D X : Type} (env : ProcessEnv) (net : Network J)
    (ops : EnrichOps J D) (tok : String) (l : List (ListedYacht X)) (s : EnrichState D) :
    (enrichBatch env net ops tok l s).1.length = l.length := by
  induction l generalizing s with
  | nil => simp [enrichBatch]
  | cons y ys ih => simp [enrichBatch, ih]

theorem enrichBatch_getElem? {J D X : Type} (env : ProcessEnv) (net : Network J)
    (ops : EnrichOps J D) (tok : String) (l : List (ListedYacht X)) (s : EnrichState D)
    (i : Nat) (y : ListedYacht X) (h : l[i]? = some y) :
    ∃ s', (enrichBatch env net ops tok l s).1[i]? =
      some (enrichYachtWithDetails env net ops y tok s').1 := by
  induction l generalizing s i with
  | nil => simp at h
  | cons z zs ih =>
    cases i with
    | zero =>
      simp at h
      subst h
      exact ⟨s, by simp [enrichBatch]⟩
    | succ i =>
      simp at h
      obtain ⟨s', hs'⟩ := ih (enrichYachtWithDetails env net ops z tok s).2 i h
      exact ⟨s', by simpa [enrichBatch] using hs'⟩

theorem loop_eq {J D X : Type} (env : ProcessEnv) (net : Network J)
    (ops : EnrichOps J D) (tok : String) (l : List (ListedYacht X)) (batchSize : Nat)
    (hb : 1 ≤ batchSize) (fuel i : Nat) (run : BatchRun D X) (h : l.length ≤ i + fuel) :
    ∃ bs, bs.flatten = run.batches.flatten ++ l.drop i ∧
      fetchYachtDetailsWithConcurrency.loop env net ops tok l batchSize fuel i run =
      some { results := run.results ++ (enrichBatch env net ops tok (l.drop i) run.state).1,
             batches := bs,
             state := (enrichBatch env net ops tok (l.drop i) run.state).2 } := by
  induction fuel generalizing i run with
  | zero =>
    have hi : ¬ i < l.length := by omega
    have hd : l.drop i = [] := List.drop_eq_nil_of_le (by omega)
    exact ⟨run.batches, by simp [hd],
      by simp [fetchYachtDetailsWithConcurrency.loop, hi, hd, enrichBatch]⟩
  | succ fuel ih =>
    by_cases hi : i < l.length
    · obtain ⟨bs, hjoin, hbs⟩ := ih (i + batchSize)
        { results := run.results ++
            (enrichBatch env net ops tok ((l.drop i).take batchSize) run.state).1,
          batches := run.batches ++ [(l.drop i).take batchSize],
          state := (enrichBatch env net ops tok ((l.drop i).take batchSize) run.state).2 }
        (by omega)
      have hsplit : l.drop i = (l.drop i).take batchSize ++ l.drop (i + batchSize) := by
        rw [← List.drop_drop, List.take_append_drop]
      refine ⟨bs, ?_, ?_⟩
      · rw [hjoin]
        conv_rhs => rw [hsplit]
        simp [List.append_assoc]
      rw [fetchYachtDetailsWithConcurrency.loop, if_pos hi]
      simp only [fetchYachtDetailsWithConcurrency.processBatch]
      rw [hbs]
      conv_rhs => rw [hsplit, enrichBatch_append]
      simp [List.append_assoc]
    · have hd : l.drop i = [] := List.drop_eq_nil_of_le (by omega)
      exact ⟨run.batches, by simp [hd],
        by simp [fetchYachtDetailsWithConcurrency.loop, hi, hd, enrichBatch]⟩

theorem fetchYachtDetailsWithConcurrency_eq {J D X : Type} (env : ProcessEnv)
    (net : Network J) (ops : EnrichOps J D) (yachts : List (ListedYacht X)) (tok : String)
    (batchSize : Nat) (data : CacheData D) (w : World) (hb : 1 ≤ batchSize) :
    ∃ bs, bs.flatten = yachts.take 20 ∧
      fetchYachtDetailsWithConcurrency env net ops yachts tok batchSize data w =
      some
        { results :=
            (enrichBatch env net ops tok (yachts.take 20)
                { cache := data, world := w, registrationAttempted := [] }).1 ++
              (yachts.drop 20).map passThrough,
          batches := bs,
          state :=
            (enrichBatch env net ops tok (yachts.take 20)
                { cache := data, world := w, registrationAttempted := [] }).2 } := by
  have htake : yachts.take (min yachts.length 20) = yachts.take 20 := by
    rcases Nat.le_total yachts.length 20 with h | h
    · rw [Nat.min_eq_left h, List.take_of_length_le (Nat.le_refl _), List.take_of_length_le h]
    · rw [Nat.min_eq_right h]
  have hdrop : yachts.drop (min yachts.length 20) = yachts.drop 20 := by
    rcases Nat.le_total yachts.length 20 with h | h
    · rw [Nat.min_eq_left h, List.drop_eq_nil_of_le (Nat.le_refl _), List.drop_eq_nil_of_le h]
    · rw [Nat.min_eq_right h]
  obtain ⟨bs, hjoin, hbs⟩ := loop_eq env net ops tok (yachts.take 20) batchSize hb
    (yachts.take 20).length 0
    { results := [], batches := [],
      state := { cache := data, world := w, registrationAttempted := [] } } (by omega)
  refine ⟨bs, by simpa using hjoin, ?_⟩
  unfold fetchYachtDetailsWithConcurrency
  simp only [htake, hdrop]
  rw [hbs]
  simp

end Yacht

/-- C13: for every list of yachts and every batch size of at least 1,
`fetchYachtDetailsWithConcurrency` returns a list as long as the input and in
its order: the enrichment results of the first 20 yachts (all of them when
there are fewer), followed by the remaining yachts passed through.  The
yachts handed to `enrichYachtWithDetails` are the first `min(n, 20)` ones,
each once; the element at an index below 20 is the enrichment of the input at
that index, and the element at an index from 20 on is the input yacht with the
pricing `{ day: { from: 2500 }, week: { from: 14500 }, currency: "USD" }`. -/
theorem enrich_first_twenty {J D X : Type} (env : ProcessEnv) (net : Network J)
    (ops : Yacht.EnrichOps J D) (yachts : List (Yacht.ListedYacht X)) (tok : String)
    (batchSize : Nat) (data : CacheData D) (w : World) (hb : 1 ≤ batchSize) :
    ∃ run, Yacht.fetchYachtDetailsWithConcurrency env net ops yachts tok batchSize data w
        = some run ∧
      run.results.length = yachts.length ∧
      run.results =
        (Yacht.enrichBatch env net ops tok (yachts.take 20)
            { cache := data, world := w, registrationAttempted := [] }).1 ++
          (yachts.drop 20).map Yacht.passThrough ∧
      run.batches.flatten = yachts.take 20 ∧
      run.batches.flatten.length = min yachts.length 20 ∧
      (∀ i y, i < 20 → yachts[i]? = some y →
        ∃ s, run.results[i]? = some (Yacht.enrichYachtWithDetails env net ops y tok s).1) ∧
      (∀ i y, 20 ≤ i → yachts[i]? = some y →
        run.results[i]? = some (Yacht.passThrough y) ∧
        (Yacht.passThrough y).yacht = y ∧
        (Yacht.passThrough y).pricing =
          { day := some 2500, week := 14500, currency := some "USD", estimated := none }) := by
  obtain ⟨bs, hjoin, hrun⟩ :=
    Yacht.fetchYachtDetailsWithConcurrency_eq env net ops yachts tok batchSize data w hb
  have hlen := Yacht.enrichBatch_length env net ops tok (yachts.take 20)
    { cache := data, world := w, registrationAttempted := [] }
  refine ⟨_, hrun, ?_, rfl, hjoin, ?_, ?_, ?_⟩
  · simp only [List.length_append, List.length_map, hlen, List.length_take, List.length_drop]
    omega
  · simp only [hjoin, List.length_take]
    omega
  · intro i y hi hy
    have hy' : (yachts.take 20)[i]? = some y := by
      rw [List.getElem?_take_of_lt hi]
      exact hy
    obtain ⟨s, hs⟩ := Yacht.enrichBatch_getElem? env net ops tok (yachts.take 20)
      { cache := data, world := w, registrationAttempted := [] } i y hy'
    refine ⟨s, ?_⟩
    have hlt : i < (Yacht.enrichBatch env net ops tok (yachts.take 20)
        { cache := data, world := w, registrationAttempted := [] }).1.length := by
      rw [hlen]
      have := (List.getElem?_eq_some_iff.mp hy').1
      exact this
    simp only []
    rw [List.getElem?_append_left hlt]
    exact hs
  · intro i y hi hy
    refine ⟨?_, rfl, rfl⟩
    have hn : yachts.length > i := (List.getElem?_eq_some_iff.mp hy).1
    have hl : (Yacht.enrichBatch env net ops tok (yachts.take 20)
        { cache := data, world := w, registrationAttempted := [] }).1.length = 20 := by
      rw [hlen, List.length_take]
      omega
    simp only []
    rw [List.getElem?_append_right (by omega), hl, List.getElem?_map, List.getElem?_drop]
    have : 20 + (i - 20) = i := by omega
    rw [this, hy]
    rfl

theorem enrich_first_twenty_witness :
    1 ≤ 20 ∧
    ∃ run, Yacht.fetchYachtDetailsWithConcurrency Example.env Example.net Example.enrichOps
        (List.replicate 25 (Example.listed "c::1::vessel::unpriced")) "tok" 20 []
        Example.start = some run ∧
      run.results.length = 25 ∧ run.batches.flatten.length = 20 :=
  ⟨by decide, by
    obtain ⟨run, h1, h2, _, _, h5, _⟩ :=
      enrich_first_twenty Example.env Example.net Example.enrichOps
        (List.replicate 25 (Example.listed "c::1::vessel::unpriced")) "tok" 20 []
        Example.start (by decide)
    exact ⟨run, h1, by simpa using h2, by simpa using h5⟩⟩

/-- C14: when a yacht has a uri, its details are not in the cache and the
lookup of the details fails (the retries are used up, or an attempt timed
out), `enrichYachtWithDetails` returns the yacht with the default prices
`day.from = 2500` and `week.from = 14500` and logs one warning; and for every
list of yachts, whatever the network answers, `fetchYachtDetailsWithConcurrency`
returns a list with one element for each yacht. -/
theorem enrich_lookup_failure {J D X : Type} (env : ProcessEnv) (net : Network J)
    (ops : Yacht.EnrichOps J D) (yacht : Yacht.ListedYacht X) (uri tok : String)
    (s : Yacht.EnrichState D) (e : JsError J)
    (huri : yacht.uri = some uri) (hne : uri ≠ "")
    (hmiss : (cache.get s.cache s.world.now ("yacht-details-" ++ uri)).1 = none)
    (hfail : (Yacht.fetchWithRetryIn net (Yacht.entityRequest env uri tok) s.world).1
      = .threw e) :
    ((Yacht.enrichYachtWithDetails env net ops yacht tok s).1.yacht = yacht ∧
     (Yacht.enrichYachtWithDetails env net ops yacht tok s).1.pricing.day = some 2500 ∧
     (Yacht.enrichYachtWithDetails env net ops yacht tok s).1.pricing.week = 14500 ∧
     (Yacht.enrichYachtWithDetails env net ops yacht tok s).2.world.warnings =
       (Yacht.fetchWithRetryIn net (Yacht.entityRequest env uri tok) s.world).2.warnings ++
         ["Could not fetch details for yacht " ++ uri ++ ":"]) ∧
    ∀ (yachts : List (Yacht.ListedYacht X)) (batchSize : Nat) (data : CacheData D)
      (w : World), 1 ≤ batchSize →
      ∃ run, Yacht.fetchYachtDetailsWithConcurrency env net ops yachts tok batchSize data w
          = some run ∧ run.results.length = yachts.length := by
  constructor
  · obtain ⟨c, w, hcw⟩ : ∃ c w,
        Yacht.fetchWithRetryIn net (Yacht.entityRequest env uri tok) s.world = (c, w) :=
      ⟨_, _, rfl⟩
    rw [hcw] at hfail ⊢
    simp only at hfail
    subst hfail
    obtain ⟨v, d, hvd⟩ : ∃ v d,
        cache.get s.cache s.world.now ("yacht-details-" ++ uri) = (v, d) := ⟨_, _, rfl⟩
    rw [hvd] at hmiss
    simp only at hmiss
    subst hmiss
    unfold Yacht.enrichYachtWithDetails
    simp only [huri, hne, if_false, hvd, hcw]
    refine ⟨?_, ?_, ?_, ?_⟩
    · exact Yacht.base_yacht ops yacht
    · rw [Yacht.base_pricing]
      rfl
    · rw [Yacht.base_pricing]
      rfl
    · simp [World.warn]
  · intro yachts batchSize data w hb
    obtain ⟨bs, _, hrun⟩ :=
      Yacht.fetchYachtDetailsWithConcurrency_eq env net ops yachts tok batchSize data w hb
    refine ⟨_, hrun, ?_⟩
    simp only [List.length_append, List.length_map, Yacht.enrichBatch_length,
      List.length_take, List.length_drop]
    omega

theorem enrich_lookup_failure_witness :
    (Example.listed "c::1::vessel::unpriced").uri = some "c::1::vessel::unpriced" ∧
    (Yacht.fetchWithRetryIn Example.netTimeout
        (Yacht.entityRequest Example.env "c::1::vessel::unpriced" "tok")
        Example.enrichStart.world).1
      = .threw (Yacht.timeoutError
          "https://api.ankor.io/website/entity/c::1::vessel::unpriced") ∧
    (Yacht.enrichYachtWithDetails Example.env Example.netTimeout Example.enrichOps
        (Example.listed "c::1::vessel::unpriced") "tok" Example.enrichStart).1.pricing.day
      = some 2500 ∧
    (Yacht.enrichYachtWithDetails Example.env Example.netTimeout Example.enrichOps
        (Example.listed "c::1::vessel::unpriced") "tok" Example.enrichStart).1.pricing.week
      = 14500 :=
  have h := enrich_lookup_failure Example.env Example.netTimeout Example.enrichOps
    (Example.listed "c::1::vessel::unpriced") "c::1::vessel::unpriced" "tok"
    Example.enrichStart
    (Yacht.timeoutError "https://api.ankor.io/website/entity/c::1::vessel::unpriced")
    rfl (by decide) rfl rfl
  ⟨rfl, rfl, h.1.2.1, h.1.2.2.1⟩

/-- C15, the code at the failing input: with a downstream list of two yachts,
the details of the first with a day price of 300000 in EUR and the details of
the second without pricing, `fetchYachtDetailsWithConcurrency` returns two
yachts, and the pricing of the second has the default prices 2500 and 14500
but no property `currency`. -/
theorem enrich_unpriced_no_currency :
    (Yacht.fetchYachtDetailsWithConcurrency Example.env Example.net Example.enrichOps
        [Example.listed "c::1::vessel::priced", Example.listed "c::1::vessel::unpriced"]
        "tok" 20 [] Example.start).map
      (fun run => run.results.map (fun y => (y.yacht.uri, y.pricing.currency)))
      = some [(some "c::1::vessel::priced", some "EUR"),
              (some "c::1::vessel::unpriced", none)] ∧
    ((Yacht.fetchYachtDetailsWithConcurrency Example.env Example.net Example.enrichOps
        [Example.listed "c::1::vessel::priced", Example.listed "c::1::vessel::unpriced"]
        "tok" 20 [] Example.start).bind (fun run => run.results[1]?)).map
      (fun y => y.pricing)
      = some { day := some 2500, week := 14500, currency := none, estimated := none } := by
  decide

/-! ## The token cache: claims -/

/-- C22: the token cache has one slot.  As the module creates it, `get()`
returns `null` at every time; after `set(t)` at time `s` with a non-empty
token `t`, `get()` at time `u` returns `t` when `u < s + 50 minutes` and
`null` when `u ≥ s + 50 minutes`; and a `set` overwrites whatever was stored:
after `set(t1)` and then `set(t)` the cache is the one that `set(t)` alone
leaves, so `get()` returns `t` or `null`, never `t1`. -/
theorem tokenCache_single_slot (tc : TokenCache) (s u : Nat) (t : String) (ht : t ≠ "") :
    (∀ v, tokenCache.get tokenCache.initial v = none) ∧
    (u < s + 50 * 60 * 1000 → tokenCache.get (tokenCache.set tc s t) u = some t) ∧
    (s + 50 * 60 * 1000 ≤ u → tokenCache.get (tokenCache.set tc s t) u = none) ∧
    (∀ (s1 : Nat) (t1 : String) (v : Nat),
      tokenCache.set (tokenCache.set tc s1 t1) s t = tokenCache.set tokenCache.initial s t ∧
      (tokenCache.get (tokenCache.set (tokenCache.set tc s1 t1) s t) v = some t ∨
       tokenCache.get (tokenCache.set (tokenCache.set tc s1 t1) s t) v = none)) := by
  refine ⟨?_, ?_, ?_, ?_⟩
  · intro v
    simp [tokenCache.get, tokenCache.isValid, tokenCache.initial]
  · intro hu
    have hu' : u < s + tokenCache.ttl := by simpa [tokenCache.ttl] using hu
    simp [tokenCache.get, tokenCache.isValid, tokenCache.set, ht, hu']
  · intro hu
    have hu' : ¬ u < s + tokenCache.ttl := by
      simp only [tokenCache.ttl]
      omega
    simp [tokenCache.get, tokenCache.isValid, tokenCache.set, hu']
  · intro s1 t1 v
    refine ⟨rfl, ?_⟩
    by_cases hv : tokenCache.isValid (tokenCache.set (tokenCache.set tc s1 t1) s t) v = true
    · left
      rw [tokenCache.get, if_pos hv]
      rfl
    · right
      simp [tokenCache.get, hv]

/-- Witness of C22: the token `tok` stored at time 1000 is returned one
millisecond before the 50 minutes are over. -/
theorem tokenCache_single_slot_witness :
    "tok" ≠ "" ∧
    tokenCache.get (tokenCache.set tokenCache.initial 1000 "tok") 3000999 = some "tok" ∧
    tokenCache.get (tokenCache.set tokenCache.initial 1000 "tok") 3001000 = none :=
  ⟨by decide,
   (tokenCache_single_slot tokenCache.initial 1000 3000999 "tok" (by decide)).2.1 (by decide),
   (tokenCache_single_slot tokenCache.initial 1000 3001000 "tok" (by decide)).2.2.1
     (by decide)⟩

/-! ## The waits of the retry loops -/

theorem shipLoop_attempts_ge {E P : Type} (target : Nat → Except E P)
    (maxRetries delay : Nat) :
    ∀ (n a : Nat) (ws : List Nat),
      a + 1 ≤ (ShipDetails.fetchWithRetry.loop target maxRetries delay (n + 1) a ws).attempts := by
  intro n
  induction n with
  | zero =>
    intro a ws
    rw [ShipDetails.fetchWithRetry.loop]
    split
    · exact Nat.le_refl _
    · split_ifs
      · exact Nat.le_refl _
      · simp [ShipDetails.fetchWithRetry.loop]
  | succ n ih =>
    intro a ws
    rw [ShipDetails.fetchWithRetry.loop]
    split
    · exact Nat.le_refl _
    · split_ifs
      · exact Nat.le_refl _
      · have := ih (a + 1) (ws ++ [delay * (a + 1)])
        omega

theorem shipLoop_waits {E P : Type} (target : Nat → Except E P)
    (maxRetries delay : Nat) :
    ∀ (n a : Nat) (ws : List Nat), a + n = maxRetries →
      (ShipDetails.fetchWithRetry.loop target maxRetries delay n a ws).waits =
        ws ++ (List.range'
          a ((ShipDetails.fetchWithRetry.loop target maxRetries delay n a ws).attempts - 1 - a)).map
          (fun i => delay * (i + 1)) := by
  intro n
  induction n with
  | zero =>
    intro a ws _
    have h : a - 1 - a = 0 := by omega
    simp [ShipDetails.fetchWithRetry.loop, h]
  | succ n ih =>
    intro a ws han
    rw [ShipDetails.fetchWithRetry.loop]
    split
    · simp
    · split_ifs with hlast
      · simp
      · obtain ⟨m, rfl⟩ : ∃ m, n = m + 1 := ⟨n - 1, by omega⟩
        have hge := shipLoop_attempts_ge target maxRetries delay m (a + 1)
          (ws ++ [delay * (a + 1)])
        rw [ih (a + 1) (ws ++ [delay * (a + 1)]) (by omega)]
        obtain ⟨k, hk⟩ := Nat.exists_eq_add_of_le hge
        rw [hk]
        have h1 : a + 1 + 1 + k - 1 - (a + 1) = k := by omega
        have h2 : a + 1 + 1 + k - 1 - a = k + 1 := by omega
        rw [h1, h2, List.range'_succ]
        simp

theorem filteredLoop_attempts_ge {E P : Type} (target : Nat → Except E P)
    (maxRetries delay : Nat) :
    ∀ (n a : Nat) (last : Option E) (ws : List Nat),
      a + 1 ≤ (FilteredShips.fetchWithRetry.loop target maxRetries delay (n + 1) a last
        ws).attempts := by
  intro n
  induction n with
  | zero =>
    intro a last ws
    rw [FilteredShips.fetchWithRetry.loop]
    split
    · exact Nat.le_refl _
    · split_ifs
      · exact Nat.le_refl _
      · simp [FilteredShips.fetchWithRetry.loop]
  | succ n ih =>
    intro a last ws
    rw [FilteredShips.fetchWithRetry.loop]
    split
    · exact Nat.le_refl _
    · split_ifs
      · exact Nat.le_refl _
      · rename_i error _ _
        have := ih (a + 1) (some error) (ws ++ [delay * (a + 1)])
        omega

theorem filteredLoop_waits {E P : Type} (target : Nat → Except E P)
    (maxRetries delay : Nat) :
    ∀ (n a : Nat) (last : Option E) (ws : List Nat), a + n = maxRetries →
      (FilteredShips.fetchWithRetry.loop target maxRetries delay n a last ws).waits =
        ws ++ (List.range' a
          ((FilteredShips.fetchWithRetry.loop target maxRetries delay n a last ws).attempts
            - 1 - a)).map
          (fun i => delay * (i + 1)) := by
  intro n
  induction n with
  | zero =>
    intro a last ws _
    have h : a - 1 - a = 0 := by omega
    cases last <;> simp [FilteredShips.fetchWithRetry.loop, h]
  | succ n ih =>
    intro a last ws han
    rw [FilteredShips.fetchWithRetry.loop]
    split
    · simp
    · split_ifs with hlast
      · simp
      · rename_i error _
        obtain ⟨m, rfl⟩ : ∃ m, n = m + 1 := ⟨n - 1, by omega⟩
        have hge := filteredLoop_attempts_ge target maxRetries delay m (a + 1) (some error)
          (ws ++ [delay * (a + 1)])
        rw [ih (a + 1) (some error) (ws ++ [delay * (a + 1)]) (by omega)]
        obtain ⟨k, hk⟩ := Nat.exists_eq_add_of_le hge
        rw [hk]
        have h1 : a + 1 + 1 + k - 1 - (a + 1) = k := by omega
        have h2 : a + 1 + 1 + k - 1 - a = k + 1 := by omega
        rw [h1, h2, List.range'_succ]
        simp

theorem yachtLoop_attempts_ge {J : Type} (url : String) (target : Nat → FetchResult J)
    (retries delay : Nat) :
    ∀ (n a : Nat) (ws : List Nat),
      a + 1 ≤ (Yacht.fetchWithRetry.loop url target retries delay (n + 1) a ws).attempts := by
  intro n
  induction n with
  | zero =>
    intro a ws
    rw [Yacht.fetchWithRetry.loop]
    split
    · exact Nat.le_refl _
    · split_ifs
      · exact Nat.le_refl _
      · exact Nat.le_refl _
      · simp [Yacht.fetchWithRetry.loop]
  | succ n ih =>
    intro a ws
    rw [Yacht.fetchWithRetry.loop]
    split
    · exact Nat.le_refl _
    · split_ifs
      · exact Nat.le_refl _
      · exact Nat.le_refl _
      · have := ih (a + 1) (ws ++ [delay * 2 ^ a])
        omega

theorem yachtLoop_waits {J : Type} (url : String) (target : Nat → FetchResult J)
    (retries delay : Nat) :
    ∀ (n a : Nat) (ws : List Nat), a + n = retries →
      (Yacht.fetchWithRetry.loop url target retries delay n a ws).waits =
        ws ++ (List.range' a
          ((Yacht.fetchWithRetry.loop url target retries delay n a ws).attempts - 1 - a)).map
          (fun i => delay * 2 ^ i) := by
  intro n
  induction n with
  | zero =>
    intro a ws _
    have h : a - 1 - a = 0 := by omega
    simp [Yacht.fetchWithRetry.loop, h]
  | succ n ih =>
    intro a ws han
    rw [Yacht.fetchWithRetry.loop]
    split
    · simp
    · split_ifs with habort hlast
      · simp
      · simp
      · obtain ⟨m, rfl⟩ : ∃ m, n = m + 1 := ⟨n - 1, by omega⟩
        have hge := yachtLoop_attempts_ge url target retries delay m (a + 1)
          (ws ++ [delay * 2 ^ a])
        rw [ih (a + 1) (ws ++ [delay * 2 ^ a]) (by omega)]
        obtain ⟨k, hk⟩ := Nat.exists_eq_add_of_le hge
        rw [hk]
        have h1 : a + 1 + 1 + k - 1 - (a + 1) = k := by omega
        have h2 : a + 1 + 1 + k - 1 - a = k + 1 := by omega
        rw [h1, h2, List.range'_succ]
        simp

/-- C23: in every `fetchWithRetry` variant and for every target, the waits of
a call are exactly those between its attempts: the call waits once after each
attempt but the final one, and the wait after attempt `i` (counted from 0) is
`delay * 2 ^ i` in yacht.js and `delay * (i + 1)` in ship-details.js,
yacht-details.js and filtered-ships.js.  A call whose `n ≥ 1` allowed attempts
all fail (in yacht.js: never with an abort) makes `n` attempts and waits
`n - 1` times. -/
theorem fetchWithRetry_waits {E J : Type} (maxRetries delay : Nat) :
    (∀ (target : Nat → Except E J),
        (ShipDetails.fetchWithRetry target maxRetries delay).waits =
          (List.range ((ShipDetails.fetchWithRetry target maxRetries delay).attempts - 1)).map
            (fun i => delay * (i + 1))
        ∧ (YachtDetails.fetchWithRetry target maxRetries delay).waits =
          (List.range ((YachtDetails.fetchWithRetry target maxRetries delay).attempts - 1)).map
            (fun i => delay * (i + 1))
        ∧ (FilteredShips.fetchWithRetry target maxRetries delay).waits =
          (List.range ((FilteredShips.fetchWithRetry target maxRetries delay).attempts - 1)).map
            (fun i => delay * (i + 1)))
    ∧ (∀ (url : String) (target : Nat → FetchResult J),
        (Yacht.fetchWithRetry url target maxRetries delay).waits =
          (List.range ((Yacht.fetchWithRetry url target maxRetries delay).attempts - 1)).map
            (fun i => delay * 2 ^ i))
    ∧ (1 ≤ maxRetries →
        (∀ (target : Nat → Except E J), (∀ j, j < maxRetries → ∃ e, target j = .error e) →
          ((ShipDetails.fetchWithRetry target maxRetries delay).attempts = maxRetries
            ∧ (ShipDetails.fetchWithRetry target maxRetries delay).waits.length
                = maxRetries - 1)
          ∧ ((YachtDetails.fetchWithRetry target maxRetries delay).attempts = maxRetries
            ∧ (YachtDetails.fetchWithRetry target maxRetries delay).waits.length
                = maxRetries - 1)
          ∧ ((FilteredShips.fetchWithRetry target maxRetries delay).attempts = maxRetries
            ∧ (FilteredShips.fetchWithRetry target maxRetries delay).waits.length
                = maxRetries - 1))
        ∧ (∀ (url : String) (target : Nat → FetchResult J),
          (∀ j, j < maxRetries → Yacht.FailsOrdinarily (target j)) →
          (Yacht.fetchWithRetry url target maxRetries delay).attempts = maxRetries
            ∧ (Yacht.fetchWithRetry url target maxRetries delay).waits.length
                = maxRetries - 1)) := by
  have hship : ∀ (target : Nat → Except E J),
      (ShipDetails.fetchWithRetry target maxRetries delay).waits =
        (List.range ((ShipDetails.fetchWithRetry target maxRetries delay).attempts - 1)).map
          (fun i => delay * (i + 1)) := by
    intro target
    have h := shipLoop_waits target maxRetries delay maxRetries 0 [] (by omega)
    simpa [ShipDetails.fetchWithRetry, List.range_eq_range'] using h
  have hfilt : ∀ (target : Nat → Except E J),
      (FilteredShips.fetchWithRetry target maxRetries delay).waits =
        (List.range ((FilteredShips.fetchWithRetry target maxRetries delay).attempts - 1)).map
          (fun i => delay * (i + 1)) := by
    intro target
    have h := filteredLoop_waits target maxRetries delay maxRetries 0 none [] (by omega)
    simpa [FilteredShips.fetchWithRetry, List.range_eq_range'] using h
  have hyacht : ∀ (url : String) (target : Nat → FetchResult J),
      (Yacht.fetchWithRetry url target maxRetries delay).waits =
        (List.range ((Yacht.fetchWithRetry url target maxRetries delay).attempts - 1)).map
          (fun i => delay * 2 ^ i) := by
    intro url target
    have h := yachtLoop_waits url target maxRetries delay maxRetries 0 [] (by omega)
    simpa [Yacht.fetchWithRetry, List.range_eq_range'] using h
  refine ⟨fun target => ⟨hship target, hship target, hfilt target⟩, hyacht, ?_⟩
  intro h1
  obtain ⟨n, rfl⟩ : ∃ n, maxRetries = n + 1 := ⟨maxRetries - 1, by omega⟩
  refine ⟨?_, ?_⟩
  · intro target hfail
    obtain ⟨eLast, hlast⟩ := hfail n (by omega)
    have hs := shipLoop_exhausted target (n + 1) delay eLast hlast n 0 []
      (by omega) (fun j _ hj => hfail j hj)
    have hf := filteredLoop_exhausted target (n + 1) delay eLast hlast n 0 none []
      (by omega) (fun j _ hj => hfail j hj)
    simp [YachtDetails.fetchWithRetry, ShipDetails.fetchWithRetry,
      FilteredShips.fetchWithRetry, hs, hf]
  · intro url target hfail
    obtain ⟨eLast, hlast, _⟩ := (Yacht.failsOrdinarily_iff _).1 (hfail n (by omega))
    have hy := yachtLoop_exhausted url target (n + 1) delay eLast hlast n 0 []
      (by omega) (fun j _ hj => hfail j hj)
    simp [Yacht.fetchWithRetry, hy]

/-- Witness of C23: a target that fails at every attempt, under the default
limit of 3 and the default delay of 1000: three attempts and two waits, of
1000 and 2000 milliseconds in both variants. -/
theorem fetchWithRetry_waits_witness :
    1 ≤ defaultRetries ∧
    (FilteredShips.fetchWithRetry (fun i => (Except.error i : Except Nat Nat))
        defaultRetries defaultDelay).waits = [1000, 2000] ∧
    (FilteredShips.fetchWithRetry (fun i => (Except.error i : Except Nat Nat))
        defaultRetries defaultDelay).waits.length = defaultRetries - 1 ∧
    (Yacht.fetchWithRetry "u"
        (fun i => (FetchResult.resolved
          { ok := false, status := 500 + i, json := .ok 0, text := .ok "" } : FetchResult Nat))
        defaultRetries defaultDelay).waits = [1000, 2000] :=
  ⟨by decide,
   (((fetchWithRetry_waits (E := Nat) (J := Nat) defaultRetries defaultDelay).1
      (fun i => Except.error i)).2.2).trans (by decide),
   ((((fetchWithRetry_waits (E := Nat) (J := Nat) defaultRetries defaultDelay).2.2
      (by decide)).1 (fun i => Except.error i) (fun j _ => ⟨j, rfl⟩)).2.2).2,
   (((fetchWithRetry_waits (E := Nat) (J := Nat) defaultRetries defaultDelay).2.1 "u"
      (fun i => FetchResult.resolved
        { ok := false, status := 500 + i, json := .ok 0, text := .ok "" }))).trans
      (by decide)⟩

theorem shipLoop_outcome {E P : Type} (target : Nat → Except E P) (maxRetries delay : Nat) :
    ∀ (n a : Nat) (ws : List Nat), a + (n + 1) = maxRetries →
      (∃ k p, a ≤ k ∧ k < maxRetries ∧ target k = .ok p ∧
        (∀ j, a ≤ j → j < k → ∃ e, target j = .error e) ∧
        (ShipDetails.fetchWithRetry.loop target maxRetries delay (n + 1) a ws).outcome
          = .returned p) ∨
      (∃ e, target (maxRetries - 1) = .error e ∧
        (∀ j, a ≤ j → j < maxRetries → ∃ e', target j = .error e') ∧
        (ShipDetails.fetchWithRetry.loop target maxRetries delay (n + 1) a ws).outcome
          = .threw e) := by
  intro n
  induction n with
  | zero =>
    intro a ws han
    have ha : a = maxRetries - 1 := by omega
    rw [ShipDetails.fetchWithRetry.loop]
    cases ht : target a with
    | ok p =>
      exact Or.inl ⟨a, p, Nat.le_refl _, by omega, ht, fun j h1 h2 => by omega, rfl⟩
    | error e =>
      refine Or.inr ⟨e, by rw [← ha]; exact ht, ?_, by simp [ha]⟩
      intro j h1 h2
      have : j = a := by omega
      subst this
      exact ⟨e, ht⟩
  | succ n ih =>
    intro a ws han
    rw [ShipDetails.fetchWithRetry.loop]
    cases ht : target a with
    | ok p =>
      exact Or.inl ⟨a, p, Nat.le_refl _, by omega, ht, fun j h1 h2 => by omega, rfl⟩
    | error e =>
      have hne : ¬ a = maxRetries - 1 := by omega
      simp only [hne, if_false]
      rcases ih (a + 1) (ws ++ [delay * (a + 1)]) (by omega) with
        ⟨k, p, hk1, hk2, hok, hfail, hout⟩ | ⟨e', hlast, hfail, hout⟩
      · refine Or.inl ⟨k, p, by omega, hk2, hok, ?_, hout⟩
        intro j h1 h2
        rcases Nat.eq_or_lt_of_le h1 with rfl | hlt
        · exact ⟨e, ht⟩
        · exact hfail j hlt h2
      · refine Or.inr ⟨e', hlast, ?_, hout⟩
        intro j h1 h2
        rcases Nat.eq_or_lt_of_le h1 with rfl | hlt
        · exact ⟨e, ht⟩
        · exact hfail j hlt h2

theorem filteredLoop_outcome {E P : Type} (target : Nat → Except E P)
    (maxRetries delay : Nat) :
    ∀ (n a : Nat) (last : Option E) (ws : List Nat), a + (n + 1) = maxRetries →
      (∃ k p, a ≤ k ∧ k < maxRetries ∧ target k = .ok p ∧
        (∀ j, a ≤ j → j < k → ∃ e, target j = .error e) ∧
        (FilteredShips.fetchWithRetry.loop target maxRetries delay (n + 1) a last ws).outcome
          = .returned p) ∨
      (∃ e, target (maxRetries - 1) = .error e ∧
        (∀ j, a ≤ j → j < maxRetries → ∃ e', target j = .error e') ∧
        (FilteredShips.fetchWithRetry.loop target maxRetries delay (n + 1) a last ws).outcome
          = .threw e) := by
  intro n
  induction n with
  | zero =>
    intro a last ws han
    have ha : a = maxRetries - 1 := by omega
    rw [FilteredShips.fetchWithRetry.loop]
    cases ht : target a with
    | ok p =>
      exact Or.inl ⟨a, p, Nat.le_refl _, by omega, ht, fun j h1 h2 => by omega, rfl⟩
    | error e =>
      refine Or.inr ⟨e, by rw [← ha]; exact ht, ?_, by simp [ha]⟩
      intro j h1 h2
      have : j = a := by omega
      subst this
      exact ⟨e, ht⟩
  | succ n ih =>
    intro a last ws han
    rw [FilteredShips.fetchWithRetry.loop]
    cases ht : target a with
    | ok p =>
      exact Or.inl ⟨a, p, Nat.le_refl _, by omega, ht, fun j h1 h2 => by omega, rfl⟩
    | error e =>
      have hne : ¬ a = maxRetries - 1 := by omega
      simp only [hne, if_false]
      rcases ih (a + 1) (some e) (ws ++ [delay * (a + 1)]) (by omega) with
        ⟨k, p, hk1, hk2, hok, hfail, hout⟩ | ⟨e', hlast, hfail, hout⟩
      · refine Or.inl ⟨k, p, by omega, hk2, hok, ?_, hout⟩
        intro j h1 h2
        rcases Nat.eq_or_lt_of_le h1 with rfl | hlt
        · exact ⟨e, ht⟩
        · exact hfail j hlt h2
      · refine Or.inr ⟨e', hlast, ?_, hout⟩
        intro j h1 h2
        rcases Nat.eq_or_lt_of_le h1 with rfl | hlt
        · exact ⟨e, ht⟩
        · exact hfail j hlt h2

/-- C24, counterexample: with `maxRetries = 0` and a target that fails at
every attempt, no attempt is made; the `fetchWithRetry` of ship-details.js and
of yacht-details.js returns normally, without a value, and the one of
filtered-ships.js throws `undefined`: no error that carries a failure is
raised. -/
theorem fetchWithRetry_zero_retries_counterexample :
    ShipDetails.fetchWithRetry (fun _ => (Except.error "down" : Except String Nat)) 0 1000
      = { outcome := .returnedUndefined, attempts := 0, waits := [] } ∧
    YachtDetails.fetchWithRetry (fun _ => (Except.error "down" : Except String Nat)) 0 1000
      = { outcome := .returnedUndefined, attempts := 0, waits := [] } ∧
    FilteredShips.fetchWithRetry (fun _ => (Except.error "down" : Except String Nat)) 0 1000
      = { outcome := .threwUndefined, attempts := 0, waits := [] } :=
  ⟨rfl, rfl, rfl⟩

/-- C24, amended: for every attempt limit `maxRetries ≥ 1` and every target,
in the `fetchWithRetry` of ship-details.js, yacht-details.js and
filtered-ships.js: the call returns a payload only when an attempt below the
limit succeeded with that payload after the attempts before it failed; it
never ends without a value and never throws `undefined`; and when every
attempt fails it throws the error of the last attempt. -/
theorem fetchWithRetry_returns_only_on_success {E P : Type} (target : Nat → Except E P)
    (maxRetries delay : Nat) (h1 : 1 ≤ maxRetries) :
    ((∀ p, (ShipDetails.fetchWithRetry target maxRetries delay).outcome = .returned p →
        ∃ k, k < maxRetries ∧ target k = .ok p ∧ ∀ j, j < k → ∃ e, target j = .error e)
      ∧ (ShipDetails.fetchWithRetry target maxRetries delay).outcome ≠ .returnedUndefined
      ∧ (ShipDetails.fetchWithRetry target maxRetries delay).outcome ≠ .threwUndefined
      ∧ ((∀ j, j < maxRetries → ∃ e, target j = .error e) →
        ∃ e, target (maxRetries - 1) = .error e ∧
          (ShipDetails.fetchWithRetry target maxRetries delay).outcome = .threw e))
    ∧ ((∀ p, (YachtDetails.fetchWithRetry target maxRetries delay).outcome = .returned p →
        ∃ k, k < maxRetries ∧ target k = .ok p ∧ ∀ j, j < k → ∃ e, target j = .error e)
      ∧ (YachtDetails.fetchWithRetry target maxRetries delay).outcome ≠ .returnedUndefined
      ∧ (YachtDetails.fetchWithRetry target maxRetries delay).outcome ≠ .threwUndefined
      ∧ ((∀ j, j < maxRetries → ∃ e, target j = .error e) →
        ∃ e, target (maxRetries - 1) = .error e ∧
          (YachtDetails.fetchWithRetry target maxRetries delay).outcome = .threw e))
    ∧ ((∀ p, (FilteredShips.fetchWithRetry target maxRetries delay).outcome = .returned p →
        ∃ k, k < maxRetries ∧ target k = .ok p ∧ ∀ j, j < k → ∃ e, target j = .error e)
      ∧ (FilteredShips.fetchWithRetry target maxRetries delay).outcome ≠ .returnedUndefined
      ∧ (FilteredShips.fetchWithRetry target maxRetries delay).outcome ≠ .threwUndefined
      ∧ ((∀ j, j < maxRetries → ∃ e, target j = .error e) →
        ∃ e, target (maxRetries - 1) = .error e ∧
          (FilteredShips.fetchWithRetry target maxRetries delay).outcome = .threw e)) := by
  obtain ⟨n, rfl⟩ : ∃ n, maxRetries = n + 1 := ⟨maxRetries - 1, by omega⟩
  have key : ∀ (o : Completion E P),
      ((∃ k p, 0 ≤ k ∧ k < n + 1 ∧ target k = .ok p ∧
          (∀ j, 0 ≤ j → j < k → ∃ e, target j = .error e) ∧ o = .returned p) ∨
        (∃ e, target (n + 1 - 1) = .error e ∧
          (∀ j, 0 ≤ j → j < n + 1 → ∃ e', target j = .error e') ∧ o = .threw e)) →
      (∀ p, o = .returned p →
        ∃ k, k < n + 1 ∧ target k = .ok p ∧ ∀ j, j < k → ∃ e, target j = .error e)
      ∧ o ≠ .returnedUndefined ∧ o ≠ .threwUndefined
      ∧ ((∀ j, j < n + 1 → ∃ e, target j = .error e) →
        ∃ e, target (n + 1 - 1) = .error e ∧ o = .threw e) := by
    intro o h
    rcases h with ⟨k, p, _, hk, hok, hfail, rfl⟩ | ⟨e, hlast, hfail, rfl⟩
    · refine ⟨?_, by simp, by simp, ?_⟩
      · intro p' hp'
        cases hp'
        exact ⟨k, hk, hok, fun j hj => hfail j (Nat.zero_le _) hj⟩
      · intro hall
        obtain ⟨e, he⟩ := hall k hk
        rw [hok] at he
        cases he
    · refine ⟨?_, by simp, by simp, ?_⟩
      · intro p hp
        cases hp
      · intro _
        exact ⟨e, hlast, rfl⟩
  have hs := shipLoop_outcome target (n + 1) delay n 0 [] (by omega)
  have hf := filteredLoop_outcome target (n + 1) delay n 0 none [] (by omega)
  exact ⟨key _ hs, key _ hs, key _ hf⟩

/-- Witness of the amended C24: under the default limit of 3, a target that
fails at every attempt makes the call throw the error of the third attempt,
and a target that succeeds at the third attempt makes it return. -/
theorem fetchWithRetry_returns_only_on_success_witness :
    1 ≤ defaultRetries ∧
    (∃ e, (fun i => (Except.error i : Except Nat Nat)) (defaultRetries - 1) = .error e ∧
      (ShipDetails.fetchWithRetry (fun i => (Except.error i : Except Nat Nat))
        defaultRetries defaultDelay).outcome = .threw e) ∧
    (ShipDetails.fetchWithRetry (fun i => (Except.error i : Except Nat Nat))
        defaultRetries defaultDelay).outcome ≠ .returnedUndefined :=
  ⟨by decide,
   (fetchWithRetry_returns_only_on_success (fun i => (Except.error i : Except Nat Nat))
      defaultRetries defaultDelay (by decide)).1.2.2.2 (fun j _ => ⟨j, rfl⟩),
   (fetchWithRetry_returns_only_on_success (fun i => (Except.error i : Except Nat Nat))
      defaultRetries defaultDelay (by decide)).1.2.1⟩

/-! ## The expiry of cached lists and cached details -/

/-- C28, the code at the failing input: in yacht.js a list response stored
under its cache key and the details of a yacht stored under
`yacht-details-<uri>` at the same instant `now` get the same expiry,
`now + 300000`: `cache.set` has one `ttl` for every key. -/
theorem cache_list_and_details_same_expiry {D : Type} (data1 data2 : CacheData D) (now : Nat)
    (query : Query) (uri : String) (responseData details : D) :
    (JsMap.get (cache.set data1 now (Yacht.cacheKey query) responseData)
        (Yacht.cacheKey query)).map (fun item => item.expiry) = some (now + 300000) ∧
    (JsMap.get (cache.set data2 now ("yacht-details-" ++ uri) details)
        ("yacht-details-" ++ uri)).map (fun item => item.expiry) = some (now + 300000) := by
  simp [cache.set, cache.ttl, JsMap.get_set_same]

/-! ## The currency of the default pricing in search.js -/

/-- C30, the code at the failing input: in the example deployment the query
`currency=XYZ` is answered with status 200; the downstream search request was
sent with `currency=USD`, the value `XYZ` having been dropped as invalid, and
the hit without downstream pricing gets a default pricing block whose currency
is `XYZ`. -/
theorem search_default_currency_unvalidated :
    (Example.searchHandler (Example.searchRequest none [("currency", .str "XYZ")])
        tokenCache.initial Example.start).1.status = 200 ∧
    (Example.searchHandler (Example.searchRequest none [("currency", .str "XYZ")])
        tokenCache.initial Example.start).1.body
      = .json { total := none,
                hits := [{ yacht := "yacht-1", name := none,
                           pricing := .default (.str "XYZ") }] } ∧
    (Example.searchHandler (Example.searchRequest none [("currency", .str "XYZ")])
        tokenCache.initial Example.start).2.2.calls.getLast?.map
        (fun r => (r.url, r.params))
      = some ("https://api.ankor.io/website/search",
          [("company", "c::8864389904"), ("currency", "USD"), ("priceMin", "0"),
           ("priceMax", "1000000"), ("limit", "50"), ("offset", "0")]) ∧
    "XYZ" ∉ ["USD", "EUR", "GBP", "AUD", "AED", "SGD", "HKD", "JPY", "CAD", "CHF", "BTC",
      "ETH"] := by
  decide

/-! ## Estimated day prices -/

theorem mathRound_eq (x : ℚ) (n : ℤ) (h1 : (n : ℚ) ≤ x + 1 / 2) (h2 : x + 1 / 2 < n + 1) :
    Yacht.mathRound x = n := by
  rw [Yacht.mathRound]
  have : ⌊x + 1 / 2⌋ = n := Int.floor_eq_iff.2 ⟨h1, h2⟩
  rw [this]

/-- C29, counterexample: for the yacht with the uri
`c::8864389904::vessel::d5cabfd2-fe8c-11ed-889f-43d4bb723744` and a downstream
pricing with a week price of 700000 and no day price, the computed pricing is
flagged as estimated and its `day.from` is 5500, not 700000 / 700 = 1000.  And
for another yacht with a week price of 24629060462182748 and no day price,
with the quotients as the division of doubles rounds them, `day.from` is
35184372088833 while one seventh of `week.from` rounds to 35184372088832. -/
theorem estimated_day_price_counterexample :
    (Yacht.computePricing Example.enrichOps.divide
        "c::8864389904::vessel::d5cabfd2-fe8c-11ed-889f-43d4bb723744"
        { dayPricingFrom := none,
          weekPricingFrom := some { displayPrice := some 700000,
                                    displayCurrency := some "USD" } }).estimated = some true ∧
    (Yacht.computePricing Example.enrichOps.divide
        "c::8864389904::vessel::d5cabfd2-fe8c-11ed-889f-43d4bb723744"
        { dayPricingFrom := none,
          weekPricingFrom := some { displayPrice := some 700000,
                                    displayCurrency := some "USD" } }).day = some 5500 ∧
    Yacht.mathRound (Example.enrichOps.divide 700000 700) = 1000 ∧
    (Yacht.computePricing Example.doubleDivide "c::1::vessel::a"
        { dayPricingFrom := none,
          weekPricingFrom := some { displayPrice := some 24629060462182748,
                                    displayCurrency := some "USD" } }).estimated = some true ∧
    (Yacht.computePricing Example.doubleDivide "c::1::vessel::a"
        { dayPricingFrom := none,
          weekPricingFrom := some { displayPrice := some 24629060462182748,
                                    displayCurrency := some "USD" } }).day
      = some 35184372088833 ∧
    (Yacht.computePricing Example.doubleDivide "c::1::vessel::a"
        { dayPricingFrom := none,
          weekPricingFrom := some { displayPrice := some 24629060462182748,
                                    displayCurrency := some "USD" } }).week
      = 7881299347898479 / 32 ∧
    Yacht.mathRound ((7881299347898479 / 32 : ℚ) / 7) = 35184372088832 := by
  have hd700 : Example.doubleDivide 24629060462182748 700 = 70368744177665 / 2 := by
    simp [Example.doubleDivide]
  have hd100 : Example.doubleDivide 24629060462182748 100 = 7881299347898479 / 32 := by
    simp [Example.doubleDivide]
  have hne : (24629060462182748 : ℚ) ≠ 0 := by norm_num
  refine ⟨by decide, by decide, ?_, by decide, ?_, ?_, ?_⟩
  · have : Example.enrichOps.divide 700000 700 = (1000 : ℚ) := by
      show (700000 / 700 : ℚ) = 1000
      norm_num
    rw [this]
    exact_mod_cast mathRound_eq 1000 1000 (by norm_num) (by norm_num)
  · have hr : Yacht.mathRound (70368744177665 / 2) = 35184372088833 := by
      exact_mod_cast mathRound_eq (70368744177665 / 2) 35184372088833 (by norm_num)
        (by norm_num)
    simp [Yacht.computePricing, Yacht.truthyPrice, hd700, hr]
  · simp [Yacht.computePricing, Yacht.truthyPrice, hd100]
  · exact_mod_cast mathRound_eq ((7881299347898479 / 32 : ℚ) / 7) 35184372088832
      (by norm_num) (by norm_num)

/-- C29, amended: for every yacht other than the two whose day price is fixed
in the code, every downstream pricing object and every division operator:
when the computed pricing is flagged `estimated = true`, the downstream
pricing has a week price and no day price, and `day.from` is the
`displayPrice` of the week price divided by 700 and rounded to the nearest
integer; when that `displayPrice` is not 0, `week.from` is the `displayPrice`
divided by 100, and when moreover both quotients are exact, `day.from` is one
seventh of `week.from`, rounded. -/
theorem estimated_day_price (divide : ℚ → ℚ → ℚ) (uri : String)
    (pricing : Yacht.DetailPricing)
    (hm : uri ≠ "c::8864389904::vessel::d5cabfd2-fe8c-11ed-889f-43d4bb723744")
    (hp : uri ≠ "c::22993047362::vessel::c6aef7c0-8a10-11ef-8759-d5c1b3b7b690")
    (hest : (Yacht.computePricing divide uri pricing).estimated = some true) :
    ∃ week, pricing.weekPricingFrom = some week ∧ pricing.dayPricingFrom = none ∧
      ∀ displayPrice, week.displayPrice = some displayPrice →
        (Yacht.computePricing divide uri pricing).day
          = some (Yacht.mathRound (divide displayPrice 700)) ∧
        (displayPrice ≠ 0 →
          (Yacht.computePricing divide uri pricing).week = divide displayPrice 100) ∧
        (displayPrice ≠ 0 → divide displayPrice 100 = displayPrice / 100 →
          divide displayPrice 700 = displayPrice / 700 →
          (Yacht.computePricing divide uri pricing).day
            = some (Yacht.mathRound ((Yacht.computePricing divide uri pricing).week / 7))) := by
  obtain ⟨day, week⟩ := pricing
  cases day with
  | some d => simp [Yacht.computePricing] at hest
  | none =>
    cases week with
    | none => simp [Yacht.computePricing] at hest
    | some week =>
      refine ⟨week, rfl, rfl, ?_⟩
      intro displayPrice hd
      have hday : (Yacht.computePricing divide uri
          { dayPricingFrom := none, weekPricingFrom := some week }).day
          = some (Yacht.mathRound (divide displayPrice 700)) := by
        simp [Yacht.computePricing, Yacht.truthyPrice, hm, hp, hd]
      have hweek : displayPrice ≠ 0 → (Yacht.computePricing divide uri
          { dayPricingFrom := none, weekPricingFrom := some week }).week
          = divide displayPrice 100 := by
        intro hne
        simp [Yacht.computePricing, Yacht.truthyPrice, hd, hne]
      refine ⟨hday, hweek, ?_⟩
      intro hne h100 h700
      rw [hday, hweek hne, h100, h700]
      have h7 : displayPrice / 100 / 7 = displayPrice / 700 := by
        rw [div_div]
        norm_num
      rw [h7]

/-- Witness of the amended C29: a week price of 700000 and no day price, for a
yacht without a fixed price. -/
theorem estimated_day_price_witness :
    ∃ week, (some { displayPrice := some 700000, displayCurrency := some "USD" } :
        Option Yacht.PriceFrom) = some week ∧
      ∀ displayPrice, week.displayPrice = some displayPrice →
        (Yacht.computePricing Example.enrichOps.divide "c::1::vessel::a"
          { dayPricingFrom := none,
            weekPricingFrom := some { displayPrice := some 700000,
                                      displayCurrency := some "USD" } }).day
          = some (Yacht.mathRound (Example.enrichOps.divide displayPrice 700)) :=
  (estimated_day_price Example.enrichOps.divide "c::1::vessel::a"
    { dayPricingFrom := none,
      weekPricingFrom := some { displayPrice := some 700000, displayCurrency := some "USD" } }
    (by decide) (by decide) (by decide)).imp fun _ h => ⟨h.1, fun p hp => (h.2.2 p hp).1⟩

/-! ## The claim set signed by auth.js -/

theorem auth_payload_fields (env : ProcessEnv) (iatClock expClock : Nat) :
    (Auth.handler.payload env iatClock expClock).iss = env.NEXT_PUBLIC_COMPANY_URI ∧
    (Auth.handler.payload env iatClock expClock).sub = env.NEXT_PUBLIC_COMPANY_URI ∧
    (Auth.handler.payload env iatClock expClock).aud = "ankor.io" ∧
    (Auth.handler.payload env iatClock expClock).iat = iatClock / 1000 ∧
    (Auth.handler.payload env iatClock expClock).exp = expClock / 1000 + 3600 ∧
    (iatClock / 1000 = expClock / 1000 →
      (Auth.handler.payload env iatClock expClock).exp
        = (Auth.handler.payload env iatClock expClock).iat + 3600) := by
  refine ⟨rfl, rfl, rfl, rfl, rfl, ?_⟩
  intro h
  simp [Auth.handler.payload, h]

/-- C21, the code at the failing input: a POST to the auth handler of the
example deployment whose first `Date.now()` call reads 1700000000999 and whose
second reads 1700000001000 succeeds with status 200.  The claim set handed to
`jwt.sign` has `iss = sub =` the company URI, `aud = "ankor.io"`,
`iat = 1700000000` and `exp = 1700003601`; this `iat` is not 0, so whatever
the clock reads inside `jwt.sign` these are the claims that are signed, and
`exp` is `iat + 3601`. -/
theorem auth_exp_across_second :
    Auth.handler Example.env Example.deps.sign "POST" 1700000000999 1700000001000
      = { status := 200, body := .jwt_assertion "jwt" } ∧
    (∀ sign : Auth.Payload → String → Auth.Header → Option String,
      Auth.handler Example.env sign "POST" 1700000000999 1700000001000 =
        match sign (Auth.handler.payload Example.env 1700000000999 1700000001000)
            "private-key" { alg := "RS256", typ := "JWT", kid := "key-1" } with
        | some token => { status := 200, body := .jwt_assertion token }
        | none => { status := 500, body := .error "Failed to generate JWT" }) ∧
    Auth.handler.payload Example.env 1700000000999 1700000001000
      = { scopes := ["website:read:*"], iss := "c::8864389904", aud := "ankor.io",
          sub := "c::8864389904", iat := 1700000000, exp := 1700003601 } ∧
    (∀ signClock,
      Auth.signedClaims (Auth.handler.payload Example.env 1700000000999 1700000001000)
          signClock
        = { scopes := ["website:read:*"], iss := "c::8864389904", aud := "ankor.io",
            sub := "c::8864389904", iat := 1700000000, exp := 1700003601 }) ∧
    (∀ signClock,
      (Auth.signedClaims (Auth.handler.payload Example.env 1700000000999 1700000001000)
          signClock).exp
        = (Auth.signedClaims (Auth.handler.payload Example.env 1700000000999 1700000001000)
          signClock).iat + 3601) := by
  have hp : Auth.handler.payload Example.env 1700000000999 1700000001000
      = { scopes := ["website:read:*"], iss := "c::8864389904", aud := "ankor.io",
          sub := "c::8864389904", iat := 1700000000, exp := 1700003601 } := by
    decide
  refine ⟨by decide, ?_, hp, ?_, ?_⟩
  · intro sign
    rfl
  · intro signClock
    rw [hp]
    rfl
  · intro signClock
    rw [hp]
    rfl

/-! ## The region read from the operating areas -/

theorem primaryRegion_loop_some (toLowerCase : String → String) (areas : List String)
    (table : List (String × List String)) (R : String) :
    Yacht.primaryRegion.loop toLowerCase areas table = some R ↔
      ∃ pre locations post, table = pre ++ (R, locations) :: post ∧
        Yacht.regionMatches toLowerCase areas (R, locations) = true ∧
        ∀ e ∈ pre, Yacht.regionMatches toLowerCase areas e = false := by
  induction table with
  | nil => simp [Yacht.primaryRegion.loop]
  | cons entry rest ih =>
    obtain ⟨region, locs⟩ := entry
    rw [Yacht.primaryRegion.loop]
    by_cases hm : Yacht.regionMatches toLowerCase areas (region, locs) = true
    · rw [if_pos hm]
      constructor
      · intro h
        cases h
        exact ⟨[], locs, rest, rfl, hm, by simp⟩
      · rintro ⟨pre, locations, post, heq, _, hpre⟩
        cases pre with
        | nil =>
          simp only [List.nil_append, List.cons.injEq, Prod.mk.injEq] at heq
          rw [heq.1.1]
        | cons e pre =>
          simp only [List.cons_append, List.cons.injEq] at heq
          have := hpre e (List.mem_cons_self _ _)
          rw [← heq.1, hm] at this
          cases this
    · rw [if_neg hm, ih]
      constructor
      · rintro ⟨pre, locations, post, heq, hR, hpre⟩
        refine ⟨(region, locs) :: pre, locations, post, by rw [heq]; rfl, hR, ?_⟩
        intro e he
        rcases List.mem_cons.1 he with rfl | he
        · simpa using hm
        · exact hpre e he
      · rintro ⟨pre, locations, post, heq, hR, hpre⟩
        cases pre with
        | nil =>
          simp only [List.nil_append, List.cons.injEq, Prod.mk.injEq] at heq
          rw [heq.1.1, heq.1.2, hR] at hm
          exact absurd rfl hm
        | cons e pre =>
          simp only [List.cons_append, List.cons.injEq] at heq
          exact ⟨pre, locations, post, heq.2, hR,
            fun e' he' => hpre e' (List.mem_cons_of_mem _ he')⟩

theorem regionMatches_iff (toLowerCase : String → String) (areas : List String)
    (entry : String × List String) :
    Yacht.regionMatches toLowerCase areas entry = true ↔
      ∃ area ∈ areas,
        (∃ location ∈ entry.2,
          strIncludes (toLowerCase area) (toLowerCase location) = true) ∨
        strIncludes (toLowerCase area) (toLowerCase entry.1) = true := by
  simp [Yacht.regionMatches, List.any_eq_true]

theorem regionMatches_perm (toLowerCase : String → String) (areas areas' : List String)
    (entry : String × List String) (h : areas'.Perm areas) :
    Yacht.regionMatches toLowerCase areas' entry
      = Yacht.regionMatches toLowerCase areas entry := by
  rw [Bool.eq_iff_iff, regionMatches_iff, regionMatches_iff]
  constructor
  · rintro ⟨area, ha, hr⟩
    exact ⟨area, h.mem_iff.1 ha, hr⟩
  · rintro ⟨area, ha, hr⟩
    exact ⟨area, h.mem_iff.2 ha, hr⟩

theorem primaryRegion_loop_perm (toLowerCase : String → String) (areas areas' : List String)
    (table : List (String × List String)) (h : areas'.Perm areas) :
    Yacht.primaryRegion.loop toLowerCase areas' table
      = Yacht.primaryRegion.loop toLowerCase areas table := by
  induction table with
  | nil => rfl
  | cons entry rest ih =>
    obtain ⟨region, locs⟩ := entry
    rw [Yacht.primaryRegion.loop, Yacht.primaryRegion.loop, ih,
      regionMatches_perm toLowerCase areas areas' (region, locs) h]

theorem enrich_keeps_base {J D X : Type} (env : ProcessEnv) (net : Network J)
    (ops : Yacht.EnrichOps J D) (yacht : Yacht.ListedYacht X) (tok : String)
    (s : Yacht.EnrichState D) :
    (Yacht.enrichYachtWithDetails env net ops yacht tok s).1 =
      { Yacht.enrichYachtWithDetails.base ops yacht with
        pricing := (Yacht.enrichYachtWithDetails env net ops yacht tok s).1.pricing } := by
  unfold Yacht.enrichYachtWithDetails
  simp only []
  split
  · rfl
  · split_ifs
    · rfl
    · split
      · rfl
      · split
        · split <;> rfl
        · rfl

/-- C26: in `enrichYachtWithDetails`, for the list of operating areas of a
description: the loop over `regionMapping` yields the region `R` exactly when
`R` is the first entry of the table, in the order of the table, for which
some area contains, after `toLowerCase` on both sides, one of the locations
of `R` or the name of `R`; the result does not depend on the order of the
areas; the returned yacht has that region, and when no entry matches, or the
description has no operating areas, or there is no description, the returned
yacht has the region of the input yacht. -/
theorem region_first_match {J D X : Type} (env : ProcessEnv) (net : Network J)
    (ops : Yacht.EnrichOps J D) (yacht : Yacht.ListedYacht X) (tok : String)
    (s : Yacht.EnrichState D) :
    (∀ (areas : List String) (R : String),
      Yacht.primaryRegion ops.toLowerCase areas = some R ↔
        ∃ pre locations post, Yacht.regionMapping = pre ++ (R, locations) :: post ∧
          (∃ area ∈ areas,
            (∃ location ∈ locations,
              strIncludes (ops.toLowerCase area) (ops.toLowerCase location) = true) ∨
            strIncludes (ops.toLowerCase area) (ops.toLowerCase R) = true) ∧
          ∀ e ∈ pre, ¬ ∃ area ∈ areas,
            (∃ location ∈ e.2,
              strIncludes (ops.toLowerCase area) (ops.toLowerCase location) = true) ∨
            strIncludes (ops.toLowerCase area) (ops.toLowerCase e.1) = true) ∧
    (∀ (areas areas' : List String), areas'.Perm areas →
      Yacht.primaryRegion ops.toLowerCase areas' = Yacht.primaryRegion ops.toLowerCase areas) ∧
    (∀ (description : String) (areas : List String),
      yacht.description = some description → description ≠ "" →
      ops.operatingAreas description = some areas →
      (∀ R, Yacht.primaryRegion ops.toLowerCase areas = some R →
        (Yacht.enrichYachtWithDetails env net ops yacht tok s).1.region = some R) ∧
      (Yacht.primaryRegion ops.toLowerCase areas = none →
        (Yacht.enrichYachtWithDetails env net ops yacht tok s).1.region = yacht.region)) ∧
    (∀ (description : String), yacht.description = some description →
      ops.operatingAreas description = none →
      (Yacht.enrichYachtWithDetails env net ops yacht tok s).1.region = yacht.region) ∧
    (yacht.description = none →
      (Yacht.enrichYachtWithDetails env net ops yacht tok s).1.region = yacht.region) := by
  have hreg : (Yacht.enrichYachtWithDetails env net ops yacht tok s).1.region
      = (Yacht.enrichYachtWithDetails.base ops yacht).region := by
    rw [enrich_keeps_base]
  refine ⟨?_, ?_, ?_, ?_, ?_⟩
  · intro areas R
    rw [Yacht.primaryRegion, primaryRegion_loop_some]
    constructor
    · rintro ⟨pre, locations, post, heq, hR, hpre⟩
      refine ⟨pre, locations, post, heq, (regionMatches_iff _ _ _).1 hR, ?_⟩
      intro e he hex
      have := hpre e he
      rw [(regionMatches_iff _ _ _).2 hex] at this
      cases this
    · rintro ⟨pre, locations, post, heq, hR, hpre⟩
      refine ⟨pre, locations, post, heq, (regionMatches_iff _ _ (R, locations)).2 hR, ?_⟩
      intro e he
      cases hm : Yacht.regionMatches ops.toLowerCase areas e with
      | false => rfl
      | true => exact absurd ((regionMatches_iff _ _ _).1 hm) (hpre e he)
  · intro areas areas' h
    exact primaryRegion_loop_perm _ _ _ _ h
  · intro description areas hd hne ha
    rw [hreg]
    unfold Yacht.enrichYachtWithDetails.base
    simp only [hd, hne, if_false, ha]
    constructor
    · intro R hR
      simp [hR]
    · intro hnone
      simp [hnone]
  · intro description hd ha
    rw [hreg]
    unfold Yacht.enrichYachtWithDetails.base
    simp only [hd, ha]
    split_ifs <;> rfl
  · intro hd
    rw [hreg]
    unfold Yacht.enrichYachtWithDetails.base
    simp only [hd]

/-- Witness of C26: the areas `Monaco` and `Greece`, in either order, give the
region `West Mediterranean`, the first entry of the table, though `Greece` is
a location of `East Mediterranean`. -/
theorem region_first_match_witness :
    (Example.described "Operating Area: Monaco, Greece" (some "Caribbean")).description
      = some "Operating Area: Monaco, Greece" ∧
    Yacht.primaryRegion Example.enrichOpsAreas.toLowerCase ["Greece", "Monaco"]
      = some "West Mediterranean" ∧
    (Yacht.enrichYachtWithDetails Example.env Example.net Example.enrichOpsAreas
        (Example.described "Operating Area: Monaco, Greece" (some "Caribbean")) "tok"
        Example.enrichStart).1.region = some "West Mediterranean" :=
  ⟨rfl,
   ((region_first_match Example.env Example.net Example.enrichOpsAreas
      (Example.described "Operating Area: Monaco, Greece" (some "Caribbean")) "tok"
      Example.enrichStart).2.1 ["Monaco", "Greece"] ["Greece", "Monaco"]
      (List.Perm.swap _ _ _)).trans (by decide),
   ((region_first_match Example.env Example.net Example.enrichOpsAreas
      (Example.described "Operating Area: Monaco, Greece" (some "Caribbean")) "tok"
      Example.enrichStart).2.2.1 "Operating Area: Monaco, Greece" ["Monaco", "Greece"]
      rfl (by decide) rfl).1 "West Mediterranean" (by decide)⟩

/-! ## The batches of the enrichment -/

theorem ceil_div_step (d b : Nat) (hb : 1 ≤ b) (hd : 1 ≤ d) :
    (d + b - 1) / b = (d - b + b - 1) / b + 1 := by
  have h1 : d + b - 1 = (d - 1) + b := by omega
  rw [h1, Nat.add_div_right _ (by omega : 0 < b)]
  congr 1
  rcases Nat.lt_or_ge d b with h | h
  · have h2 : d - b + b - 1 = b - 1 := by omega
    rw [h2, Nat.div_eq_of_lt (by omega), Nat.div_eq_of_lt (by omega)]
  · have h2 : d - b + b - 1 = d - 1 := by omega
    rw [h2]

theorem foldl_processBatch_batches {J D X : Type} (env : ProcessEnv) (net : Network J)
    (ops : Yacht.EnrichOps J D) (tok : String) (bs : List (List (Yacht.ListedYacht X)))
    (run : Yacht.BatchRun D X) :
    (bs.foldl (Yacht.fetchYachtDetailsWithConcurrency.processBatch env net ops tok) run).batches
      = run.batches ++ bs := by
  induction bs generalizing run with
  | nil => simp
  | cons b bs ih =>
    rw [List.foldl_cons, ih]
    simp [Yacht.fetchYachtDetailsWithConcurrency.processBatch]

theorem foldl_processBatch_state {J D X : Type} (env : ProcessEnv) (net : Network J)
    (ops : Yacht.EnrichOps J D) (tok : String) (bs : List (List (Yacht.ListedYacht X)))
    (run : Yacht.BatchRun D X) :
    (bs.foldl (Yacht.fetchYachtDetailsWithConcurrency.processBatch env net ops tok) run).state
      = bs.foldl (fun st batch => (Yacht.enrichBatch env net ops tok batch st).2) run.state := by
  induction bs generalizing run with
  | nil => simp
  | cons b bs ih =>
    rw [List.foldl_cons, ih]
    simp [Yacht.fetchYachtDetailsWithConcurrency.processBatch]

theorem loop_batches {J D X : Type} (env : ProcessEnv) (net : Network J)
    (ops : Yacht.EnrichOps J D) (tok : String) (l : List (Yacht.ListedYacht X))
    (batchSize : Nat) (hb : 1 ≤ batchSize) (fuel i : Nat) (run : Yacht.BatchRun D X)
    (h : l.length ≤ i + fuel) :
    ∃ bs : List (List (Yacht.ListedYacht X)),
      bs.length = (l.length - i + batchSize - 1) / batchSize ∧
      (∀ k, k < bs.length → bs[k]? = some ((l.drop (i + k * batchSize)).take batchSize)) ∧
      Yacht.fetchYachtDetailsWithConcurrency.loop env net ops tok l batchSize fuel i run =
        some (bs.foldl (Yacht.fetchYachtDetailsWithConcurrency.processBatch env net ops tok)
          run) := by
  have hdone : ∀ (fuel i : Nat) (run : Yacht.BatchRun D X), ¬ i < l.length →
      ∃ bs : List (List (Yacht.ListedYacht X)),
        bs.length = (l.length - i + batchSize - 1) / batchSize ∧
        (∀ k, k < bs.length → bs[k]? = some ((l.drop (i + k * batchSize)).take batchSize)) ∧
        Yacht.fetchYachtDetailsWithConcurrency.loop env net ops tok l batchSize fuel i run =
          some (bs.foldl (Yacht.fetchYachtDetailsWithConcurrency.processBatch env net ops tok)
            run) := by
    intro fuel i run hi
    refine ⟨[], ?_, ?_, ?_⟩
    · have h0 : l.length - i + batchSize - 1 = batchSize - 1 := by omega
      rw [h0, Nat.div_eq_of_lt (by omega)]
      rfl
    · intro k hk
      simp at hk
    · cases fuel <;> simp [Yacht.fetchYachtDetailsWithConcurrency.loop, hi]
  induction fuel generalizing i run with
  | zero => exact hdone 0 i run (by omega)
  | succ fuel ih =>
    by_cases hi : i < l.length
    · obtain ⟨bs, hlen, hidx, hloop⟩ := ih (i + batchSize)
        (Yacht.fetchYachtDetailsWithConcurrency.processBatch env net ops tok run
          ((l.drop i).take batchSize)) (by omega)
      refine ⟨(l.drop i).take batchSize :: bs, ?_, ?_, ?_⟩
      · rw [List.length_cons, hlen, ceil_div_step (l.length - i) batchSize hb (by omega)]
        have : l.length - (i + batchSize) = l.length - i - batchSize := by omega
        rw [this]
      · intro k hk
        cases k with
        | zero => simp
        | succ k =>
          have hk' : k < bs.length := by simpa using hk
          have harith : i + (k + 1) * batchSize = i + batchSize + k * batchSize := by
            rw [Nat.succ_mul]
            omega
          rw [List.getElem?_cons_succ, hidx k hk', harith]
      · rw [Yacht.fetchYachtDetailsWithConcurrency.loop, if_pos hi]
        exact hloop
    · exact hdone (fuel + 1) i run hi

/-- C25: for every list of `n` yachts and every batch size of at least 1, the
batch loop of `fetchYachtDetailsWithConcurrency` ends after
`(min(n, 20) + batchSize - 1) / batchSize` batches, the quotient rounded down,
which is `min(n, 20) / batchSize` rounded up.  Batch `k` is the slice of the
first `min(n, 20)` yachts from index `k * batchSize` with at most `batchSize`
elements; the batches in order make up exactly those yachts; and each batch is
enriched in the state that the batch before it left, the first one in the
state at the call. -/
theorem batches_partition {J D X : Type} (env : ProcessEnv) (net : Network J)
    (ops : Yacht.EnrichOps J D) (yachts : List (Yacht.ListedYacht X)) (tok : String)
    (batchSize : Nat) (data : CacheData D) (w : World) (hb : 1 ≤ batchSize) :
    ∃ run, Yacht.fetchYachtDetailsWithConcurrency env net ops yachts tok batchSize data w
        = some run ∧
      run.batches.length = (min yachts.length 20 + batchSize - 1) / batchSize ∧
      (∀ k, k < run.batches.length →
        run.batches[k]? =
          some (((yachts.take (min yachts.length 20)).drop (k * batchSize)).take batchSize)) ∧
      (∀ batch ∈ run.batches, batch.length ≤ batchSize) ∧
      run.batches.flatten = yachts.take (min yachts.length 20) ∧
      run.state = run.batches.foldl
        (fun st batch => (Yacht.enrichBatch env net ops tok batch st).2)
        { cache := data, world := w, registrationAttempted := [] } ∧
      run.results =
        (run.batches.foldl (Yacht.fetchYachtDetailsWithConcurrency.processBatch env net ops tok)
          { results := [], batches := [],
            state := { cache := data, world := w, registrationAttempted := [] } }).results
          ++ (yachts.drop (min yachts.length 20)).map Yacht.passThrough := by
  obtain ⟨bs, hlen, hidx, hloop⟩ := loop_batches env net ops tok
    (yachts.take (min yachts.length 20)) batchSize hb
    (yachts.take (min yachts.length 20)).length 0
    { results := [], batches := [],
      state := { cache := data, world := w, registrationAttempted := [] } } (by omega)
  have hl : (yachts.take (min yachts.length 20)).length = min yachts.length 20 := by
    rw [List.length_take]
    omega
  have hbatches := foldl_processBatch_batches env net ops tok bs
    { results := [], batches := [],
      state := { cache := data, world := w, registrationAttempted := [] } }
  have hstate := foldl_processBatch_state env net ops tok bs
    { results := [], batches := [],
      state := { cache := data, world := w, registrationAttempted := [] } }
  simp only [List.nil_append] at hbatches
  have hrun : Yacht.fetchYachtDetailsWithConcurrency env net ops yachts tok batchSize data w
      = some { (bs.foldl (Yacht.fetchYachtDetailsWithConcurrency.processBatch env net ops tok)
          { results := [], batches := [],
            state := { cache := data, world := w, registrationAttempted := [] } }) with
        results := (bs.foldl
          (Yacht.fetchYachtDetailsWithConcurrency.processBatch env net ops tok)
          { results := [], batches := [],
            state := { cache := data, world := w, registrationAttempted := [] } }).results
          ++ (yachts.drop (min yachts.length 20)).map Yacht.passThrough } := by
    unfold Yacht.fetchYachtDetailsWithConcurrency
    simp only []
    rw [hloop]
  obtain ⟨bs', hflat, hrun'⟩ :=
    Yacht.fetchYachtDetailsWithConcurrency_eq env net ops yachts tok batchSize data w hb
  have hsame := hrun.symm.trans hrun'
  have hbs' : bs = bs' := by
    have := congrArg (fun r => r.map (fun x => x.batches)) hsame
    simpa [hbatches] using this
  have htake : yachts.take (min yachts.length 20) = yachts.take 20 := by
    rcases Nat.le_total yachts.length 20 with h | h
    · rw [Nat.min_eq_left h, List.take_of_length_le (Nat.le_refl _), List.take_of_length_le h]
    · rw [Nat.min_eq_right h]
  refine ⟨_, hrun, ?_, ?_, ?_, ?_, ?_, ?_⟩
  · simp only [hbatches]
    rw [hlen, hl]
    simp
  · intro k hk
    simp only [hbatches] at hk ⊢
    rw [hidx k hk]
    simp
  · intro batch hmem
    simp only [hbatches] at hmem
    obtain ⟨k, hk, hget⟩ := List.getElem_of_mem hmem
    have := hidx k hk
    rw [List.getElem?_eq_getElem hk, hget] at this
    rw [Option.some.inj this, List.length_take]
    omega
  · simp only [hbatches]
    rw [hbs', hflat, htake]
  · simp only [hbatches]
    exact hstate
  · simp only [hbatches]

/-- Witness of C25: 25 yachts in batches of 8 are processed in 3 batches that
make up the first 20 yachts. -/
theorem batches_partition_witness :
    1 ≤ 8 ∧
    ∃ run, Yacht.fetchYachtDetailsWithConcurrency Example.env Example.net Example.enrichOps
        (List.replicate 25 (Example.listed "c::1::vessel::unpriced")) "tok" 8 []
        Example.start = some run ∧
      run.batches.length = 3 ∧ run.batches.flatten.length = 20 :=
  ⟨by decide, by
    obtain ⟨run, h1, h2, _, _, h5, _⟩ :=
      batches_partition Example.env Example.net Example.enrichOps
        (List.replicate 25 (Example.listed "c::1::vessel::unpriced")) "tok" 8 []
        Example.start (by decide)
    refine ⟨run, h1, ?_, ?_⟩
    · rw [h2]
      simp
    · rw [h5]
      simp⟩

/-! ## The ships collected by filtered-ships.js -/

theorem mergeByUri_nodup {X : Type} (allShips ships : List (FilteredShips.Ship X))
    (h1 : (allShips.map (fun ship => ship.uri)).Nodup)
    (h2 : (ships.map (fun ship => ship.uri)).Nodup) :
    ((FilteredShips.mergeByUri allShips ships).map (fun ship => ship.uri)).Nodup := by
  unfold FilteredShips.mergeByUri
  simp only [List.map_append]
  rw [List.nodup_append]
  refine ⟨h1, ?_, ?_⟩
  · exact (List.filter_sublist _).map _ |>.nodup h2
  · intro u hu1 hu2
    obtain ⟨ship, hship, rfl⟩ := List.mem_map.1 hu2
    have := (List.mem_filter.1 hship).2
    simp at this
    obtain ⟨ship', hs', he⟩ := List.mem_map.1 hu1
    exact this ship' hs' he

/-- C27, the code at the failing input: in the example deployment, where the
one page of the downstream search holds two ships with the same uri, the
handler of filtered-ships.js answers with `totalFetched = 2` and both ships in
`hits`: the ships of one page are only compared with the ships of the pages
before it. -/
theorem filteredShips_duplicate_in_page :
    (Example.filteredShipsHandler { method := "GET", origin := none, query := [] }
        { cache := [], tokenCache := tokenCache.initial } Example.start).1.status = 200 ∧
    (Example.filteredShipsHandler { method := "GET", origin := none, query := [] }
        { cache := [], tokenCache := tokenCache.initial } Example.start).1.body
      = .json { estHits := 2,
                hits := [{ uri := some "c::8864389904::vessel::a", rest := "first" },
                         { uri := some "c::8864389904::vessel::a", rest := "second" }],
                totalFetched := 2 } ∧
    FilteredShips.mergeByUri ([] : List (FilteredShips.Ship String))
        [{ uri := some "c::8864389904::vessel::a", rest := "first" },
         { uri := some "c::8864389904::vessel::a", rest := "second" }]
      = [{ uri := some "c::8864389904::vessel::a", rest := "first" },
         { uri := some "c::8864389904::vessel::a", rest := "second" }] := by
  decide
